import Mathlib

/-!
The pdfeditor repository: page-set planner, document rebuilder, selection model and crop
transformer.

A shallow embedding of `src/app/components/pdf-editor/PDFRemover.js` and
`src/app/components/pdf-editor/PDFEditor.js`.

Conventions of the embedding.

* A JavaScript string is a `List Char`.
* A JavaScript number that holds a page number is an `Int`, a coordinate is a `ℚ`:
  arithmetic is exact (no rounding of doubles, no `Infinity`).  `NaN` is `none`.
* `null` is `none`; in a numeric comparison `null` counts as `0`.
* React state is a record; an event handler is a function from the record (and the event)
  to the next record.
-/

set_option autoImplicit false

/-! ## JavaScript string primitives -/

namespace Js

/-- The code points `String.prototype.trim` and `parseInt` strip: the WhiteSpace and
LineTerminator productions of ECMAScript. -/
def isWhiteSpace (c : Char) : Bool :=
  c.toNat == 0x09 || c.toNat == 0x0A || c.toNat == 0x0B || c.toNat == 0x0C ||
  c.toNat == 0x0D || c.toNat == 0x20 || c.toNat == 0xA0 || c.toNat == 0x1680 ||
  (0x2000 ≤ c.toNat && c.toNat ≤ 0x200A) || c.toNat == 0x2028 || c.toNat == 0x2029 ||
  c.toNat == 0x202F || c.toNat == 0x205F || c.toNat == 0x3000 || c.toNat == 0xFEFF

/-- The method `String.prototype.trimStart`. -/
def trimStart (s : List Char) : List Char :=
  s.dropWhile isWhiteSpace

/-- The method `String.prototype.trimEnd`. -/
def trimEnd (s : List Char) : List Char :=
  (s.reverse.dropWhile isWhiteSpace).reverse

/-- The method `String.prototype.trim`. -/
def trim (s : List Char) : List Char :=
  trimEnd (trimStart s)

/-- The method `String.prototype.split` with a one-character separator: the pieces between
the separators, so that `"".split(",")` is `[""]`. -/
def split (sep : Char) : List Char → List (List Char)
  | [] => [[]]
  | c :: cs =>
    if c = sep then [] :: split sep cs
    else (c :: (split sep cs).headD []) :: (split sep cs).tail

/-- The method `String.prototype.includes` with a one-character argument. -/
def includes (s : List Char) (c : Char) : Bool :=
  s.contains c

/-- Value of a decimal digit character. -/
def digitVal (c : Char) : Nat :=
  c.toNat - 48

/-- Value of a run of decimal digits, most significant first. -/
def digitsVal (ds : List Char) : Nat :=
  ds.foldl (fun acc c => 10 * acc + digitVal c) 0

/-- The function `parseInt(s, 10)`: leading white space is skipped, one sign is read, then
the longest run of decimal digits; `none` is `NaN` (no digit). -/
def parseInt (s : List Char) : Option Int :=
  match trimStart s with
  | '-' :: r =>
    if r.takeWhile Char.isDigit = [] then none
    else some (-(digitsVal (r.takeWhile Char.isDigit) : Int))
  | '+' :: r =>
    if r.takeWhile Char.isDigit = [] then none
    else some (digitsVal (r.takeWhile Char.isDigit) : Int)
  | r =>
    if r.takeWhile Char.isDigit = [] then none
    else some (digitsVal (r.takeWhile Char.isDigit) : Int)

/-- The method `Set.prototype.add` on a set kept in insertion order. -/
def setAdd (s : List Int) (i : Int) : List Int :=
  if i ∈ s then s else s ++ [i]

/-- The call `xs.sort((a, b) => a - b)`: the ascending rearrangement of `xs`. -/
def sortNumeric (xs : List Int) : List Int :=
  xs.insertionSort (· ≤ ·)

/-- The values `lo, lo + 1, ..., lo + n - 1` a counting loop runs through. -/
def countFrom (lo : Int) : Nat → List Int
  | 0 => []
  | n + 1 => lo :: countFrom (lo + 1) n

/-- The values of `i` in `for (let i = lo; i <= hi; i++)`. -/
def forRange (lo hi : Int) : List Int :=
  countFrom lo (hi - lo + 1).toNat

end Js

/-! ## PDFRemover.js -/

namespace PDFRemover

open Js

/-- The pair `[start, end]` destructured from `range.split('-').map(num => parseInt(num.trim(), 10))`:
the first two pieces, parsed. -/
def rangeBounds (range : List Char) : Option Int × Option Int :=
  let parts := (split '-' range).map (fun num => parseInt (trim num))
  (parts.getD 0 none, parts.getD 1 none)

/-- One turn of the `for (const range of ranges)` loop of `parsePageRanges`. -/
def parseToken (totalPages : Int) (selectedPages : List Int) (range : List Char) : List Int :=
  if includes range '-' then
    match rangeBounds range with
    | (some start, some «end») =>
      (forRange (min start «end») (max start «end»)).foldl
        (fun sel i => if 1 ≤ i ∧ i ≤ totalPages then setAdd sel i else sel) selectedPages
    | _ => selectedPages
  else
    match parseInt range with
    | some page => if 1 ≤ page ∧ page ≤ totalPages then setAdd selectedPages page else selectedPages
    | none => selectedPages

/-- The function `parsePageRanges(input, totalPages)`. -/
def parsePageRanges (input : List Char) (totalPages : Int) : List Int :=
  if trim input = [] then []
  else
    let ranges := (split ',' input).map trim
    sortNumeric (ranges.foldl (parseToken totalPages) [])

end PDFRemover

/-! ### Documents and the pdf-lib collaborator -/

/-- A rectangle `{ x, y, width, height }`. -/
structure Rect where
  x : ℚ
  y : ℚ
  width : ℚ
  height : ℚ
deriving DecidableEq

/-- A page of a document: `width` and `height` are what `getWidth()` and `getHeight()`
return (points), `content` names its content stream, `mediaBox` and `cropBox` are the boxes
written by `setMediaBox` and `setCropBox` (`none`: never written). -/
structure PdfPage where
  width : ℚ
  height : ℚ
  content : Nat
  mediaBox : Option Rect := none
  cropBox : Option Rect := none
deriving DecidableEq

/-- A file object `{ file, url, name }`: `document` is what `PDFDocument.load` makes of the
bytes of `file` (`none`: load throws), `size` is the size of the blob. -/
structure PdfFile where
  name : Option String
  document : Option (List PdfPage)
  size : Nat
deriving DecidableEq

/-- The calls into pdf-lib that may throw during a rebuild: `copyThrows p` says that
`copyPages` throws on page `p`, `save pages` is the size of the bytes `save()` returns for a
document made of `pages` (`none`: save throws). -/
structure PdfLib where
  copyThrows : PdfPage → Bool
  save : List PdfPage → Option Nat

/-- The call `newDoc.copyPages(srcDoc, [index])`: the page at `index`, or `none` when the
call throws (no such page, or the page cannot be copied). -/
def PdfLib.copyPages (lib : PdfLib) (srcDoc : List PdfPage) (index : Int) : Option PdfPage :=
  if index < 0 then none
  else match srcDoc.get? index.toNat with
    | some p => if lib.copyThrows p then none else some p
    | none => none

/-- A result object `{ file, url, name, size, numPages }` stored after a rebuild. -/
structure ResultData where
  document : List PdfPage
  name : String
  size : Nat
  numPages : Nat
deriving DecidableEq

/-- The value of `numPages` in a numeric comparison: `null` counts as `0`. -/
def numOf : Option Nat → Int
  | none => 0
  | some n => (n : Int)

/-- The expression `Array.from({ length: numPages }, (_, i) => i + 1).filter(pageNum =>
!selectedPages.includes(pageNum))` of `removePages` (both components). -/
def pagesToKeep (numPages : Option Nat) (selectedPages : List Int) : List Int :=
  ((List.range (numPages.getD 0)).map (fun (i : Nat) => (i : Int) + 1)).filter
    (fun pageNum => !selectedPages.contains pageNum)

/-- The loop `for (const pageNum of pagesToKeep)` of `removePages`: the pages of the new
document, or `none` when a copy throws. -/
def copyKept (lib : PdfLib) (pdfDoc : List PdfPage) : List Int → Option (List PdfPage)
  | [] => some []
  | pageNum :: rest =>
    match lib.copyPages pdfDoc (pageNum - 1) with
    | none => none
    | some copiedPage =>
      match copyKept lib pdfDoc rest with
      | none => none
      | some pages => some (copiedPage :: pages)

/-- The guard at the head of `removePages` (both components):
`!pdfFile || selectedPages.length === 0 || selectedPages.length === numPages`. -/
def removeGuard (pdfFile : Option PdfFile) (selectedPages : List Int) (numPages : Option Nat) :
    Bool :=
  pdfFile.isNone || selectedPages.length == 0 || some selectedPages.length == numPages

/-- The text of the alert raised by the guard of `removePages`. -/
def selectAlert : String :=
  "Please select at least one page to remove, but not all pages."

/-- The text of the alert raised by the `catch` block of `removePages`. -/
def removeErrorAlert : String :=
  "An error occurred while removing pages. Please try again."

/-- The method `togglePageSelection` on the list itself (both components). -/
def toggleList (prev : List Int) (pageNum : Int) : List Int :=
  if prev.contains pageNum then prev.filter (fun p => p != pageNum)
  else Js.sortNumeric (prev ++ [pageNum])

namespace PDFRemover

open Js

/-- The React state of the `PDFRemover` component (the fields the handlers below read or
write) together with the alerts raised so far. -/
structure State where
  numPages : Option Nat := none
  currentPage : Nat := 1
  selectedPages : List Int := []
  isProcessing : Bool := false
  pdfFile : Option PdfFile := none
  pagesToRemove : List Char := []
  processedFile : Option ResultData := none
  showProcessedPreview : Bool := false
  currentProcessedPage : Nat := 1
  validationError : Option String := none
  alerts : List String := []
deriving DecidableEq

/-- The handler `togglePageSelection(pageNum)`. -/
def togglePageSelection (s : State) (pageNum : Int) : State :=
  { s with selectedPages := toggleList s.selectedPages pageNum }

/-- The handler `handlePagesToRemoveChange(e)` with `e.target.value = value`. -/
def handlePagesToRemoveChange (s : State) (value : List Char) : State :=
  if trim value = [] then { s with pagesToRemove := value, validationError := none }
  else { s with pagesToRemove := value }

/-- One `if (!isNaN(v) && v > numPages)` step of the validation loop: the pair is
`(hasInvalidPages, highestInvalidPage)`. -/
def flagInvalid (numPages : Int) (acc : Bool × Int) (v : Option Int) : Bool × Int :=
  match v with
  | some n => if n > numPages then (true, max acc.2 n) else acc
  | none => acc

/-- One turn of the `for (const range of inputRanges)` loop of `applyPageSelection`. -/
def validateToken (numPages : Int) (acc : Bool × Int) (range : List Char) : Bool × Int :=
  if includes range '-' then
    flagInvalid numPages (flagInvalid numPages acc (rangeBounds range).1) (rangeBounds range).2
  else
    flagInvalid numPages acc (parseInt range)

/-- The validation loop of `applyPageSelection`: `(hasInvalidPages, highestInvalidPage)`
after all tokens. -/
def validate (pagesToRemove : List Char) (numPages : Int) : Bool × Int :=
  ((split ',' pagesToRemove).map trim).foldl (validateToken numPages) (false, 0)

/-- The text of `numPages` inside a template literal. -/
def showNumPages : Option Nat → String
  | none => "null"
  | some n => toString n

/-- The message passed to `setValidationError`. -/
def validationMessage (numPages : Option Nat) (highestInvalidPage : Int) : String :=
  "Invalid page number(s): This PDF only has " ++ showNumPages numPages ++
    " pages, but you entered page " ++
    (if highestInvalidPage > numOf numPages then toString highestInvalidPage
     else "numbers that exceed the total") ++ "."

/-- The handler `applyPageSelection()`. -/
def applyPageSelection (s : State) : State :=
  let checked := validate s.pagesToRemove (numOf s.numPages)
  if checked.1 then
    { s with validationError := some (validationMessage s.numPages checked.2) }
  else
    { s with validationError := none,
             selectedPages := parsePageRanges s.pagesToRemove (numOf s.numPages) }

/-- The head of `removePages()`: `none` when the guard rejects the request (an alert is
raised and nothing else happens), otherwise the state after `setIsProcessing(true)`. -/
def removePagesStart (s : State) : Option State :=
  if removeGuard s.pdfFile s.selectedPages s.numPages then none
  else some { s with isProcessing := true }

/-- The `try` block of `removePages()`: the new document and the size of its bytes, or
`none` when load, a copy or save throws. -/
def rebuild (lib : PdfLib) (s : State) : Option (List PdfPage × Nat) :=
  match s.pdfFile with
  | none => none
  | some file =>
    match file.document with
    | none => none
    | some pdfDoc =>
      match copyKept lib pdfDoc (pagesToKeep s.numPages s.selectedPages) with
      | none => none
      | some pages =>
        match lib.save pages with
        | none => none
        | some size => some (pages, size)

/-- The `try`/`catch`/`finally` of `removePages()`, from a state in which the rebuild has
been started. -/
def removePagesFinish (lib : PdfLib) (s : State) : State :=
  match rebuild lib s with
  | some (pages, size) =>
    let processedData : ResultData :=
      { document := pages,
        name := "modified-" ++ ((s.pdfFile.bind (fun f => f.name)).getD "document.pdf"),
        size := size,
        numPages := (pagesToKeep s.numPages s.selectedPages).length }
    { s with processedFile := some processedData, showProcessedPreview := true,
             currentProcessedPage := 1, isProcessing := false }
  | none => { s with alerts := s.alerts ++ [removeErrorAlert], isProcessing := false }

/-- The handler `removePages()` run to its end. -/
def removePages (lib : PdfLib) (s : State) : State :=
  match removePagesStart s with
  | none => { s with alerts := s.alerts ++ [selectAlert] }
  | some started => removePagesFinish lib started

end PDFRemover

/-! ## PDFEditor.js -/

/-- A point `{ x, y }`. -/
structure Point where
  x : ℚ
  y : ℚ
deriving DecidableEq

/-- A size `{ width, height }`. -/
structure Size where
  width : ℚ
  height : ℚ
deriving DecidableEq

/-- The rectangle `getBoundingClientRect()` returns for the page container. -/
structure DOMRect where
  left : ℚ
  top : ℚ
  width : ℚ
  height : ℚ
deriving DecidableEq

/-- A mouse event on the page container: the pointer position and the bounding rectangle of
`e.currentTarget`. -/
structure MouseEvent where
  clientX : ℚ
  clientY : ℚ
  rect : DOMRect
deriving DecidableEq

/-- The values of `activeHandle` other than `null`. -/
inductive Handle where
  | topLeft
  | topRight
  | bottomLeft
  | bottomRight
  | top
  | right
  | bottom
  | left
  | move
deriving DecidableEq

/-- The call `page.getViewport({ scale })` of the rendering collaborator: the size of the
page at the given scale (display size = natural size × scale). -/
def getViewport (page : PdfPage) (scale : ℚ) : Size :=
  { width := page.width * scale, height := page.height * scale }

namespace PDFEditor

/-- The React state of the `PDFEditor` component (the fields the handlers below read or
write), the alerts raised so far and the number of calls of the `onReset` prop. -/
structure State where
  numPages : Option Nat := none
  currentPage : Int := 1
  scale : ℚ := 1
  cropArea : Rect := { x := 0, y := 0, width := 0, height := 0 }
  isCropping : Bool := false
  selectedPages : List Int := []
  isProcessing : Bool := false
  pdfFile : Option PdfFile := none
  pageSize : Size := { width := 0, height := 0 }
  cropDimensions : Option Rect := none
  cropApplied : Bool := false
  cropAllPages : Bool := true
  isDragging : Bool := false
  activeHandle : Option Handle := none
  croppedPdfData : Option ResultData := none
  croppedPdfSize : Nat := 0
  showCroppedPreview : Bool := false
  croppedPdfLoaded : Bool := false
  cropStart : Option Point := some { x := 0, y := 0 }
  cropEnd : Option Point := some { x := 0, y := 0 }
  selectionLocked : Bool := false
  currentCroppedPage : Nat := 1
  alerts : List String := []
  resetCalls : Nat := 0
deriving DecidableEq

/-- The handler `onPageLoadSuccess(page)`. -/
def onPageLoadSuccess (s : State) (page : PdfPage) : State :=
  let viewport := getViewport page 1
  { s with pageSize := { width := viewport.width, height := viewport.height },
           cropArea := { x := 0, y := 0, width := viewport.width, height := viewport.height } }

/-- The pointer abscissa relative to the page container, clamped to it:
`Math.max(0, Math.min(e.clientX - rect.left, rect.width))`. -/
def pointerX (e : MouseEvent) : ℚ :=
  max 0 (min (e.clientX - e.rect.left) e.rect.width)

/-- The pointer ordinate relative to the page container, clamped to it:
`Math.max(0, Math.min(e.clientY - rect.top, rect.height))`. -/
def pointerY (e : MouseEvent) : ℚ :=
  max 0 (min (e.clientY - e.rect.top) e.rect.height)

/-- The object `handles` of `handleMouseDown`, in the order of its keys. -/
def handleRegions (cd : Rect) : List (Handle × Rect) :=
  let handleSize : ℚ := 10
  [ (Handle.topLeft,
      { x := cd.x - handleSize / 2, y := cd.y - handleSize / 2,
        width := handleSize, height := handleSize }),
    (Handle.topRight,
      { x := cd.x + cd.width - handleSize / 2, y := cd.y - handleSize / 2,
        width := handleSize, height := handleSize }),
    (Handle.bottomLeft,
      { x := cd.x - handleSize / 2, y := cd.y + cd.height - handleSize / 2,
        width := handleSize, height := handleSize }),
    (Handle.bottomRight,
      { x := cd.x + cd.width - handleSize / 2, y := cd.y + cd.height - handleSize / 2,
        width := handleSize, height := handleSize }),
    (Handle.top,
      { x := cd.x + cd.width / 2 - handleSize / 2, y := cd.y - handleSize / 2,
        width := handleSize, height := handleSize }),
    (Handle.right,
      { x := cd.x + cd.width - handleSize / 2, y := cd.y + cd.height / 2 - handleSize / 2,
        width := handleSize, height := handleSize }),
    (Handle.bottom,
      { x := cd.x + cd.width / 2 - handleSize / 2, y := cd.y + cd.height - handleSize / 2,
        width := handleSize, height := handleSize }),
    (Handle.left,
      { x := cd.x - handleSize / 2, y := cd.y + cd.height / 2 - handleSize / 2,
        width := handleSize, height := handleSize }) ]

/-- The test `x >= r.x && x <= r.x + r.width && y >= r.y && y <= r.y + r.height`. -/
def inside (r : Rect) (x y : ℚ) : Bool :=
  decide (x ≥ r.x) && decide (x ≤ r.x + r.width) && decide (y ≥ r.y) &&
    decide (y ≤ r.y + r.height)

/-- The tail of `handleMouseDown`: start a new selection at `(x, y)`. -/
def startSelection (s : State) (x y : ℚ) : State :=
  { s with selectionLocked := false, activeHandle := none, isDragging := true,
           cropStart := some { x := x, y := y }, cropEnd := some { x := x, y := y },
           cropDimensions := some { x := x, y := y, width := 0, height := 0 } }

/-- The handler `handleMouseDown(e)`. -/
def handleMouseDown (s : State) (e : MouseEvent) : State :=
  if !s.isCropping || s.pdfFile.isNone then s
  else
    let x := pointerX e
    let y := pointerY e
    match s.cropDimensions, s.selectionLocked with
    | some cd, true =>
      match (handleRegions cd).find? (fun hr => inside hr.2 x y) with
      | some hr => { s with activeHandle := some hr.1, isDragging := true }
      | none =>
        if inside cd x y then
          { s with activeHandle := some Handle.move, isDragging := true,
                   cropStart := some { x := x, y := y } }
        else startSelection s x y
    | _, _ => startSelection s x y

/-- The `switch (activeHandle)` of `handleMouseMove`: the rectangle `{ newX, newY, newWidth,
newHeight }` before normalisation. -/
def resizeBy (h : Handle) (cd : Rect) (cropStart : Option Point) (x y : ℚ) : Rect :=
  match h with
  | Handle.topLeft =>
    { x := x, y := y, width := cd.width + (cd.x - x), height := cd.height + (cd.y - y) }
  | Handle.topRight =>
    { x := cd.x, y := y, width := x - cd.x, height := cd.height + (cd.y - y) }
  | Handle.bottomLeft =>
    { x := x, y := cd.y, width := cd.width + (cd.x - x), height := y - cd.y }
  | Handle.bottomRight =>
    { x := cd.x, y := cd.y, width := x - cd.x, height := y - cd.y }
  | Handle.top =>
    { x := cd.x, y := y, width := cd.width, height := cd.height + (cd.y - y) }
  | Handle.right =>
    { x := cd.x, y := cd.y, width := x - cd.x, height := cd.height }
  | Handle.bottom =>
    { x := cd.x, y := cd.y, width := cd.width, height := y - cd.y }
  | Handle.left =>
    { x := x, y := cd.y, width := cd.width + (cd.x - x), height := cd.height }
  | Handle.move =>
    match cropStart with
    | some start =>
      { x := cd.x + (x - start.x), y := cd.y + (y - start.y),
        width := cd.width, height := cd.height }
    | none => cd

/-- The steps "Ensure width and height are not negative" of `handleMouseMove`. -/
def flipNegative (r : Rect) : Rect :=
  let newX := if r.width < 0 then r.x + r.width else r.x
  let newWidth := if r.width < 0 then |r.width| else r.width
  let newY := if r.height < 0 then r.y + r.height else r.y
  let newHeight := if r.height < 0 then |r.height| else r.height
  { x := newX, y := newY, width := newWidth, height := newHeight }

/-- The step "Constrain to page boundaries" of `handleMouseMove`. -/
def constrain (rect : DOMRect) (r : Rect) : Rect :=
  { x := max 0 (min r.x (rect.width - r.width)),
    y := max 0 (min r.y (rect.height - r.height)),
    width := r.width, height := r.height }

/-- The rectangle stored by the branch `if (activeHandle)` of `handleMouseMove`. -/
def adjusted (h : Handle) (cd : Rect) (cropStart : Option Point) (e : MouseEvent) : Rect :=
  constrain e.rect (flipNegative (resizeBy h cd cropStart (pointerX e) (pointerY e)))

/-- The rectangle stored by the `else` branch of `handleMouseMove` (a new selection). -/
def drawn (start : Point) (e : MouseEvent) : Rect :=
  { x := min start.x (pointerX e), y := min start.y (pointerY e),
    width := |pointerX e - start.x|, height := |pointerY e - start.y| }

/-- The handler `handleMouseMove(e)`; `none` stands for the `TypeError` thrown when `null` is
dereferenced (`cropDimensions` in the first branch, `cropStart` in the second). -/
def handleMouseMove (s : State) (e : MouseEvent) : Option State :=
  if !s.isCropping || !s.isDragging || s.pdfFile.isNone then some s
  else
    match s.activeHandle with
    | some h =>
      match s.cropDimensions with
      | none => none
      | some cd =>
        let moved : State :=
          if h = Handle.move ∧ s.cropStart.isSome then
            { s with cropStart := some { x := pointerX e, y := pointerY e } }
          else s
        some { moved with cropDimensions := some (adjusted h cd s.cropStart e) }
    | none =>
      match s.cropStart with
      | none => none
      | some start =>
        some { s with cropEnd := some { x := pointerX e, y := pointerY e },
                      cropDimensions := some (drawn start e) }

/-- The ratio `xRatio = originalWidth / pageSize.width` of `applyCrop`. -/
def xRatio (originalWidth : ℚ) (pageSize : Size) : ℚ :=
  originalWidth / pageSize.width

/-- The ratio `yRatio = originalHeight / pageSize.height` of `applyCrop`. -/
def yRatio (originalHeight : ℚ) (pageSize : Size) : ℚ :=
  originalHeight / pageSize.height

/-- The crop box `{ cropX, cropY, cropWidth, cropHeight }` that `applyCrop` computes for a page
of size `originalWidth` by `originalHeight`. -/
def cropBox (originalWidth originalHeight : ℚ) (pageSize : Size) (cropDimensions : Rect) :
    Rect :=
  let cropX := max 0 (cropDimensions.x * xRatio originalWidth pageSize - 30)
  let cropY := originalHeight -
    (cropDimensions.y + cropDimensions.height) * yRatio originalHeight pageSize
  let exactWidth := cropDimensions.width * xRatio originalWidth pageSize
  let cropWidth := min (originalWidth - cropX) (exactWidth - 1)
  let cropHeight := cropDimensions.height * yRatio originalHeight pageSize
  { x := cropX, y := cropY, width := cropWidth, height := cropHeight }

/-- The handler `togglePageSelection(pageNum)`. -/
def togglePageSelection (s : State) (pageNum : Int) : State :=
  { s with selectedPages := toggleList s.selectedPages pageNum }

/-- The head of `removePages()`: `none` when the guard rejects the request (an alert is
raised and nothing else happens), otherwise the state after `setIsProcessing(true)`. -/
def removePagesStart (s : State) : Option State :=
  if removeGuard s.pdfFile s.selectedPages s.numPages then none
  else some { s with isProcessing := true }

/-- The `try` block of `removePages()` up to `save()`: the new document and the size of its
bytes, or `none` when load, a copy or save throws. -/
def rebuild (lib : PdfLib) (s : State) : Option (List PdfPage × Nat) :=
  match s.pdfFile with
  | none => none
  | some file =>
    match file.document with
    | none => none
    | some pdfDoc =>
      match copyKept lib pdfDoc (pagesToKeep s.numPages s.selectedPages) with
      | none => none
      | some pages =>
        match lib.save pages with
        | none => none
        | some size => some (pages, size)

/-- The helper `onFileSelected(newFile)`: the page is reset, crop mode is left, `onReset` is
called and (after the timeout) the new file is stored. -/
def onFileSelected (s : State) (newFile : PdfFile) : State :=
  { s with currentPage := 1, isCropping := false, resetCalls := s.resetCalls + 1,
           pdfFile := some newFile }

/-- The `try`/`catch`/`finally` of `removePages()`, from a state in which the rebuild has
been started. -/
def removePagesFinish (lib : PdfLib) (s : State) : State :=
  match rebuild lib s with
  | some (pages, size) =>
    { onFileSelected s { name := none, document := some pages, size := size } with
      isProcessing := false }
  | none => { s with alerts := s.alerts ++ [removeErrorAlert], isProcessing := false }

/-- The handler `removePages()` run to its end. -/
def removePages (lib : PdfLib) (s : State) : State :=
  match removePagesStart s with
  | none => { s with alerts := s.alerts ++ [selectAlert] }
  | some started => removePagesFinish lib started

/-- The handler `toggleCropping()` (its delayed cursor styling is not part of the state). -/
def toggleCropping (s : State) : State :=
  if !s.isCropping then
    { s with isCropping := !s.isCropping, cropStart := none, cropEnd := none,
             cropDimensions := none, selectionLocked := false }
  else { s with isCropping := !s.isCropping }

/-- The handler `cancelCrop()`. -/
def cancelCrop (s : State) : State :=
  { s with isCropping := false, cropStart := none, cropEnd := none, cropDimensions := none,
           selectionLocked := false }

/-- The handler `adjustCrop()`. -/
def adjustCrop (s : State) : State :=
  { s with selectionLocked := false }

/-- The `onClick` of the button "Reset Selection". -/
def resetSelection (s : State) : State :=
  { s with selectionLocked := false, cropDimensions := none }

/-- The test `cropDimensions && cropDimensions.width > 10 && cropDimensions.height > 10` of
`handleMouseUp`. -/
def validSize (cropDimensions : Option Rect) : Bool :=
  match cropDimensions with
  | some cd => decide (cd.width > 10) && decide (cd.height > 10)
  | none => false

/-- The handler `handleMouseUp()`. -/
def handleMouseUp (s : State) : State :=
  if !s.isCropping then s
  else if validSize s.cropDimensions then
    { s with isDragging := false, activeHandle := none, selectionLocked := true }
  else { s with isDragging := false, activeHandle := none }

/-- The function `pixelsToPoints(pixels, scale)`. -/
def pixelsToPoints (pixels scale : ℚ) : ℚ :=
  (pixels / scale) * (72 / 96)

/-- The text of the alert raised by the `catch` block of `applyCrop`. -/
def cropErrorAlert : String :=
  "An error occurred while cropping the PDF. Please try again."

/-- The head of `applyCrop()`: `none` when `!cropDimensions || !pdfFile` (the handler returns
at once), otherwise the state after `setIsProcessing(true)` and `setCroppedPdfLoaded(false)`. -/
def applyCropStart (s : State) : Option State :=
  if s.cropDimensions.isNone || s.pdfFile.isNone then none
  else some { s with isProcessing := true, croppedPdfLoaded := false }

/-- The array `pagesToCrop` of `applyCrop` for a document of `pageCount` pages. -/
def pagesToCrop (cropAllPages : Bool) (currentPage : Int) (pageCount : Nat) : List Int :=
  if cropAllPages then (List.range pageCount).map (fun (i : Nat) => (i : Int))
  else [currentPage - 1]

/-- The call `pdfDoc.getPage(index)`: `none` when it throws (no such page). -/
def getPage (pdfDoc : List PdfPage) (index : Int) : Option PdfPage :=
  if index < 0 then none else pdfDoc.get? index.toNat

/-- One turn of the loop `for (const pageIndex of pagesToCrop)` of `applyCrop`: the page added
to the new document, or `none` when a call throws. -/
def cropPage (lib : PdfLib) (pdfDoc : List PdfPage) (pageSize : Size) (cropDimensions : Rect)
    (pageIndex : Int) : Option PdfPage :=
  match lib.copyPages pdfDoc pageIndex with
  | none => none
  | some copiedPage =>
    match getPage pdfDoc pageIndex with
    | none => none
    | some originalPage =>
      let box := cropBox originalPage.width originalPage.height pageSize cropDimensions
      some { copiedPage with mediaBox := some box, cropBox := some box }

/-- The loop `for (const pageIndex of pagesToCrop)` of `applyCrop`: the pages of the new
document, or `none` when a call throws. -/
def cropPages (lib : PdfLib) (pdfDoc : List PdfPage) (pageSize : Size) (cropDimensions : Rect) :
    List Int → Option (List PdfPage)
  | [] => some []
  | pageIndex :: rest =>
    match cropPage lib pdfDoc pageSize cropDimensions pageIndex with
    | none => none
    | some page =>
      match cropPages lib pdfDoc pageSize cropDimensions rest with
      | none => none
      | some pages => some (page :: pages)

/-- The `try` block of `applyCrop()` up to `save()`: the new document, the size of its bytes
and the length of `pagesToCrop`, or `none` when load, a copy, `getPage` or save throws. -/
def cropBuild (lib : PdfLib) (s : State) : Option (List PdfPage × Nat × Nat) :=
  match s.cropDimensions, s.pdfFile with
  | some cd, some file =>
    match file.document with
    | none => none
    | some pdfDoc =>
      match cropPages lib pdfDoc s.pageSize cd
          (pagesToCrop s.cropAllPages s.currentPage pdfDoc.length) with
      | none => none
      | some pages =>
        match lib.save pages with
        | none => none
        | some size =>
          some (pages, size, (pagesToCrop s.cropAllPages s.currentPage pdfDoc.length).length)
  | _, _ => none

/-- The `try`/`catch`/`finally` of `applyCrop()`, from a state in which the crop has been
started. -/
def applyCropFinish (lib : PdfLib) (s : State) : State :=
  match cropBuild lib s with
  | some (pages, size, count) =>
    let croppedData : ResultData :=
      { document := pages,
        name := "cropped-" ++ ((s.pdfFile.bind (fun f => f.name)).getD "document.pdf"),
        size := size,
        numPages := count }
    { s with croppedPdfData := some croppedData, croppedPdfSize := size, cropApplied := true,
             showCroppedPreview := true, currentCroppedPage := 1, isProcessing := false }
  | none => { s with alerts := s.alerts ++ [cropErrorAlert], isProcessing := false }

/-- The handler `applyCrop()` run to its end. -/
def applyCrop (lib : PdfLib) (s : State) : State :=
  match applyCropStart s with
  | none => s
  | some started => applyCropFinish lib started

end PDFEditor

/-! ## Notions used to state the properties -/

/-- The page numbers a token of the range expression writes down: the value of a single page,
or every page between the two bounds of a range (in either order). -/
def tokenPages (range : List Char) : List Int :=
  if Js.includes range '-' then
    match PDFRemover.rangeBounds range with
    | (some start, some «end») => Js.forRange (min start «end») (max start «end»)
    | _ => []
  else
    match Js.parseInt range with
    | some page => [page]
    | none => []

/-- The tokens of a range expression: the pieces between commas, trimmed. -/
def tokensOf (input : List Char) : List (List Char) :=
  (Js.split ',' input).map Js.trim

/-- The numbers a token of the range expression states: the value of a single page, or the
start and the end of a range (those that are numbers). -/
def tokenNumbers (range : List Char) : List Int :=
  if Js.includes range '-' then
    (PDFRemover.rangeBounds range).1.toList ++ (PDFRemover.rangeBounds range).2.toList
  else (Js.parseInt range).toList

/-- The numbers stated in a range expression, token by token. -/
def numbersOf (input : List Char) : List Int :=
  (tokensOf input).flatMap tokenNumbers

/-- The page numbers written in a range expression: each single page and every page of each
range. -/
def writtenPages (input : List Char) : List Int :=
  (tokensOf input).flatMap tokenPages

/-- A selection list is well formed for an `n`-page document: strictly increasing, every
element within `[1, n]`. -/
def WellFormed (n : Int) (sel : List Int) : Prop :=
  sel.Sorted (· < ·) ∧ ∀ p ∈ sel, 1 ≤ p ∧ p ≤ n

/-- A decimal integer as it is written: a non-empty run of decimal digits. -/
def IsDecimal (ds : List Char) : Prop :=
  ds ≠ [] ∧ ∀ c ∈ ds, c.isDigit = true

instance (ds : List Char) : Decidable (IsDecimal ds) := by
  unfold IsDecimal
  exact inferInstance

/-- The number a decimal integer denotes (positional value, base ten). -/
def decimalValue (ds : List Char) : Int :=
  (Nat.ofDigits 10 (ds.reverse.map (fun c => c.toNat - 48)) : Nat)

/-- A token of a well-formed range expression: a single page `k`, or a range `a-b`. -/
inductive PageToken where
  | single (k : List Char)
  | range (a b : List Char)
deriving DecidableEq

/-- The text of a token. -/
def PageToken.text : PageToken → List Char
  | PageToken.single k => k
  | PageToken.range a b => a ++ '-' :: b

/-- Every number of the token is a decimal integer. -/
def PageToken.IsValid : PageToken → Prop
  | PageToken.single k => IsDecimal k
  | PageToken.range a b => IsDecimal a ∧ IsDecimal b

instance (t : PageToken) : Decidable t.IsValid := by
  cases t <;> (unfold PageToken.IsValid; exact inferInstance)

/-- Page `p` is named by the token: it is the single page, or it lies between the two
bounds of the range, whichever is the greater. -/
def PageToken.Covers : PageToken → Int → Prop
  | PageToken.single k, p => p = decimalValue k
  | PageToken.range a b, p =>
    min (decimalValue a) (decimalValue b) ≤ p ∧ p ≤ max (decimalValue a) (decimalValue b)

/-- The range expression made of the given tokens, separated by commas. -/
def rangeText (toks : List PageToken) : List Char :=
  List.intercalate [','] (toks.map PageToken.text)

/-- A rectangle lies within a container of size `W` by `H` (the invariant of a selection
rectangle). -/
def InBounds (W H : ℚ) (r : Rect) : Prop :=
  0 ≤ r.x ∧ 0 ≤ r.y ∧ 0 ≤ r.width ∧ 0 ≤ r.height ∧ r.x + r.width ≤ W ∧ r.y + r.height ≤ H

/-- A point lies within a container of size `W` by `H`. -/
def PointIn (W H : ℚ) (q : Point) : Prop :=
  0 ≤ q.x ∧ q.x ≤ W ∧ 0 ≤ q.y ∧ q.y ≤ H

/-- The invariant of the selection model in a container of size `W` by `H`: the stored
rectangle, if any, is within bounds and, while no handle is active, so is the down-point. -/
def SelectionInv (W H : ℚ) (s : PDFEditor.State) : Prop :=
  (∀ cd, s.cropDimensions = some cd → InBounds W H cd) ∧
    (s.activeHandle = none → ∀ q, s.cropStart = some q → PointIn W H q)

/-- A sample document of five pages, numbered by their content. -/
def fivePages : List PdfPage :=
  [ { width := 612, height := 792, content := 1 },
    { width := 612, height := 792, content := 2 },
    { width := 612, height := 792, content := 3 },
    { width := 612, height := 792, content := 4 },
    { width := 612, height := 792, content := 5 } ]

/-- A pdf-lib in which no call throws. -/
def plainLib : PdfLib :=
  { copyThrows := fun _ => false, save := fun pages => some pages.length }

/-- A sample file holding `fivePages`. -/
def fivePageFile : PdfFile :=
  { name := some "five.pdf", document := some fivePages, size := 5 }

/-- A sample state of the editor: the `topLeft` handle of a locked selection is being
dragged. -/
def sampleDrag : PDFEditor.State :=
  { isCropping := true, isDragging := true, pdfFile := some fivePageFile,
    selectionLocked := true, activeHandle := some Handle.topLeft,
    cropDimensions := some { x := 100, y := 100, width := 200, height := 200 } }

/-- A sample pointer event in a container of 600 by 800 pixels: the pointer is to the right
of the selection of `sampleDrag`. -/
def sampleEvent : MouseEvent :=
  { clientX := 410, clientY := 60, rect := { left := 10, top := 10, width := 600, height := 800 } }

/-- A `PDFRemover` state with the sample file loaded and the given pages selected. -/
def removerWith (sel : List Int) : PDFRemover.State :=
  { numPages := some 5, pdfFile := some fivePageFile, selectedPages := sel }

/-- A `PDFEditor` state with the sample file loaded and the given pages selected. -/
def editorWith (sel : List Int) : PDFEditor.State :=
  { numPages := some 5, pdfFile := some fivePageFile, selectedPages := sel }

/-- The states of `PDFRemover` reachable on an `n`-page document from an empty selection by
`togglePageSelection` (called with a page of the document), by typing into the range input
and by `applyPageSelection`. -/
inductive PDFRemover.Reachable (n : Nat) : PDFRemover.State → Prop where
  | init (s : PDFRemover.State) (hn : s.numPages = some n) (hsel : s.selectedPages = []) :
      PDFRemover.Reachable n s
  | toggle (s : PDFRemover.State) (pageNum : Int) (hs : PDFRemover.Reachable n s)
      (h1 : 1 ≤ pageNum) (h2 : pageNum ≤ n) :
      PDFRemover.Reachable n (PDFRemover.togglePageSelection s pageNum)
  | input (s : PDFRemover.State) (value : List Char) (hs : PDFRemover.Reachable n s) :
      PDFRemover.Reachable n (PDFRemover.handlePagesToRemoveChange s value)
  | apply (s : PDFRemover.State) (hs : PDFRemover.Reachable n s) :
      PDFRemover.Reachable n (PDFRemover.applyPageSelection s)

/-- The selection model is in state Drawing with rectangle `r`: crop mode is on, a new
selection is being dragged (no handle is active), it is not locked, and `r` is stored. -/
def Drawing (s : PDFEditor.State) (r : Rect) : Prop :=
  s.isCropping = true ∧ s.isDragging = true ∧ s.activeHandle = none ∧
    s.selectionLocked = false ∧ s.cropDimensions = some r

/-- A sample Drawing state whose rectangle is 3 by 3 pixels. -/
def sampleSmallDrawing : PDFEditor.State :=
  { isCropping := true, isDragging := true, pdfFile := some fivePageFile,
    cropStart := some { x := 5, y := 5 }, cropEnd := some { x := 8, y := 8 },
    cropDimensions := some { x := 5, y := 5, width := 3, height := 3 } }

/-- A sample Drawing state whose rectangle is 200 by 150 pixels. -/
def sampleLargeDrawing : PDFEditor.State :=
  { isCropping := true, isDragging := true, pdfFile := some fivePageFile,
    cropStart := some { x := 5, y := 5 }, cropEnd := some { x := 205, y := 155 },
    cropDimensions := some { x := 5, y := 5, width := 200, height := 150 } }

/-- A sample state with a locked selection on the sample file, shown at scale 1. -/
def sampleLocked : PDFEditor.State :=
  { numPages := some 5, isCropping := true, pdfFile := some fivePageFile,
    pageSize := { width := 612, height := 792 }, selectionLocked := true,
    cropDimensions := some { x := 100, y := 100, width := 200, height := 200 } }

/-- Loading the source document, copying a page or saving fails during `removePages`. -/
def RemoveFails (lib : PdfLib) (s : PDFRemover.State) : Prop :=
  ∃ file, s.pdfFile = some file ∧
    (file.document = none ∨
      ∃ pdfDoc, file.document = some pdfDoc ∧
        (copyKept lib pdfDoc (pagesToKeep s.numPages s.selectedPages) = none ∨
          ∃ pages, copyKept lib pdfDoc (pagesToKeep s.numPages s.selectedPages) = some pages ∧
            lib.save pages = none))

/-- Loading the source document, copying a page or saving fails during `applyCrop`. -/
def CropFails (lib : PdfLib) (s : PDFEditor.State) : Prop :=
  ∃ file cd, s.pdfFile = some file ∧ s.cropDimensions = some cd ∧
    (file.document = none ∨
      ∃ pdfDoc, file.document = some pdfDoc ∧
        (PDFEditor.cropPages lib pdfDoc s.pageSize cd
            (PDFEditor.pagesToCrop s.cropAllPages s.currentPage pdfDoc.length) = none ∨
          ∃ pages, PDFEditor.cropPages lib pdfDoc s.pageSize cd
              (PDFEditor.pagesToCrop s.cropAllPages s.currentPage pdfDoc.length) = some pages ∧
            lib.save pages = none))

/-- A sample file whose bytes cannot be parsed as a PDF. -/
def brokenFile : PdfFile :=
  { name := some "broken.pdf", document := none, size := 3 }

/-- A sample page of 600 by 800 points. -/
def zoomedPage : PdfPage :=
  { width := 600, height := 800, content := 1 }

/-- A sample state at `scale = 2`: the page `zoomedPage` has been loaded (it is displayed at
1200 by 1600 pixels) and a 100 by 100 selection near its right edge is locked. -/
def zoomedLocked : PDFEditor.State :=
  PDFEditor.onPageLoadSuccess
    { numPages := some 1, scale := 2, isCropping := true, selectionLocked := true,
      pdfFile := some { name := some "one.pdf", document := some [zoomedPage], size := 1 },
      cropDimensions := some { x := 1000, y := 200, width := 100, height := 100 } }
    zoomedPage

/-- The pages of `fivePages`, each with media box and crop box `(70, 492, 199, 200)`. -/
def croppedFive : List PdfPage :=
  fivePages.map (fun p =>
    { p with mediaBox := some { x := 70, y := 492, width := 199, height := 200 },
             cropBox := some { x := 70, y := 492, width := 199, height := 200 } })

/-- A token is non-numeric as the specification words it: it is not a decimal integer and
not two decimal integers joined by `-`. -/
def NonNumeric (tok : List Char) : Prop :=
  ¬ IsDecimal tok ∧ ¬ ∃ a b, IsDecimal a ∧ IsDecimal b ∧ tok = a ++ '-' :: b

/-- A token that `parsePageRanges` passes over for a document of `n` pages: `parseInt` finds
no number in it (for a token with `-`: in one of its first two pieces), or its value (for a
range: every page between its bounds) lies outside `[1, n]`. -/
def ignored (n : Int) (tok : List Char) : Bool :=
  if Js.includes (Js.trim tok) '-' then
    match PDFRemover.rangeBounds (Js.trim tok) with
    | (some a, some b) => decide (max a b < 1) || decide (n < min a b)
    | _ => true
  else
    match Js.parseInt (Js.trim tok) with
    | some k => decide (k < 1) || decide (n < k)
    | none => true

/-- The text made of the given tokens, separated by commas. -/
def joinTokens (toks : List (List Char)) : List Char :=
  List.intercalate [','] toks

/-- The vertical edges of rectangle `r` are at the abscissae `a` and `b` (in either order). -/
def HasEdgesX (r : Rect) (a b : ℚ) : Prop :=
  r.x = min a b ∧ r.x + r.width = max a b

/-- The horizontal edges of rectangle `r` are at the ordinates `a` and `b` (in either
order). -/
def HasEdgesY (r : Rect) (a b : ℚ) : Prop :=
  r.y = min a b ∧ r.y + r.height = max a b

/-- Rectangle `r` is what dragging handle `h` of rectangle `cd` to the pointer `(px, py)`
must give: the edges the handle touches are at the pointer, the opposite edges (the anchor)
are where they were, and an axis the handle does not touch is unchanged. -/
def AnchorsHeld (h : Handle) (cd r : Rect) (px py : ℚ) : Prop :=
  match h with
  | Handle.topLeft => HasEdgesX r px (cd.x + cd.width) ∧ HasEdgesY r py (cd.y + cd.height)
  | Handle.topRight => HasEdgesX r cd.x px ∧ HasEdgesY r py (cd.y + cd.height)
  | Handle.bottomLeft => HasEdgesX r px (cd.x + cd.width) ∧ HasEdgesY r cd.y py
  | Handle.bottomRight => HasEdgesX r cd.x px ∧ HasEdgesY r cd.y py
  | Handle.top => (r.x = cd.x ∧ r.width = cd.width) ∧ HasEdgesY r py (cd.y + cd.height)
  | Handle.right => HasEdgesX r cd.x px ∧ (r.y = cd.y ∧ r.height = cd.height)
  | Handle.bottom => (r.x = cd.x ∧ r.width = cd.width) ∧ HasEdgesY r cd.y py
  | Handle.left => HasEdgesX r px (cd.x + cd.width) ∧ (r.y = cd.y ∧ r.height = cd.height)
  | Handle.move => True

/-- The sample state `sampleDrag` with the `right` handle active. -/
def sampleRightDrag : PDFEditor.State :=
  { sampleDrag with activeHandle := some Handle.right }

/-- A sample pointer event in the container of `sampleEvent`: the pointer is to the left of
the selection of `sampleDrag`. -/
def crossingEvent : MouseEvent :=
  { clientX := 50, clientY := 210,
    rect := { left := 10, top := 10, width := 600, height := 800 } }

/-- The sample state `sampleDrag` while the selection is moved: `move` is active and the
previous pointer position is `(150, 150)`. -/
def sampleMove : PDFEditor.State :=
  { sampleDrag with activeHandle := some Handle.move, cropStart := some { x := 150, y := 150 } }

/-- The states of `PDFEditor` reachable from the initial state of the component (with the
`file` prop it is given) by `handleMouseDown`, `handleMouseMove`, `handleMouseUp`,
`toggleCropping`, `cancelCrop`, `adjustCrop` and the button "Reset Selection". -/
inductive PDFEditor.Reachable : PDFEditor.State → Prop where
  | init (file : Option PdfFile) : PDFEditor.Reachable { pdfFile := file }
  | mouseDown (s : PDFEditor.State) (e : MouseEvent) (hs : PDFEditor.Reachable s) :
      PDFEditor.Reachable (PDFEditor.handleMouseDown s e)
  | mouseMove (s s' : PDFEditor.State) (e : MouseEvent) (hs : PDFEditor.Reachable s)
      (hstep : PDFEditor.handleMouseMove s e = some s') : PDFEditor.Reachable s'
  | mouseUp (s : PDFEditor.State) (hs : PDFEditor.Reachable s) :
      PDFEditor.Reachable (PDFEditor.handleMouseUp s)
  | toggle (s : PDFEditor.State) (hs : PDFEditor.Reachable s) :
      PDFEditor.Reachable (PDFEditor.toggleCropping s)
  | cancel (s : PDFEditor.State) (hs : PDFEditor.Reachable s) :
      PDFEditor.Reachable (PDFEditor.cancelCrop s)
  | adjust (s : PDFEditor.State) (hs : PDFEditor.Reachable s) :
      PDFEditor.Reachable (PDFEditor.adjustCrop s)
  | reset (s : PDFEditor.State) (hs : PDFEditor.Reachable s) :
      PDFEditor.Reachable (PDFEditor.resetSelection s)

/-- A pointer event at `(x, y)` in a page container of 600 by 800 pixels placed at the
origin. -/
def pointerAt (x y : ℚ) : MouseEvent :=
  { clientX := x, clientY := y, rect := { left := 0, top := 0, width := 600, height := 800 } }

/-- The state after a pointer move (the state itself when the handler throws). -/
def afterMove (s : PDFEditor.State) (e : MouseEvent) : PDFEditor.State :=
  (PDFEditor.handleMouseMove s e).getD s

/-- A sample session: crop mode is entered and a selection is drawn from `(100, 100)` to
`(300, 300)` and released, which locks it. -/
def drawnAndLocked : PDFEditor.State :=
  PDFEditor.handleMouseUp
    (afterMove
      (PDFEditor.handleMouseDown (PDFEditor.toggleCropping { pdfFile := some fivePageFile })
        (pointerAt 100 100))
      (pointerAt 300 300))

/-- The sample session continued: the `right` handle of the locked selection is pressed at
`(300, 200)`, dragged to abscissa 105 and released. -/
def shrunkAndReleased : PDFEditor.State :=
  PDFEditor.handleMouseUp
    (afterMove (PDFEditor.handleMouseDown drawnAndLocked (pointerAt 300 200))
      (pointerAt 105 200))

/-- The sample session before the first release: crop mode is entered and a selection is
being drawn from `(100, 100)` to `(300, 300)`. -/
def drawnUnreleased : PDFEditor.State :=
  afterMove
    (PDFEditor.handleMouseDown (PDFEditor.toggleCropping { pdfFile := some fivePageFile })
      (pointerAt 100 100))
    (pointerAt 300 300)

/-! ## Properties -/

/-! ### Sets kept as lists -/

theorem Js.mem_setAdd (s : List Int) (i p : Int) : p ∈ Js.setAdd s i ↔ p ∈ s ∨ p = i := by
  unfold Js.setAdd
  split_ifs with h
  · constructor
    · exact Or.inl
    · rintro (hp | rfl)
      · exact hp
      · exact h
  · simp

theorem Js.nodup_setAdd (s : List Int) (i : Int) (hs : s.Nodup) : (Js.setAdd s i).Nodup := by
  unfold Js.setAdd
  split_ifs with h
  · exact hs
  · exact List.Nodup.append hs (List.nodup_singleton i) (by simpa using h)

theorem Js.mem_foldl_setAdd (P : Int → Prop) [DecidablePred P] (l : List Int) :
    ∀ (s : List Int) (p : Int),
      p ∈ l.foldl (fun sel i => if P i then Js.setAdd sel i else sel) s ↔
        p ∈ s ∨ (p ∈ l ∧ P p) := by
  induction l with
  | nil => intro s p; simp
  | cons a l ih =>
    intro s p
    rw [List.foldl_cons, ih]
    by_cases ha : P a
    · simp only [ha, if_true, Js.mem_setAdd, List.mem_cons]
      constructor
      · rintro ((h | rfl) | ⟨h, hp⟩)
        · exact Or.inl h
        · exact Or.inr ⟨Or.inl rfl, ha⟩
        · exact Or.inr ⟨Or.inr h, hp⟩
      · rintro (h | ⟨rfl | h, hp⟩)
        · exact Or.inl (Or.inl h)
        · exact Or.inl (Or.inr rfl)
        · exact Or.inr ⟨h, hp⟩
    · simp only [ha, if_false, List.mem_cons]
      constructor
      · rintro (h | ⟨h, hp⟩)
        · exact Or.inl h
        · exact Or.inr ⟨Or.inr h, hp⟩
      · rintro (h | ⟨rfl | h, hp⟩)
        · exact Or.inl h
        · exact absurd hp ha
        · exact Or.inr ⟨h, hp⟩

theorem Js.nodup_foldl_setAdd (P : Int → Prop) [DecidablePred P] (l : List Int) :
    ∀ s : List Int, s.Nodup →
      (l.foldl (fun sel i => if P i then Js.setAdd sel i else sel) s).Nodup := by
  induction l with
  | nil => intro s hs; simpa using hs
  | cons a l ih =>
    intro s hs
    rw [List.foldl_cons]
    apply ih
    split_ifs
    · exact Js.nodup_setAdd s a hs
    · exact hs

theorem Js.mem_countFrom (n : Nat) : ∀ (lo p : Int),
    p ∈ Js.countFrom lo n ↔ lo ≤ p ∧ p < lo + n := by
  induction n with
  | zero => intro lo p; simp [Js.countFrom]
  | succ n ih =>
    intro lo p
    simp only [Js.countFrom, List.mem_cons, ih]
    push_cast
    omega

theorem Js.mem_forRange (lo hi p : Int) : p ∈ Js.forRange lo hi ↔ lo ≤ p ∧ p ≤ hi := by
  unfold Js.forRange
  rw [Js.mem_countFrom]
  omega

theorem Js.sorted_sortNumeric (xs : List Int) : (Js.sortNumeric xs).Sorted (· ≤ ·) :=
  List.sorted_insertionSort (· ≤ ·) xs

theorem Js.mem_sortNumeric (xs : List Int) (p : Int) : p ∈ Js.sortNumeric xs ↔ p ∈ xs :=
  (List.perm_insertionSort (· ≤ ·) xs).mem_iff

theorem Js.strict_sortNumeric (xs : List Int) (h : xs.Nodup) :
    (Js.sortNumeric xs).Sorted (· < ·) :=
  (Js.sorted_sortNumeric xs).lt_of_le
    ((List.perm_insertionSort (· ≤ ·) xs).nodup_iff.mpr h)

/-! ### parsePageRanges -/

theorem mem_parseToken (n : Int) (sel : List Int) (range : List Char) (p : Int) :
    p ∈ PDFRemover.parseToken n sel range ↔
      p ∈ sel ∨ (p ∈ tokenPages range ∧ 1 ≤ p ∧ p ≤ n) := by
  unfold PDFRemover.parseToken tokenPages
  by_cases hinc : Js.includes range '-' = true
  · simp only [hinc, if_true]
    rcases hb : PDFRemover.rangeBounds range with ⟨_ | a, _ | b⟩
    · simp
    · simp
    · simp
    · simp only []
      exact Js.mem_foldl_setAdd (fun i => 1 ≤ i ∧ i ≤ n) _ sel p
  · simp only [hinc]
    rcases hp : Js.parseInt range with _ | page
    · simp
    · simp only [Bool.false_eq_true, if_false, List.mem_singleton]
      split_ifs with h
      · rw [Js.mem_setAdd]
        constructor
        · rintro (hs | rfl)
          · exact Or.inl hs
          · exact Or.inr ⟨rfl, h⟩
        · rintro (hs | ⟨rfl, _⟩)
          · exact Or.inl hs
          · exact Or.inr rfl
      · constructor
        · exact Or.inl
        · rintro (hs | ⟨rfl, h1⟩)
          · exact hs
          · exact absurd h1 h

theorem nodup_parseToken (n : Int) (sel : List Int) (range : List Char) (h : sel.Nodup) :
    (PDFRemover.parseToken n sel range).Nodup := by
  unfold PDFRemover.parseToken
  split_ifs
  · split
    · exact Js.nodup_foldl_setAdd (fun i => 1 ≤ i ∧ i ≤ n) _ sel h
    · exact h
  · split
    · split_ifs
      · exact Js.nodup_setAdd _ _ h
      · exact h
    · exact h

theorem mem_foldl_parseToken (n : Int) (toks : List (List Char)) :
    ∀ (sel : List Int) (p : Int),
      p ∈ toks.foldl (PDFRemover.parseToken n) sel ↔
        p ∈ sel ∨ ((∃ t ∈ toks, p ∈ tokenPages t) ∧ 1 ≤ p ∧ p ≤ n) := by
  induction toks with
  | nil => intro sel p; simp
  | cons t toks ih =>
    intro sel p
    rw [List.foldl_cons, ih, mem_parseToken]
    constructor
    · rintro ((h | ⟨h, hr⟩) | ⟨⟨u, hu, hp⟩, hr⟩)
      · exact Or.inl h
      · exact Or.inr ⟨⟨t, List.mem_cons_self t toks, h⟩, hr⟩
      · exact Or.inr ⟨⟨u, List.mem_cons_of_mem t hu, hp⟩, hr⟩
    · rintro (h | ⟨⟨u, hu, hp⟩, hr⟩)
      · exact Or.inl (Or.inl h)
      · rcases List.mem_cons.mp hu with rfl | hu
        · exact Or.inl (Or.inr ⟨hp, hr⟩)
        · exact Or.inr ⟨⟨u, hu, hp⟩, hr⟩

theorem nodup_foldl_parseToken (n : Int) (toks : List (List Char)) :
    ∀ sel : List Int, sel.Nodup → (toks.foldl (PDFRemover.parseToken n) sel).Nodup := by
  induction toks with
  | nil => intro sel h; simpa using h
  | cons t toks ih =>
    intro sel h
    rw [List.foldl_cons]
    exact ih _ (nodup_parseToken n sel t h)

theorem nodup_parsePageRanges_fold (input : List Char) (n : Int) :
    ((tokensOf input).foldl (PDFRemover.parseToken n) []).Nodup :=
  nodup_foldl_parseToken n _ [] List.nodup_nil

theorem parsePageRanges_wellFormed (input : List Char) (n : Int) :
    WellFormed n (PDFRemover.parsePageRanges input n) := by
  unfold PDFRemover.parsePageRanges
  split_ifs with h
  · exact ⟨List.sorted_nil, fun p hp => absurd hp (List.not_mem_nil p)⟩
  · refine ⟨Js.strict_sortNumeric _ (nodup_parsePageRanges_fold input n), ?_⟩
    intro p hp
    have hp2 := (Js.mem_sortNumeric _ p).mp hp
    rw [mem_foldl_parseToken] at hp2
    rcases hp2 with hnil | ⟨_, hr⟩
    · exact absurd hnil (List.not_mem_nil p)
    · exact hr

/-- C3: for every input text and every page count, `parsePageRanges` returns a strictly
increasing list (sorted, without duplicates) all of whose elements lie in `[1, pageCount]`. -/
theorem parsePageRanges_sorted_dedup_in_range (input : List Char) (pageCount : Int) :
    (PDFRemover.parsePageRanges input pageCount).Sorted (· < ·) ∧
      ∀ p ∈ PDFRemover.parsePageRanges input pageCount, 1 ≤ p ∧ p ≤ pageCount :=
  parsePageRanges_wellFormed input pageCount

theorem Js.trimStart_eq_nil (s : List Char) :
    Js.trimStart s = [] ↔ ∀ c ∈ s, Js.isWhiteSpace c = true := by
  unfold Js.trimStart
  exact List.dropWhile_eq_nil_iff

theorem Js.trim_eq_nil (s : List Char) :
    Js.trim s = [] ↔ ∀ c ∈ s, Js.isWhiteSpace c = true := by
  unfold Js.trim Js.trimEnd
  rw [List.reverse_eq_nil_iff, List.dropWhile_eq_nil_iff]
  constructor
  · intro h
    have hnil : Js.trimStart s = [] := by
      rcases hts : Js.trimStart s with _ | ⟨c, cs⟩
      · rfl
      · exfalso
        have hc : Js.isWhiteSpace c = true :=
          h c (by rw [hts]; simp)
        have hhead : (Js.trimStart s).head? = some c := by rw [hts]; rfl
        unfold Js.trimStart at hhead
        have := List.head?_dropWhile_not Js.isWhiteSpace s
        rw [hhead] at this
        simp [hc] at this
    exact (Js.trimStart_eq_nil s).mp hnil
  · intro h c hc
    rw [(Js.trimStart_eq_nil s).mpr h] at hc
    simp at hc

theorem Js.split_of_not_mem (sep : Char) (s : List Char) (h : sep ∉ s) :
    Js.split sep s = [s] := by
  induction s with
  | nil => rfl
  | cons c cs ih =>
    have hc : c ≠ sep := fun e => h (by simp [e])
    have hcs : sep ∉ cs := fun e => h (List.mem_cons_of_mem c e)
    simp [Js.split, hc, ih hcs]

theorem tokenPages_nil : tokenPages [] = [] := by decide

theorem tokensOf_blank (input : List Char) (h : Js.trim input = []) :
    tokensOf input = [[]] := by
  have hws := (Js.trim_eq_nil input).mp h
  have hsep : ',' ∉ input := fun hm => by
    have := hws ',' hm
    revert this
    decide
  simp [tokensOf, Js.split_of_not_mem ',' input hsep, h]

theorem mem_parsePageRanges (input : List Char) (n p : Int) :
    p ∈ PDFRemover.parsePageRanges input n ↔
      (∃ t ∈ tokensOf input, p ∈ tokenPages t) ∧ 1 ≤ p ∧ p ≤ n := by
  unfold PDFRemover.parsePageRanges
  split_ifs with h
  · rw [tokensOf_blank input h]
    simp [tokenPages_nil]
  · show p ∈ Js.sortNumeric ((tokensOf input).foldl (PDFRemover.parseToken n) []) ↔ _
    rw [Js.mem_sortNumeric, mem_foldl_parseToken]
    simp

/-! ### Well-formed range expressions -/

theorem Js.split_append_sep (sep : Char) (a rest : List Char) (h : sep ∉ a) :
    Js.split sep (a ++ sep :: rest) = a :: Js.split sep rest := by
  induction a with
  | nil => simp [Js.split]
  | cons c cs ih =>
    have hc : c ≠ sep := fun e => h (by simp [e])
    have hcs : sep ∉ cs := fun e => h (List.mem_cons_of_mem c e)
    simp [Js.split, hc, ih hcs]

theorem Js.split_intercalate (sep : Char) (t : List Char) (ts : List (List Char))
    (h : ∀ u ∈ t :: ts, sep ∉ u) :
    Js.split sep (List.intercalate [sep] (t :: ts)) = t :: ts := by
  induction ts generalizing t with
  | nil =>
    simpa [List.intercalate] using Js.split_of_not_mem sep t (h t (List.mem_cons_self t []))
  | cons u us ih =>
    have ht : sep ∉ t := h t (List.mem_cons_self t _)
    have hrest : ∀ v ∈ u :: us, sep ∉ v := fun v hv => h v (List.mem_cons_of_mem t hv)
    have hstep : List.intercalate [sep] (t :: u :: us) =
        t ++ sep :: List.intercalate [sep] (u :: us) := by
      simp [List.intercalate]
    rw [hstep, Js.split_append_sep sep t _ ht, ih u hrest]

theorem Js.trimStart_of_head (s : List Char)
    (h : ∀ c, s.head? = some c → Js.isWhiteSpace c = false) : Js.trimStart s = s := by
  cases s with
  | nil => rfl
  | cons c cs =>
    have := h c rfl
    simp [Js.trimStart, List.dropWhile, this]

theorem Js.trim_of_ends (s : List Char)
    (h1 : ∀ c, s.head? = some c → Js.isWhiteSpace c = false)
    (h2 : ∀ c, s.getLast? = some c → Js.isWhiteSpace c = false) : Js.trim s = s := by
  unfold Js.trim
  rw [Js.trimStart_of_head s h1]
  unfold Js.trimEnd
  have : s.reverse.dropWhile Js.isWhiteSpace = s.reverse :=
    Js.trimStart_of_head s.reverse (fun c hc => h2 c (by simpa using hc))
  rw [this, List.reverse_reverse]

theorem Js.isDigit_not_whiteSpace (c : Char) (h : c.isDigit = true) :
    Js.isWhiteSpace c = false := by
  simp only [Char.isDigit, Bool.and_eq_true, decide_eq_true_eq] at h
  have h1 : 48 ≤ c.toNat := by
    have := h.1
    simpa [Char.toNat, UInt32.le_def] using this
  have h2 : c.toNat ≤ 57 := by
    have := h.2
    simpa [Char.toNat, UInt32.le_def] using this
  unfold Js.isWhiteSpace
  simp
  omega

theorem Js.isDigit_ne (c d : Char) (h : c.isDigit = true) (hd : d.isDigit = false) : c ≠ d := by
  rintro rfl
  rw [h] at hd
  exact Bool.noConfusion hd

theorem Js.digitsVal_eq (ds : List Char) : (Js.digitsVal ds : Int) = decimalValue ds := by
  unfold decimalValue Js.digitsVal
  congr 1
  rw [Nat.ofDigits_eq_foldr, List.foldr_map, List.foldr_reverse]
  simp only [Js.digitVal, Nat.cast_id]
  congr 1
  funext acc c
  omega

theorem Js.takeWhile_isDigit (ds : List Char) (h : ∀ c ∈ ds, c.isDigit = true) :
    ds.takeWhile Char.isDigit = ds :=
  List.takeWhile_eq_self_iff.mpr h

theorem Js.parseInt_decimal (ds : List Char) (h : IsDecimal ds) :
    Js.parseInt ds = some (decimalValue ds) := by
  obtain ⟨hne, hd⟩ := h
  cases ds with
  | nil => exact absurd rfl hne
  | cons c cs =>
    have hc : c.isDigit = true := hd c (List.mem_cons_self c cs)
    have hts : Js.trimStart (c :: cs) = c :: cs :=
      Js.trimStart_of_head _ (fun d hd' => by
        have : d = c := by simpa using hd'.symm
        rw [this]; exact Js.isDigit_not_whiteSpace c hc)
    have hminus : c ≠ '-' := Js.isDigit_ne c '-' hc (by decide)
    have hplus : c ≠ '+' := Js.isDigit_ne c '+' hc (by decide)
    have htw : (c :: cs).takeWhile Char.isDigit = c :: cs := Js.takeWhile_isDigit _ hd
    unfold Js.parseInt
    rw [hts]
    split
    · rename_i r heq
      exact absurd (List.cons.inj heq).1 hminus
    · rename_i r heq
      exact absurd (List.cons.inj heq).1 hplus
    · rw [htw]
      simp [Js.digitsVal_eq]

theorem Js.trim_decimal (ds : List Char) (h : IsDecimal ds) : Js.trim ds = ds :=
  Js.trim_of_ends ds
    (fun c hc => Js.isDigit_not_whiteSpace c (h.2 c (List.mem_of_mem_head? hc)))
    (fun c hc => Js.isDigit_not_whiteSpace c (h.2 c (List.mem_of_getLast?_eq_some hc)))

theorem Js.not_mem_decimal (ds : List Char) (h : IsDecimal ds) (d : Char)
    (hd : d.isDigit = false) : d ∉ ds :=
  fun hm => Js.isDigit_ne d d (h.2 d hm) hd rfl

theorem tokenPages_single (k : List Char) (h : IsDecimal k) :
    tokenPages k = [decimalValue k] := by
  have hinc : Js.includes k '-' = false := by
    simpa [Js.includes] using Js.not_mem_decimal k h '-' (by decide)
  simp [tokenPages, hinc, Js.parseInt_decimal k h]

theorem rangeBounds_range (a b : List Char) (ha : IsDecimal a) (hb : IsDecimal b) :
    PDFRemover.rangeBounds (a ++ '-' :: b) = (some (decimalValue a), some (decimalValue b)) := by
  unfold PDFRemover.rangeBounds
  rw [Js.split_append_sep '-' a b (Js.not_mem_decimal a ha '-' (by decide)),
    Js.split_of_not_mem '-' b (Js.not_mem_decimal b hb '-' (by decide))]
  simp [Js.trim_decimal a ha, Js.trim_decimal b hb, Js.parseInt_decimal a ha,
    Js.parseInt_decimal b hb]

theorem tokenPages_range (a b : List Char) (ha : IsDecimal a) (hb : IsDecimal b) :
    tokenPages (a ++ '-' :: b) =
      Js.forRange (min (decimalValue a) (decimalValue b))
        (max (decimalValue a) (decimalValue b)) := by
  have hinc : Js.includes (a ++ '-' :: b) '-' = true := by
    simp [Js.includes]
  simp [tokenPages, hinc, rangeBounds_range a b ha hb]

theorem mem_tokenPages_text (t : PageToken) (h : t.IsValid) (p : Int) :
    p ∈ tokenPages t.text ↔ t.Covers p := by
  cases t with
  | single k =>
    simp [PageToken.text, PageToken.Covers, tokenPages_single k h]
  | range a b =>
    simp [PageToken.text, PageToken.Covers, tokenPages_range a b h.1 h.2, Js.mem_forRange]

theorem PageToken.text_ne_nil (t : PageToken) (h : t.IsValid) : t.text ≠ [] := by
  cases t with
  | single k => exact h.1
  | range a b => simp [PageToken.text]

theorem PageToken.text_head (t : PageToken) (h : t.IsValid) (c : Char)
    (hc : t.text.head? = some c) : Js.isWhiteSpace c = false := by
  cases t with
  | single k => exact Js.isDigit_not_whiteSpace c (h.2 c (List.mem_of_mem_head? hc))
  | range a b =>
    obtain ⟨⟨hne, hd⟩, _⟩ := h
    cases a with
    | nil => exact absurd rfl hne
    | cons x xs =>
      have : c = x := by simpa [PageToken.text] using hc.symm
      rw [this]
      exact Js.isDigit_not_whiteSpace x (hd x (List.mem_cons_self x xs))

theorem PageToken.text_last (t : PageToken) (h : t.IsValid) (c : Char)
    (hc : t.text.getLast? = some c) : Js.isWhiteSpace c = false := by
  cases t with
  | single k => exact Js.isDigit_not_whiteSpace c (h.2 c (List.mem_of_getLast?_eq_some hc))
  | range a b =>
    obtain ⟨_, ⟨hne, hd⟩⟩ := h
    have hlast : (a ++ '-' :: b).getLast? = b.getLast? := by
      cases b with
      | nil => exact absurd rfl hne
      | cons y ys =>
        rw [List.getLast?_append, List.getLast?_cons_cons,
          List.getLast?_eq_getLast _ (List.cons_ne_nil y ys)]
        rfl
    rw [PageToken.text, hlast] at hc
    exact Js.isDigit_not_whiteSpace c (hd c (List.mem_of_getLast?_eq_some hc))

theorem PageToken.comma_not_mem (t : PageToken) (h : t.IsValid) : ',' ∉ t.text := by
  cases t with
  | single k => exact Js.not_mem_decimal k h ',' (by decide)
  | range a b =>
    intro hm
    rcases List.mem_append.mp hm with hm | hm
    · exact Js.not_mem_decimal a h.1 ',' (by decide) hm
    · rcases List.mem_cons.mp hm with hm | hm
      · exact absurd hm (by decide)
      · exact Js.not_mem_decimal b h.2 ',' (by decide) hm

theorem tokensOf_rangeText (t : PageToken) (ts : List PageToken)
    (h : ∀ u ∈ t :: ts, u.IsValid) :
    tokensOf (rangeText (t :: ts)) = (t :: ts).map PageToken.text := by
  unfold tokensOf rangeText
  rw [List.map_cons, Js.split_intercalate ',' t.text (ts.map PageToken.text)]
  · rw [← List.map_cons, List.map_map]
    apply List.map_congr_left
    intro u hu
    exact Js.trim_of_ends u.text (PageToken.text_head u (h u hu)) (PageToken.text_last u (h u hu))
  · intro v hv
    rw [← List.map_cons] at hv
    obtain ⟨u, hu, rfl⟩ := List.mem_map.mp hv
    exact PageToken.comma_not_mem u (h u hu)

theorem mem_parsePageRanges_rangeText (toks : List PageToken) (h : ∀ t ∈ toks, t.IsValid)
    (n p : Int) :
    p ∈ PDFRemover.parsePageRanges (rangeText toks) n ↔
      (1 ≤ p ∧ p ≤ n) ∧ ∃ t ∈ toks, t.Covers p := by
  cases toks with
  | nil =>
    have : PDFRemover.parsePageRanges (rangeText []) n = [] := rfl
    simp [this]
  | cons t ts =>
    rw [mem_parsePageRanges, tokensOf_rangeText t ts h, and_comm]
    apply and_congr_right
    intro _
    constructor
    · rintro ⟨u, hu, hp⟩
      obtain ⟨v, hv, rfl⟩ := List.mem_map.mp hu
      exact ⟨v, hv, (mem_tokenPages_text v (h v hv) p).mp hp⟩
    · rintro ⟨v, hv, hp⟩
      exact ⟨v.text, List.mem_map_of_mem _ hv, (mem_tokenPages_text v (h v hv) p).mpr hp⟩

/-- C4: for a text made of comma-separated tokens, each a single decimal integer or a range
of two decimal integers, page `p` is in `parsePageRanges(text, pageCount)` exactly when
`1 ≤ p ≤ pageCount` and some token is the single integer `p` or a range whose bounds, in
either order, enclose `p`; so `parse("9-7", 10) = {7,8,9}` and
`parse("3,6,7-9", 10) = {3,6,7,8,9}`. -/
theorem parsePageRanges_membership (toks : List PageToken) (hvalid : ∀ t ∈ toks, t.IsValid)
    (pageCount p : Int) :
    (p ∈ PDFRemover.parsePageRanges (rangeText toks) pageCount ↔
        (1 ≤ p ∧ p ≤ pageCount) ∧ ∃ t ∈ toks, t.Covers p) ∧
      PDFRemover.parsePageRanges "9-7".toList 10 = [7, 8, 9] ∧
      PDFRemover.parsePageRanges "3,6,7-9".toList 10 = [3, 6, 7, 8, 9] :=
  ⟨mem_parsePageRanges_rangeText toks hvalid pageCount p, by decide, by decide⟩

theorem parsePageRanges_membership_witness :
    (∀ t ∈ [PageToken.single "3".toList, PageToken.single "6".toList,
        PageToken.range "9".toList "7".toList], t.IsValid) ∧
    ((8 ∈ PDFRemover.parsePageRanges
          (rangeText [PageToken.single "3".toList, PageToken.single "6".toList,
            PageToken.range "9".toList "7".toList]) 10 ↔
        (1 ≤ (8 : Int) ∧ (8 : Int) ≤ 10) ∧
          ∃ t ∈ [PageToken.single "3".toList, PageToken.single "6".toList,
            PageToken.range "9".toList "7".toList], t.Covers 8) ∧
      PDFRemover.parsePageRanges "9-7".toList 10 = [7, 8, 9] ∧
      PDFRemover.parsePageRanges "3,6,7-9".toList 10 = [3, 6, 7, 8, 9]) :=
  ⟨by decide,
    parsePageRanges_membership
      [PageToken.single "3".toList, PageToken.single "6".toList,
        PageToken.range "9".toList "7".toList] (by decide) 10 8⟩

/-! ### removePages -/

theorem mem_pagesToKeep (n : Nat) (sel : List Int) (p : Int) :
    p ∈ pagesToKeep (some n) sel ↔ (1 ≤ p ∧ p ≤ n) ∧ p ∉ sel := by
  unfold pagesToKeep
  rw [List.mem_filter, List.mem_map]
  have hc : (!sel.contains p) = true ↔ p ∉ sel := by simp
  rw [hc]
  apply and_congr_left
  intro _
  constructor
  · rintro ⟨i, hi, rfl⟩
    have := List.mem_range.mp hi
    simp only [Option.getD_some] at this
    omega
  · rintro ⟨h1, h2⟩
    refine ⟨(p - 1).toNat, List.mem_range.mpr ?_, ?_⟩
    · simp only [Option.getD_some]
      omega
    · omega

theorem sorted_pagesToKeep (numPages : Option Nat) (sel : List Int) :
    (pagesToKeep numPages sel).Sorted (· < ·) := by
  unfold pagesToKeep
  apply List.Pairwise.filter
  rw [List.pairwise_map]
  exact (List.pairwise_lt_range _).imp (fun {a b} h => by
    show (a : Int) + 1 < (b : Int) + 1
    omega)

/-- C5: the pages `removePages` copies into the new document (`pagesToKeep`) are exactly the
pages of `[1..n]` that are not in the removal set, in increasing order, each once; removing
`{2,4}` from a 5-page document keeps pages 1, 3, 5 in that order. -/
theorem pagesToKeep_is_ordered_complement (n : Nat) (S : List Int) :
    (pagesToKeep (some n) S).Sorted (· < ·) ∧
      (∀ p : Int, p ∈ pagesToKeep (some n) S ↔ (1 ≤ p ∧ p ≤ n) ∧ p ∉ S) ∧
      pagesToKeep (some 5) [2, 4] = [1, 3, 5] ∧
      (PDFRemover.removePages plainLib (removerWith [2, 4])).processedFile.map
          (fun r => r.document.map PdfPage.content) = some [1, 3, 5] ∧
      (PDFEditor.removePages plainLib (editorWith [2, 4])).pdfFile.map
          (fun f => f.document.map (fun d => d.map PdfPage.content)) =
        some (some [1, 3, 5]) :=
  ⟨sorted_pagesToKeep (some n) S, mem_pagesToKeep n S, by decide, by decide, by decide⟩

/-! ### The crop box -/

/-- C1: for a page of positive natural size shown at a positive display size, and a selection
rectangle inside the display bounds, the crop box `applyCrop` computes satisfies `cropX ≥ 0`,
`cropY ≥ 0`, `cropX + cropWidth ≤ naturalWidth` and `cropY + cropHeight ≤ naturalHeight`. -/
theorem cropBox_within_page (naturalWidth naturalHeight displayWidth displayHeight : ℚ)
    (sel : Rect) (_hnw : 0 < naturalWidth) (hnh : 0 < naturalHeight)
    (_hdw : 0 < displayWidth) (hdh : 0 < displayHeight)
    (hsel : InBounds displayWidth displayHeight sel) :
    0 ≤ (PDFEditor.cropBox naturalWidth naturalHeight
          { width := displayWidth, height := displayHeight } sel).x ∧
      0 ≤ (PDFEditor.cropBox naturalWidth naturalHeight
          { width := displayWidth, height := displayHeight } sel).y ∧
      (PDFEditor.cropBox naturalWidth naturalHeight
          { width := displayWidth, height := displayHeight } sel).x +
        (PDFEditor.cropBox naturalWidth naturalHeight
          { width := displayWidth, height := displayHeight } sel).width ≤ naturalWidth ∧
      (PDFEditor.cropBox naturalWidth naturalHeight
          { width := displayWidth, height := displayHeight } sel).y +
        (PDFEditor.cropBox naturalWidth naturalHeight
          { width := displayWidth, height := displayHeight } sel).height ≤ naturalHeight := by
  obtain ⟨hx, hy, hw, hh, hxw, hyh⟩ := hsel
  simp only [PDFEditor.cropBox, PDFEditor.xRatio, PDFEditor.yRatio]
  have hratio : 0 ≤ naturalHeight / displayHeight := le_of_lt (div_pos hnh hdh)
  refine ⟨le_max_left _ _, ?_, ?_, ?_⟩
  · have h1 : (sel.y + sel.height) * (naturalHeight / displayHeight) ≤
        displayHeight * (naturalHeight / displayHeight) :=
      mul_le_mul_of_nonneg_right hyh hratio
    have h2 : displayHeight * (naturalHeight / displayHeight) = naturalHeight := by
      field_simp
    linarith
  · have := min_le_left (naturalWidth - max 0 (sel.x * (naturalWidth / displayWidth) - 30))
      (sel.width * (naturalWidth / displayWidth) - 1)
    linarith
  · have h1 : 0 ≤ sel.y * (naturalHeight / displayHeight) := mul_nonneg hy hratio
    nlinarith

theorem cropBox_within_page_witness :
    (0 : ℚ) < 600 ∧ (0 : ℚ) < 800 ∧ (0 : ℚ) < 1200 ∧ (0 : ℚ) < 1600 ∧
      InBounds 1200 1600 { x := 200, y := 200, width := 400, height := 400 } ∧
      0 ≤ (PDFEditor.cropBox 600 800 { width := 1200, height := 1600 }
          { x := 200, y := 200, width := 400, height := 400 }).x ∧
      0 ≤ (PDFEditor.cropBox 600 800 { width := 1200, height := 1600 }
          { x := 200, y := 200, width := 400, height := 400 }).y ∧
      (PDFEditor.cropBox 600 800 { width := 1200, height := 1600 }
          { x := 200, y := 200, width := 400, height := 400 }).x +
        (PDFEditor.cropBox 600 800 { width := 1200, height := 1600 }
          { x := 200, y := 200, width := 400, height := 400 }).width ≤ 600 ∧
      (PDFEditor.cropBox 600 800 { width := 1200, height := 1600 }
          { x := 200, y := 200, width := 400, height := 400 }).y +
        (PDFEditor.cropBox 600 800 { width := 1200, height := 1600 }
          { x := 200, y := 200, width := 400, height := 400 }).height ≤ 800 :=
  ⟨by norm_num, by norm_num, by norm_num, by norm_num, by norm_num [InBounds],
    cropBox_within_page 600 800 1200 1600 { x := 200, y := 200, width := 400, height := 400 }
      (by norm_num) (by norm_num) (by norm_num) (by norm_num) (by norm_num [InBounds])⟩

/-! ### The selection rectangle -/

theorem pointerX_bounds (e : MouseEvent) (hW : 0 ≤ e.rect.width) :
    0 ≤ PDFEditor.pointerX e ∧ PDFEditor.pointerX e ≤ e.rect.width := by
  unfold PDFEditor.pointerX
  exact ⟨le_max_left _ _, max_le hW (min_le_right _ _)⟩

theorem pointerY_bounds (e : MouseEvent) (hH : 0 ≤ e.rect.height) :
    0 ≤ PDFEditor.pointerY e ∧ PDFEditor.pointerY e ≤ e.rect.height := by
  unfold PDFEditor.pointerY
  exact ⟨le_max_left _ _, max_le hH (min_le_right _ _)⟩

theorem flipNegative_width (r : Rect) : (PDFEditor.flipNegative r).width = |r.width| := by
  unfold PDFEditor.flipNegative
  simp only []
  split_ifs with h
  · rfl
  · exact (abs_of_nonneg (not_lt.mp h)).symm

theorem flipNegative_height (r : Rect) : (PDFEditor.flipNegative r).height = |r.height| := by
  unfold PDFEditor.flipNegative
  simp only []
  split_ifs with h
  · rfl
  · exact (abs_of_nonneg (not_lt.mp h)).symm

theorem constrain_flip_inBounds (rect : DOMRect) (r : Rect)
    (hw : |r.width| ≤ rect.width) (hh : |r.height| ≤ rect.height) :
    InBounds rect.width rect.height (PDFEditor.constrain rect (PDFEditor.flipNegative r)) := by
  have hw0 := abs_nonneg r.width
  have hh0 := abs_nonneg r.height
  unfold InBounds PDFEditor.constrain
  simp only [flipNegative_width, flipNegative_height]
  refine ⟨le_max_left _ _, le_max_left _ _, hw0, hh0, ?_, ?_⟩
  · have : max 0 (min (PDFEditor.flipNegative r).x (rect.width - |r.width|)) ≤
        rect.width - |r.width| :=
      max_le (by linarith) (min_le_right _ _)
    linarith
  · have : max 0 (min (PDFEditor.flipNegative r).y (rect.height - |r.height|)) ≤
        rect.height - |r.height| :=
      max_le (by linarith) (min_le_right _ _)
    linarith

theorem resizeBy_size (h : Handle) (cd : Rect) (cropStart : Option Point) (x y W H : ℚ)
    (hcd : InBounds W H cd) (hx : 0 ≤ x ∧ x ≤ W) (hy : 0 ≤ y ∧ y ≤ H) :
    |(PDFEditor.resizeBy h cd cropStart x y).width| ≤ W ∧
      |(PDFEditor.resizeBy h cd cropStart x y).height| ≤ H := by
  obtain ⟨h1, h2, h3, h4, h5, h6⟩ := hcd
  obtain ⟨hx0, hx1⟩ := hx
  obtain ⟨hy0, hy1⟩ := hy
  cases h <;> simp only [PDFEditor.resizeBy] <;>
    first
    | (constructor <;> rw [abs_le] <;> constructor <;> linarith)
    | (cases cropStart <;> simp only [] <;> constructor <;> rw [abs_le] <;> constructor <;>
        linarith)

theorem adjusted_inBounds (h : Handle) (cd : Rect) (cropStart : Option Point) (e : MouseEvent)
    (hW : 0 ≤ e.rect.width) (hH : 0 ≤ e.rect.height)
    (hcd : InBounds e.rect.width e.rect.height cd) :
    InBounds e.rect.width e.rect.height (PDFEditor.adjusted h cd cropStart e) := by
  have hs := resizeBy_size h cd cropStart (PDFEditor.pointerX e) (PDFEditor.pointerY e)
    e.rect.width e.rect.height hcd (pointerX_bounds e hW) (pointerY_bounds e hH)
  exact constrain_flip_inBounds e.rect _ hs.1 hs.2

theorem drawn_inBounds (start : Point) (e : MouseEvent)
    (hW : 0 ≤ e.rect.width) (hH : 0 ≤ e.rect.height)
    (hstart : PointIn e.rect.width e.rect.height start) :
    InBounds e.rect.width e.rect.height (PDFEditor.drawn start e) := by
  obtain ⟨hx0, hx1⟩ := pointerX_bounds e hW
  obtain ⟨hy0, hy1⟩ := pointerY_bounds e hH
  obtain ⟨s1, s2, s3, s4⟩ := hstart
  unfold InBounds PDFEditor.drawn
  simp only []
  refine ⟨le_min s1 hx0, le_min s3 hy0, abs_nonneg _, abs_nonneg _, ?_, ?_⟩
  · rcases le_total start.x (PDFEditor.pointerX e) with hle | hle
    · rw [min_eq_left hle, abs_of_nonneg (by linarith)]; linarith
    · rw [min_eq_right hle, abs_of_nonpos (by linarith)]; linarith
  · rcases le_total start.y (PDFEditor.pointerY e) with hle | hle
    · rw [min_eq_left hle, abs_of_nonneg (by linarith)]; linarith
    · rw [min_eq_right hle, abs_of_nonpos (by linarith)]; linarith

theorem zeroSize_inBounds (e : MouseEvent) (hW : 0 ≤ e.rect.width) (hH : 0 ≤ e.rect.height) :
    InBounds e.rect.width e.rect.height
      { x := PDFEditor.pointerX e, y := PDFEditor.pointerY e, width := 0, height := 0 } := by
  obtain ⟨hx0, hx1⟩ := pointerX_bounds e hW
  obtain ⟨hy0, hy1⟩ := pointerY_bounds e hH
  unfold InBounds
  simp only []
  exact ⟨hx0, hy0, le_refl 0, le_refl 0, by linarith, by linarith⟩

theorem startSelection_inv (s : PDFEditor.State) (e : MouseEvent)
    (hW : 0 ≤ e.rect.width) (hH : 0 ≤ e.rect.height) :
    SelectionInv e.rect.width e.rect.height
      (PDFEditor.startSelection s (PDFEditor.pointerX e) (PDFEditor.pointerY e)) := by
  constructor
  · intro cd hcd
    simp only [PDFEditor.startSelection, Option.some.injEq] at hcd
    rw [← hcd]
    exact zeroSize_inBounds e hW hH
  · intro _ q hq
    simp only [PDFEditor.startSelection, Option.some.injEq] at hq
    rw [← hq]
    obtain ⟨hx0, hx1⟩ := pointerX_bounds e hW
    obtain ⟨hy0, hy1⟩ := pointerY_bounds e hH
    exact ⟨hx0, hx1, hy0, hy1⟩

theorem handleMouseDown_inv (s : PDFEditor.State) (e : MouseEvent)
    (hW : 0 ≤ e.rect.width) (hH : 0 ≤ e.rect.height)
    (hinv : SelectionInv e.rect.width e.rect.height s) :
    SelectionInv e.rect.width e.rect.height (PDFEditor.handleMouseDown s e) := by
  unfold PDFEditor.handleMouseDown
  split_ifs with hgate
  · exact hinv
  · simp only []
    split
    · split
      · constructor
        · intro cd hcd
          exact hinv.1 cd hcd
        · intro hnone
          simp at hnone
      · split_ifs
        · constructor
          · intro cd hcd
            exact hinv.1 cd hcd
          · intro hnone
            simp at hnone
        · exact startSelection_inv s e hW hH
    · exact startSelection_inv s e hW hH

theorem handleMouseMove_inv (s : PDFEditor.State) (e : MouseEvent)
    (hW : 0 ≤ e.rect.width) (hH : 0 ≤ e.rect.height)
    (hinv : SelectionInv e.rect.width e.rect.height s) (s' : PDFEditor.State)
    (hstep : PDFEditor.handleMouseMove s e = some s') :
    SelectionInv e.rect.width e.rect.height s' := by
  unfold PDFEditor.handleMouseMove at hstep
  split_ifs at hstep with hgate
  · rw [← Option.some.inj hstep]
    exact hinv
  · split at hstep
    · rename_i h hh
      split at hstep
      · exact absurd hstep (by simp)
      · rename_i cd hcd
        have hs := Option.some.inj hstep
        rw [← hs]
        constructor
        · intro r hr
          simp only [Option.some.injEq] at hr
          rw [← hr]
          exact adjusted_inBounds h cd s.cropStart e hW hH (hinv.1 cd hcd)
        · intro hnone
          exfalso
          split_ifs at hnone <;> simp [hh] at hnone
    · rename_i hh
      split at hstep
      · exact absurd hstep (by simp)
      · rename_i start hstart
        have hs := Option.some.inj hstep
        rw [← hs]
        constructor
        · intro r hr
          simp only [Option.some.injEq] at hr
          rw [← hr]
          exact drawn_inBounds start e hW hH (hinv.2 hh start hstart)
        · intro _ q hq
          exact hinv.2 hh q hq

theorem handleMouseMove_returns (s : PDFEditor.State) (e : MouseEvent)
    (hcd : s.cropDimensions ≠ none) (hstart : s.cropStart ≠ none) :
    ∃ s', PDFEditor.handleMouseMove s e = some s' := by
  unfold PDFEditor.handleMouseMove
  split_ifs
  · exact ⟨s, rfl⟩
  · split
    · split
      · rename_i hnone
        exact absurd hnone hcd
      · exact ⟨_, rfl⟩
    · split
      · rename_i hnone
        exact absurd hnone hstart
      · exact ⟨_, rfl⟩

theorem handleMouseMove_handle (s : PDFEditor.State) (e : MouseEvent) (h : Handle) (cd : Rect)
    (hc : s.isCropping = true) (hd : s.isDragging = true) (hf : s.pdfFile ≠ none)
    (hh : s.activeHandle = some h) (hcd : s.cropDimensions = some cd) :
    ∃ s', PDFEditor.handleMouseMove s e = some s' ∧
      s'.cropDimensions = some (PDFEditor.adjusted h cd s.cropStart e) := by
  have hf2 : s.pdfFile.isNone = false := by
    cases hp : s.pdfFile with
    | none => exact absurd hp hf
    | some f => rfl
  unfold PDFEditor.handleMouseMove
  simp only [hc, hd, hf2, hh, hcd]
  exact ⟨_, rfl, rfl⟩

theorem handleMouseMove_draw (s : PDFEditor.State) (e : MouseEvent) (q : Point)
    (hc : s.isCropping = true) (hd : s.isDragging = true) (hf : s.pdfFile ≠ none)
    (hh : s.activeHandle = none) (hq : s.cropStart = some q) :
    ∃ s', PDFEditor.handleMouseMove s e = some s' ∧
      s'.cropDimensions = some (PDFEditor.drawn q e) := by
  have hf2 : s.pdfFile.isNone = false := by
    cases hp : s.pdfFile with
    | none => exact absurd hp hf
    | some f => rfl
  unfold PDFEditor.handleMouseMove
  simp only [hc, hd, hf2, hh, hq]
  exact ⟨_, rfl, rfl⟩

/-- C2: in a page container of size `W × H`, the selection invariant (`x ≥ 0`, `y ≥ 0`,
`width ≥ 0`, `height ≥ 0`, `x + width ≤ W`, `y + height ≤ H`) is preserved by every
mutation: by `handleMouseMove` for each of the eight resize handles and for `move`, at every
pointer position; by `handleMouseMove` while a new selection is drawn; and by the zero-size
rectangle `handleMouseDown` stores. -/
theorem selection_rect_invariant (s : PDFEditor.State) (e : MouseEvent)
    (hW : 0 ≤ e.rect.width) (hH : 0 ≤ e.rect.height)
    (hinv : SelectionInv e.rect.width e.rect.height s) :
    SelectionInv e.rect.width e.rect.height (PDFEditor.handleMouseDown s e) ∧
      (∀ s', PDFEditor.handleMouseMove s e = some s' →
        SelectionInv e.rect.width e.rect.height s') ∧
      (s.cropDimensions ≠ none → s.cropStart ≠ none →
        ∃ s', PDFEditor.handleMouseMove s e = some s') ∧
      (∀ (h : Handle) (cd : Rect), s.isCropping = true → s.isDragging = true →
        s.pdfFile ≠ none → s.activeHandle = some h → s.cropDimensions = some cd →
        ∃ s', PDFEditor.handleMouseMove s e = some s' ∧
          s'.cropDimensions = some (PDFEditor.adjusted h cd s.cropStart e) ∧
          InBounds e.rect.width e.rect.height (PDFEditor.adjusted h cd s.cropStart e)) ∧
      (∀ q : Point, s.isCropping = true → s.isDragging = true → s.pdfFile ≠ none →
        s.activeHandle = none → s.cropStart = some q →
        ∃ s', PDFEditor.handleMouseMove s e = some s' ∧
          s'.cropDimensions = some (PDFEditor.drawn q e) ∧
          InBounds e.rect.width e.rect.height (PDFEditor.drawn q e)) ∧
      (PDFEditor.startSelection s (PDFEditor.pointerX e) (PDFEditor.pointerY e)).cropDimensions =
        some { x := PDFEditor.pointerX e, y := PDFEditor.pointerY e, width := 0, height := 0 } ∧
      InBounds e.rect.width e.rect.height
        { x := PDFEditor.pointerX e, y := PDFEditor.pointerY e, width := 0, height := 0 } := by
  refine ⟨handleMouseDown_inv s e hW hH hinv, handleMouseMove_inv s e hW hH hinv,
    handleMouseMove_returns s e, ?_, ?_, rfl, zeroSize_inBounds e hW hH⟩
  · intro h cd hc hd hf hh hcd
    obtain ⟨s', h1, h2⟩ := handleMouseMove_handle s e h cd hc hd hf hh hcd
    exact ⟨s', h1, h2, adjusted_inBounds h cd s.cropStart e hW hH (hinv.1 cd hcd)⟩
  · intro q hc hd hf hh hq
    obtain ⟨s', h1, h2⟩ := handleMouseMove_draw s e q hc hd hf hh hq
    exact ⟨s', h1, h2, drawn_inBounds q e hW hH (hinv.2 hh q hq)⟩

theorem sampleDrag_inv :
    SelectionInv sampleEvent.rect.width sampleEvent.rect.height sampleDrag := by
  constructor
  · intro cd hcd
    simp only [sampleDrag, Option.some.injEq] at hcd
    rw [← hcd]
    norm_num [InBounds, sampleEvent]
  · intro hnone
    simp [sampleDrag] at hnone

theorem selection_rect_invariant_witness :
    0 ≤ sampleEvent.rect.width ∧ 0 ≤ sampleEvent.rect.height ∧
      SelectionInv sampleEvent.rect.width sampleEvent.rect.height sampleDrag ∧
      ∃ s', PDFEditor.handleMouseMove sampleDrag sampleEvent = some s' ∧
        s'.cropDimensions =
          some (PDFEditor.adjusted Handle.topLeft
            { x := 100, y := 100, width := 200, height := 200 } sampleDrag.cropStart
            sampleEvent) ∧
        InBounds sampleEvent.rect.width sampleEvent.rect.height
          (PDFEditor.adjusted Handle.topLeft
            { x := 100, y := 100, width := 200, height := 200 } sampleDrag.cropStart
            sampleEvent) :=
  ⟨by norm_num [sampleEvent], by norm_num [sampleEvent], sampleDrag_inv,
    (selection_rect_invariant sampleDrag sampleEvent (by norm_num [sampleEvent])
      (by norm_num [sampleEvent]) sampleDrag_inv).2.2.2.1 Handle.topLeft
      { x := 100, y := 100, width := 200, height := 200 } rfl rfl (by simp [sampleDrag])
      rfl rfl⟩

theorem sampleDrag_adjusted :
    PDFEditor.adjusted Handle.topLeft { x := 100, y := 100, width := 200, height := 200 }
      sampleDrag.cropStart sampleEvent = { x := 300, y := 50, width := 100, height := 250 } := by
  norm_num [PDFEditor.adjusted, PDFEditor.resizeBy, PDFEditor.flipNegative, PDFEditor.constrain,
    PDFEditor.pointerX, PDFEditor.pointerY, sampleEvent]

/-- C10 (the code at the failing input): with a 600 × 800 pt page shown at `scale = 2`,
`onPageLoadSuccess` stores the size of the page at scale 1.0, not the displayed 1200 × 1600,
so `xRatio = yRatio = 1` instead of `1/2`; the region selected as `(100, 100, 200, 200)` at
scale 1 and as `(200, 200, 400, 400)` at scale 2 gets two different crop boxes. -/
theorem cropBox_ignores_displayScale :
    getViewport { width := 600, height := 800, content := 1 } 2 =
        { width := 1200, height := 1600 } ∧
      (PDFEditor.onPageLoadSuccess { scale := 2 }
          { width := 600, height := 800, content := 1 }).pageSize =
        { width := 600, height := 800 } ∧
      PDFEditor.xRatio 600 (PDFEditor.onPageLoadSuccess { scale := 2 }
          { width := 600, height := 800, content := 1 }).pageSize = 1 ∧
      PDFEditor.yRatio 800 (PDFEditor.onPageLoadSuccess { scale := 2 }
          { width := 600, height := 800, content := 1 }).pageSize = 1 ∧
      PDFEditor.cropBox 600 800 (PDFEditor.onPageLoadSuccess { scale := 1 }
          { width := 600, height := 800, content := 1 }).pageSize
          { x := 100, y := 100, width := 200, height := 200 } =
        { x := 70, y := 500, width := 199, height := 200 } ∧
      PDFEditor.cropBox 600 800 (PDFEditor.onPageLoadSuccess { scale := 2 }
          { width := 600, height := 800, content := 1 }).pageSize
          { x := 200, y := 200, width := 400, height := 400 } =
        { x := 170, y := 200, width := 399, height := 400 } := by
  refine ⟨?_, ?_, ?_, ?_, ?_, ?_⟩ <;>
    norm_num [getViewport, PDFEditor.onPageLoadSuccess, PDFEditor.xRatio, PDFEditor.yRatio,
      PDFEditor.cropBox]

/-! ### The guard of removePages -/

theorem removeGuard_of_rejected (pdfFile : Option PdfFile) (sel : List Int)
    (numPages : Option Nat) (h : sel.length = 0 ∨ numPages = some sel.length) :
    removeGuard pdfFile sel numPages = true := by
  unfold removeGuard
  rcases h with h | h
  · simp [h]
  · simp [h]

theorem removeGuard_of_accepted (pdfFile : Option PdfFile) (sel : List Int)
    (numPages : Option Nat) (hf : pdfFile ≠ none) (h0 : sel.length ≠ 0)
    (hn : numPages ≠ some sel.length) :
    removeGuard pdfFile sel numPages = false := by
  unfold removeGuard
  cases pdfFile with
  | none => exact absurd rfl hf
  | some f =>
    have hn2 : ¬ (some sel.length = numPages) := fun e => hn e.symm
    simp [h0, hn2]

/-- C6: `removePages` (in `PDFRemover` and in `PDFEditor`) rejects the request when the
selection is empty or its size equals the page count: nothing is started, the state is left
as it was (the processing flag, the stored result) but for the alert; in every other case,
with a file loaded, the rebuild is started (`isProcessing` is set). -/
theorem removePages_guard (lib : PdfLib) (s : PDFRemover.State) (t : PDFEditor.State) :
    ((s.selectedPages.length = 0 ∨ s.numPages = some s.selectedPages.length) →
        PDFRemover.removePagesStart s = none ∧
        PDFRemover.removePages lib s = { s with alerts := s.alerts ++ [selectAlert] } ∧
        (PDFRemover.removePages lib s).isProcessing = s.isProcessing ∧
        (PDFRemover.removePages lib s).processedFile = s.processedFile) ∧
      (s.pdfFile ≠ none → s.selectedPages.length ≠ 0 →
        s.numPages ≠ some s.selectedPages.length →
        PDFRemover.removePagesStart s = some { s with isProcessing := true }) ∧
      ((t.selectedPages.length = 0 ∨ t.numPages = some t.selectedPages.length) →
        PDFEditor.removePagesStart t = none ∧
        PDFEditor.removePages lib t = { t with alerts := t.alerts ++ [selectAlert] } ∧
        (PDFEditor.removePages lib t).isProcessing = t.isProcessing ∧
        (PDFEditor.removePages lib t).pdfFile = t.pdfFile) ∧
      (t.pdfFile ≠ none → t.selectedPages.length ≠ 0 →
        t.numPages ≠ some t.selectedPages.length →
        PDFEditor.removePagesStart t = some { t with isProcessing := true }) := by
  refine ⟨?_, ?_, ?_, ?_⟩
  · intro h
    have hg := removeGuard_of_rejected s.pdfFile s.selectedPages s.numPages h
    have hstart : PDFRemover.removePagesStart s = none := by
      simp [PDFRemover.removePagesStart, hg]
    refine ⟨hstart, ?_, ?_, ?_⟩ <;> simp [PDFRemover.removePages, hstart]
  · intro hf h0 hn
    simp [PDFRemover.removePagesStart, removeGuard_of_accepted _ _ _ hf h0 hn]
  · intro h
    have hg := removeGuard_of_rejected t.pdfFile t.selectedPages t.numPages h
    have hstart : PDFEditor.removePagesStart t = none := by
      simp [PDFEditor.removePagesStart, hg]
    refine ⟨hstart, ?_, ?_, ?_⟩ <;> simp [PDFEditor.removePages, hstart]
  · intro hf h0 hn
    simp [PDFEditor.removePagesStart, removeGuard_of_accepted _ _ _ hf h0 hn]

theorem removePages_guard_witness :
    (((removerWith [1, 2, 3, 4, 5]).selectedPages.length = 0 ∨
        (removerWith [1, 2, 3, 4, 5]).numPages =
          some (removerWith [1, 2, 3, 4, 5]).selectedPages.length) ∧
      PDFRemover.removePagesStart (removerWith [1, 2, 3, 4, 5]) = none) ∧
    (((removerWith [2, 4]).pdfFile ≠ none ∧ (removerWith [2, 4]).selectedPages.length ≠ 0 ∧
        (removerWith [2, 4]).numPages ≠ some (removerWith [2, 4]).selectedPages.length) ∧
      PDFRemover.removePagesStart (removerWith [2, 4]) =
        some { removerWith [2, 4] with isProcessing := true }) ∧
    (((editorWith []).selectedPages.length = 0 ∨
        (editorWith []).numPages = some (editorWith []).selectedPages.length) ∧
      PDFEditor.removePagesStart (editorWith []) = none) ∧
    (((editorWith [2, 4]).pdfFile ≠ none ∧ (editorWith [2, 4]).selectedPages.length ≠ 0 ∧
        (editorWith [2, 4]).numPages ≠ some (editorWith [2, 4]).selectedPages.length) ∧
      PDFEditor.removePagesStart (editorWith [2, 4]) =
        some { editorWith [2, 4] with isProcessing := true }) :=
  ⟨⟨Or.inr rfl,
      ((removePages_guard plainLib (removerWith [1, 2, 3, 4, 5]) (editorWith [])).1
        (Or.inr rfl)).1⟩,
    ⟨⟨by simp [removerWith], by simp [removerWith], by simp [removerWith]⟩,
      (removePages_guard plainLib (removerWith [2, 4]) (editorWith [])).2.1
        (by simp [removerWith]) (by simp [removerWith]) (by simp [removerWith])⟩,
    ⟨Or.inl rfl,
      ((removePages_guard plainLib (removerWith []) (editorWith [])).2.2.1 (Or.inl rfl)).1⟩,
    ⟨⟨by simp [editorWith], by simp [editorWith], by simp [editorWith]⟩,
      (removePages_guard plainLib (removerWith []) (editorWith [2, 4])).2.2.2
        (by simp [editorWith]) (by simp [editorWith]) (by simp [editorWith])⟩⟩

/-! ### Reachable selections -/

theorem wellFormed_nil (n : Int) : WellFormed n [] :=
  ⟨List.sorted_nil, fun p hp => absurd hp (List.not_mem_nil p)⟩

theorem mem_toggleList (prev : List Int) (pageNum p : Int) :
    p ∈ toggleList prev pageNum ↔ (p ∈ prev ∧ p ≠ pageNum) ∨ (p = pageNum ∧ pageNum ∉ prev) := by
  unfold toggleList
  by_cases hin : pageNum ∈ prev
  · have hc : prev.contains pageNum = true := by simpa using hin
    simp only [hc, if_true, List.mem_filter, bne_iff_ne, ne_eq]
    constructor
    · intro h
      exact Or.inl h
    · rintro (h | ⟨_, h⟩)
      · exact h
      · exact absurd hin h
  · have hc : prev.contains pageNum = false := by simpa using hin
    simp only [hc, Bool.false_eq_true, if_false, Js.mem_sortNumeric, List.mem_append,
      List.mem_singleton]
    constructor
    · rintro (h | h)
      · exact Or.inl ⟨h, fun e => hin (e ▸ h)⟩
      · exact Or.inr ⟨h, hin⟩
    · rintro (⟨h, _⟩ | ⟨h, _⟩)
      · exact Or.inl h
      · exact Or.inr h

theorem sorted_toggleList (prev : List Int) (pageNum : Int) (h : prev.Sorted (· < ·)) :
    (toggleList prev pageNum).Sorted (· < ·) := by
  unfold toggleList
  split_ifs with hc
  · exact h.filter _
  · apply Js.strict_sortNumeric
    have hin : pageNum ∉ prev := by simpa using hc
    exact List.Nodup.append h.nodup (List.nodup_singleton pageNum) (by simpa using hin)

theorem wellFormed_toggleList (n : Int) (prev : List Int) (pageNum : Int)
    (h : WellFormed n prev) (h1 : 1 ≤ pageNum) (h2 : pageNum ≤ n) :
    WellFormed n (toggleList prev pageNum) := by
  refine ⟨sorted_toggleList prev pageNum h.1, ?_⟩
  intro p hp
  rcases (mem_toggleList prev pageNum p).mp hp with ⟨hp, _⟩ | ⟨rfl, _⟩
  · exact h.2 p hp
  · exact ⟨h1, h2⟩

theorem applyPageSelection_selected (s : PDFRemover.State) :
    (PDFRemover.applyPageSelection s).selectedPages = s.selectedPages ∨
      (PDFRemover.applyPageSelection s).selectedPages =
        PDFRemover.parsePageRanges s.pagesToRemove (numOf s.numPages) := by
  unfold PDFRemover.applyPageSelection
  simp only []
  split_ifs
  · exact Or.inl rfl
  · exact Or.inr rfl

theorem applyPageSelection_numPages (s : PDFRemover.State) :
    (PDFRemover.applyPageSelection s).numPages = s.numPages := by
  unfold PDFRemover.applyPageSelection
  simp only []
  split_ifs <;> rfl

theorem handlePagesToRemoveChange_frame (s : PDFRemover.State) (value : List Char) :
    (PDFRemover.handlePagesToRemoveChange s value).numPages = s.numPages ∧
      (PDFRemover.handlePagesToRemoveChange s value).selectedPages = s.selectedPages := by
  unfold PDFRemover.handlePagesToRemoveChange
  split_ifs <;> exact ⟨rfl, rfl⟩

theorem reachable_wellFormed (n : Nat) (s : PDFRemover.State)
    (h : PDFRemover.Reachable n s) :
    s.numPages = some n ∧ WellFormed n s.selectedPages := by
  induction h with
  | init s hn hsel => exact ⟨hn, hsel ▸ wellFormed_nil n⟩
  | toggle s pageNum _ h1 h2 ih =>
    exact ⟨ih.1, wellFormed_toggleList n s.selectedPages pageNum ih.2 h1 h2⟩
  | input s value _ ih =>
    obtain ⟨e1, e2⟩ := handlePagesToRemoveChange_frame s value
    rw [e1, e2]
    exact ih
  | apply s _ ih =>
    refine ⟨(applyPageSelection_numPages s).trans ih.1, ?_⟩
    rcases applyPageSelection_selected s with e | e
    · rw [e]; exact ih.2
    · rw [e, ih.1]
      exact parsePageRanges_wellFormed s.pagesToRemove n

theorem length_pagesToKeep (n : Nat) (sel : List Int) (h : WellFormed n sel) :
    (pagesToKeep (some n) sel).length + sel.length = n := by
  have hbase : ((List.range n).map (fun (i : Nat) => (i : Int) + 1)).length = n := by simp
  have hnodup : ((List.range n).map (fun (i : Nat) => (i : Int) + 1)).Nodup :=
    (List.nodup_range n).map (fun a b hab => by
      have : (a : Int) + 1 = (b : Int) + 1 := hab
      omega)
  have hsplit := List.length_eq_length_filter_add
    (l := (List.range n).map (fun (i : Nat) => (i : Int) + 1))
    (fun pageNum => !sel.contains pageNum)
  have hperm : (((List.range n).map (fun (i : Nat) => (i : Int) + 1)).filter
      (fun pageNum => !(!sel.contains pageNum))).Perm sel := by
    rw [List.perm_ext_iff_of_nodup (hnodup.filter _) h.1.nodup]
    intro p
    rw [List.mem_filter, List.mem_map]
    have hc : (!(!sel.contains p)) = true ↔ p ∈ sel := by simp
    rw [hc]
    constructor
    · rintro ⟨_, hp⟩
      exact hp
    · intro hp
      obtain ⟨h1, h2⟩ := h.2 p hp
      exact ⟨⟨(p - 1).toNat, List.mem_range.mpr (by omega), by omega⟩, hp⟩
  have hlen := hperm.length_eq
  unfold pagesToKeep
  simp only [Option.getD_some]
  omega

theorem length_copyKept (lib : PdfLib) (pdfDoc : List PdfPage) (keep : List Int) :
    ∀ pages, copyKept lib pdfDoc keep = some pages → pages.length = keep.length := by
  induction keep with
  | nil =>
    intro pages h
    simp only [copyKept, Option.some.injEq] at h
    subst h
    rfl
  | cons p rest ih =>
    intro pages h
    unfold copyKept at h
    split at h
    · exact absurd h (by simp)
    · split at h
      · exact absurd h (by simp)
      · rename_i copied _ tail htail
        simp only [Option.some.injEq] at h
        rw [← h, List.length_cons, List.length_cons, ih tail htail]

theorem removePagesStart_eq (s started : PDFRemover.State)
    (h : PDFRemover.removePagesStart s = some started) :
    removeGuard s.pdfFile s.selectedPages s.numPages = false ∧
      started = { s with isProcessing := true } := by
  unfold PDFRemover.removePagesStart at h
  split_ifs at h with hg
  exact ⟨by simpa using hg, (Option.some.inj h).symm⟩

theorem rebuild_length (lib : PdfLib) (s : PDFRemover.State) (pages : List PdfPage)
    (size : Nat) (h : PDFRemover.rebuild lib s = some (pages, size)) :
    pages.length = (pagesToKeep s.numPages s.selectedPages).length := by
  unfold PDFRemover.rebuild at h
  split at h
  · exact absurd h (by simp)
  · split at h
    · exact absurd h (by simp)
    · split at h
      · exact absurd h (by simp)
      · rename_i copied hcopied
        split at h
        · exact absurd h (by simp)
        · simp only [Option.some.injEq, Prod.mk.injEq] at h
          rw [← h.1]
          exact length_copyKept lib _ _ copied hcopied

/-- C7: no accepted removal yields a zero-page document: in every selection state reachable
on an `n`-page document by `togglePageSelection` (pages `1..n`) and `applyPageSelection`, if
`removePages` accepts the request then `pagesToKeep` is non-empty, and the page count stored
with the result is `n` minus the number of selected pages. -/
theorem accepted_removal_keeps_a_page (n : Nat) (s started : PDFRemover.State)
    (hreach : PDFRemover.Reachable n s)
    (haccept : PDFRemover.removePagesStart s = some started) :
    pagesToKeep s.numPages s.selectedPages ≠ [] ∧
      (pagesToKeep s.numPages s.selectedPages).length = n - s.selectedPages.length ∧
      s.selectedPages.length < n ∧
      ∀ (lib : PdfLib) (pages : List PdfPage) (size : Nat),
        PDFRemover.rebuild lib started = some (pages, size) →
        pages ≠ [] ∧
          ∃ r, (PDFRemover.removePages lib s).processedFile = some r ∧ r.document = pages ∧
            r.numPages = pages.length ∧ r.numPages = n - s.selectedPages.length := by
  obtain ⟨hn, hwf⟩ := reachable_wellFormed n s hreach
  obtain ⟨hg, hstarted⟩ := removePagesStart_eq s started haccept
  have hlen := length_pagesToKeep n s.selectedPages hwf
  have hne : s.selectedPages.length ≠ n := by
    intro e
    have : removeGuard s.pdfFile s.selectedPages s.numPages = true := by
      unfold removeGuard
      simp [hn, e]
    rw [hg] at this
    exact Bool.noConfusion this
  rw [hn]
  have hkeep : (pagesToKeep (some n) s.selectedPages).length ≠ 0 := by omega
  refine ⟨fun e => hkeep (by rw [e]; rfl), by omega, by omega, ?_⟩
  intro lib pages size hre
  have hpl := rebuild_length lib started pages size hre
  have hsel : started.selectedPages = s.selectedPages := by rw [hstarted]
  have hnum : started.numPages = some n := by rw [hstarted]; exact hn
  rw [hsel, hnum] at hpl
  refine ⟨fun e => hkeep (by rw [← hpl, e]; rfl), ?_⟩
  unfold PDFRemover.removePages
  rw [haccept]
  simp only [PDFRemover.removePagesFinish, hre]
  refine ⟨_, rfl, rfl, ?_, ?_⟩
  · simp only [hsel, hnum, hpl]
  · simp only [hsel, hnum]
    omega

theorem accepted_removal_keeps_a_page_witness :
    PDFRemover.Reachable 5
        (PDFRemover.togglePageSelection (PDFRemover.togglePageSelection (removerWith []) 4) 2) ∧
      PDFRemover.removePagesStart
          (PDFRemover.togglePageSelection (PDFRemover.togglePageSelection (removerWith []) 4) 2) =
        some { removerWith [2, 4] with isProcessing := true } ∧
      pagesToKeep (some 5) [2, 4] ≠ [] :=
  ⟨PDFRemover.Reachable.toggle _ 2
      (PDFRemover.Reachable.toggle _ 4 (PDFRemover.Reachable.init _ rfl rfl) (by decide)
        (by decide)) (by decide) (by decide),
    by decide,
    (accepted_removal_keeps_a_page 5
      (PDFRemover.togglePageSelection (PDFRemover.togglePageSelection (removerWith []) 4) 2)
      { removerWith [2, 4] with isProcessing := true }
      (PDFRemover.Reachable.toggle _ 2
        (PDFRemover.Reachable.toggle _ 4 (PDFRemover.Reachable.init _ rfl rfl) (by decide)
          (by decide)) (by decide) (by decide))
      (by decide)).1⟩

/-! ### The validation pass of applyPageSelection -/

theorem flagInvalid_none (N : Int) (acc : Bool × Int) :
    PDFRemover.flagInvalid N acc none = acc := rfl

theorem validateToken_eq (N : Int) (acc : Bool × Int) (range : List Char) :
    PDFRemover.validateToken N acc range =
      (tokenNumbers range).foldl (fun a v => PDFRemover.flagInvalid N a (some v)) acc := by
  unfold PDFRemover.validateToken tokenNumbers
  split_ifs
  · rcases PDFRemover.rangeBounds range with ⟨_ | a, _ | b⟩ <;>
      simp [flagInvalid_none, Option.toList]
  · rcases Js.parseInt range with _ | page <;> simp [flagInvalid_none, Option.toList]

theorem foldl_validateToken (N : Int) (toks : List (List Char)) :
    ∀ acc : Bool × Int,
      toks.foldl (PDFRemover.validateToken N) acc =
        (toks.flatMap tokenNumbers).foldl
          (fun a v => PDFRemover.flagInvalid N a (some v)) acc := by
  induction toks with
  | nil => intro acc; rfl
  | cons t toks ih =>
    intro acc
    rw [List.foldl_cons, ih, validateToken_eq, List.flatMap_cons, List.foldl_append]

theorem validate_eq (input : List Char) (N : Int) :
    PDFRemover.validate input N =
      (numbersOf input).foldl (fun a v => PDFRemover.flagInvalid N a (some v)) (false, 0) :=
  foldl_validateToken N (tokensOf input) (false, 0)

theorem flag_fold_spec (N : Int) (l : List Int) :
    ∀ acc : Bool × Int,
      ((l.foldl (fun a v => PDFRemover.flagInvalid N a (some v)) acc).1 = true ↔
          acc.1 = true ∨ ∃ v ∈ l, N < v) ∧
        acc.2 ≤ (l.foldl (fun a v => PDFRemover.flagInvalid N a (some v)) acc).2 ∧
        (∀ v ∈ l, N < v →
          v ≤ (l.foldl (fun a v => PDFRemover.flagInvalid N a (some v)) acc).2) ∧
        ((l.foldl (fun a v => PDFRemover.flagInvalid N a (some v)) acc).2 = acc.2 ∨
          ((l.foldl (fun a v => PDFRemover.flagInvalid N a (some v)) acc).2 ∈ l ∧
            N < (l.foldl (fun a v => PDFRemover.flagInvalid N a (some v)) acc).2)) := by
  induction l with
  | nil =>
    intro acc
    simp
  | cons a l ih =>
    intro acc
    rw [List.foldl_cons]
    obtain ⟨h1, h2, h3, h4⟩ := ih (PDFRemover.flagInvalid N acc (some a))
    by_cases ha : N < a
    · have hstep : PDFRemover.flagInvalid N acc (some a) = (true, max acc.2 a) := by
        simp [PDFRemover.flagInvalid, ha]
      rw [hstep] at h1 h2 h3 h4 ⊢
      simp only at h1 h2 h3 h4
      refine ⟨?_, ?_, ?_, ?_⟩
      · constructor
        · intro _
          exact Or.inr ⟨a, List.mem_cons_self a l, ha⟩
        · intro _
          exact h1.mpr (Or.inl trivial)
      · exact le_trans (le_max_left _ _) h2
      · intro v hv hlt
        rcases List.mem_cons.mp hv with rfl | hv
        · exact le_trans (le_max_right _ _) h2
        · exact h3 v hv hlt
      · rcases h4 with h4 | ⟨h4, h5⟩
        · rcases le_total acc.2 a with hle | hle
          · right
            rw [h4, max_eq_right hle]
            exact ⟨List.mem_cons_self a l, ha⟩
          · left
            rw [h4, max_eq_left hle]
        · exact Or.inr ⟨List.mem_cons_of_mem a h4, h5⟩
    · have hstep : PDFRemover.flagInvalid N acc (some a) = acc := by
        simp [PDFRemover.flagInvalid, ha]
      rw [hstep] at h1 h2 h3 h4 ⊢
      refine ⟨?_, h2, ?_, ?_⟩
      · rw [h1]
        constructor
        · rintro (h | ⟨v, hv, hlt⟩)
          · exact Or.inl h
          · exact Or.inr ⟨v, List.mem_cons_of_mem a hv, hlt⟩
        · rintro (h | ⟨v, hv, hlt⟩)
          · exact Or.inl h
          · rcases List.mem_cons.mp hv with rfl | hv
            · exact absurd hlt ha
            · exact Or.inr ⟨v, hv, hlt⟩
      · intro v hv hlt
        rcases List.mem_cons.mp hv with rfl | hv
        · exact absurd hlt ha
        · exact h3 v hv hlt
      · rcases h4 with h4 | ⟨h4, h5⟩
        · exact Or.inl h4
        · exact Or.inr ⟨List.mem_cons_of_mem a h4, h5⟩

theorem validate_flag (input : List Char) (N : Int) :
    (PDFRemover.validate input N).1 = true ↔ ∃ v ∈ numbersOf input, N < v := by
  rw [validate_eq]
  have h := (flag_fold_spec N (numbersOf input) (false, 0)).1
  simpa using h

theorem validate_highest (input : List Char) (N : Int) (hN : 0 ≤ N)
    (h : ∃ v ∈ numbersOf input, N < v) :
    (PDFRemover.validate input N).2 ∈ numbersOf input ∧
      N < (PDFRemover.validate input N).2 ∧
      ∀ w ∈ numbersOf input, w ≤ (PDFRemover.validate input N).2 := by
  rw [validate_eq]
  obtain ⟨_, _, h3, h4⟩ := flag_fold_spec N (numbersOf input) (false, 0)
  obtain ⟨v, hv, hlt⟩ := h
  have hv2 := h3 v hv hlt
  rcases h4 with h4 | ⟨h4, h5⟩
  · simp only at h4
    omega
  · refine ⟨h4, h5, ?_⟩
    intro w hw
    by_cases hwN : N < w
    · exact h3 w hw hwN
    · omega

/-- C8: the validation pass of `applyPageSelection` flags the highest out-of-range value: if
the number of some token (a single page, the start or the end of a range) exceeds the page
count `n`, the validation error cites the greatest number stated in the text and the
committed selection is left unchanged; validating `"11"` against 10 pages cites 11. -/
theorem applyPageSelection_flags_highest (s : PDFRemover.State) (n : Nat)
    (hn : s.numPages = some n) (v : Int) (hv : v ∈ numbersOf s.pagesToRemove)
    (hgt : (n : Int) < v) :
    (∃ m ∈ numbersOf s.pagesToRemove, (n : Int) < m ∧
        (∀ w ∈ numbersOf s.pagesToRemove, w ≤ m) ∧
        (PDFRemover.applyPageSelection s).validationError =
          some ("Invalid page number(s): This PDF only has " ++ toString n ++
            " pages, but you entered page " ++ toString m ++ ".")) ∧
      (PDFRemover.applyPageSelection s).selectedPages = s.selectedPages ∧
      (PDFRemover.applyPageSelection
          { numPages := some 10, pagesToRemove := "11".toList }).validationError =
        some "Invalid page number(s): This PDF only has 10 pages, but you entered page 11." := by
  have hex : ∃ v ∈ numbersOf s.pagesToRemove, (n : Int) < v := ⟨v, hv, hgt⟩
  have hflag : (PDFRemover.validate s.pagesToRemove (numOf s.numPages)).1 = true := by
    rw [hn]
    exact (validate_flag s.pagesToRemove n).mpr hex
  obtain ⟨hm1, hm2, hm3⟩ := validate_highest s.pagesToRemove n (Int.ofNat_nonneg n) hex
  refine ⟨⟨(PDFRemover.validate s.pagesToRemove n).2, hm1, hm2, hm3, ?_⟩, ?_, by decide⟩
  · unfold PDFRemover.applyPageSelection
    simp only [hflag, if_true]
    rw [hn]
    simp only [numOf, PDFRemover.validationMessage, PDFRemover.showNumPages, hm2, if_true]
  · unfold PDFRemover.applyPageSelection
    simp only [hflag, if_true]

theorem applyPageSelection_flags_highest_witness :
    (removerWith []).numPages = some 5 ∧
      (40 : Int) ∈ numbersOf "3,11,12-40".toList ∧ ((5 : Nat) : Int) < 40 ∧
      (PDFRemover.applyPageSelection
          { removerWith [] with pagesToRemove := "3,11,12-40".toList }).selectedPages = [] :=
  ⟨rfl, by decide, by decide,
    (applyPageSelection_flags_highest
      { removerWith [] with pagesToRemove := "3,11,12-40".toList } 5 rfl 40 (by decide)
      (by decide)).2.1⟩

/-! ### Pages written in an accepted text -/

theorem Js.not_mem_of_mem_split (sep : Char) (s : List Char) :
    ∀ piece ∈ Js.split sep s, sep ∉ piece := by
  induction s with
  | nil =>
    intro piece hp
    simp only [Js.split, List.mem_singleton] at hp
    rw [hp]
    exact List.not_mem_nil sep
  | cons c cs ih =>
    intro piece hp
    unfold Js.split at hp
    split_ifs at hp with hc
    · rcases List.mem_cons.mp hp with rfl | hp
      · exact List.not_mem_nil sep
      · exact ih piece hp
    · rcases hsp : Js.split sep cs with _ | ⟨first, others⟩
      · rw [hsp] at hp
        simp only [List.headD_nil, List.tail_nil, List.mem_singleton] at hp
        rw [hp]
        intro hm
        rcases List.mem_cons.mp hm with e | e
        · exact hc e.symm
        · exact absurd e (List.not_mem_nil sep)
      · rw [hsp] at hp ih
        simp only [List.headD_cons, List.tail_cons] at hp
        rcases List.mem_cons.mp hp with rfl | hp
        · intro hm
          rcases List.mem_cons.mp hm with e | e
          · exact hc e.symm
          · exact ih first (List.mem_cons_self first others) e
        · exact ih piece (List.mem_cons_of_mem first hp)

theorem Js.mem_of_mem_trim (s : List Char) (c : Char) (h : c ∈ Js.trim s) : c ∈ s := by
  unfold Js.trim Js.trimEnd Js.trimStart at h
  have h1 := List.mem_reverse.mp h
  have h2 := (List.dropWhile_sublist Js.isWhiteSpace).subset h1
  have h3 := List.mem_reverse.mp h2
  exact (List.dropWhile_sublist Js.isWhiteSpace).subset h3

theorem Js.parseInt_nonneg (s : List Char) (hs : '-' ∉ s) (v : Int)
    (h : Js.parseInt s = some v) : 0 ≤ v := by
  unfold Js.parseInt at h
  split at h
  · rename_i r heq
    exfalso
    apply hs
    have : '-' ∈ Js.trimStart s := by rw [heq]; exact List.mem_cons_self _ _
    exact (List.dropWhile_sublist Js.isWhiteSpace).subset this
  · split_ifs at h
    rw [← Option.some.inj h]
    exact Int.ofNat_nonneg _
  · split_ifs at h
    rw [← Option.some.inj h]
    exact Int.ofNat_nonneg _

theorem getD_map_some {α β : Type} (f : α → Option β) (l : List α) (i : Nat) (b : β)
    (h : (l.map f).getD i none = some b) : ∃ a ∈ l, f a = some b := by
  rw [List.getD_eq_getElem?_getD, List.getElem?_map] at h
  rcases hget : l[i]? with _ | a
  · rw [hget] at h
    simp at h
  · rw [hget] at h
    exact ⟨a, List.getElem?_mem hget, by simpa using h⟩

theorem rangeBounds_nonneg (range : List Char) :
    (∀ a, (PDFRemover.rangeBounds range).1 = some a → 0 ≤ a) ∧
      (∀ b, (PDFRemover.rangeBounds range).2 = some b → 0 ≤ b) := by
  have key : ∀ (i : Nat) (v : Int),
      ((Js.split '-' range).map (fun num => Js.parseInt (Js.trim num))).getD i none = some v →
        0 ≤ v := by
    intro i v h
    obtain ⟨piece, hp, hv⟩ := getD_map_some _ _ i v h
    have hno : '-' ∉ Js.trim piece :=
      fun hm => Js.not_mem_of_mem_split '-' range piece hp (Js.mem_of_mem_trim piece '-' hm)
    exact Js.parseInt_nonneg _ hno v hv
  exact ⟨fun a ha => key 0 a ha, fun b hb => key 1 b hb⟩

theorem tokenPages_bounds (range : List Char) (p : Int) (hp : p ∈ tokenPages range) :
    0 ≤ p ∧ ∃ v ∈ tokenNumbers range, p ≤ v := by
  unfold tokenPages at hp
  unfold tokenNumbers
  split_ifs at hp ⊢ with hinc
  · rcases hb : PDFRemover.rangeBounds range with ⟨_ | a, _ | b⟩
    · rw [hb] at hp; simp at hp
    · rw [hb] at hp; simp at hp
    · rw [hb] at hp; simp at hp
    · rw [hb] at hp
      simp only [Js.mem_forRange] at hp
      have ha := (rangeBounds_nonneg range).1 a (by rw [hb])
      have hb2 := (rangeBounds_nonneg range).2 b (by rw [hb])
      refine ⟨by omega, ?_⟩
      rcases le_total a b with hab | hab
      · exact ⟨b, by simp, by omega⟩
      · exact ⟨a, by simp, by omega⟩
  · rcases hpi : Js.parseInt range with _ | page
    · rw [hpi] at hp; simp at hp
    · rw [hpi] at hp
      simp only [List.mem_singleton] at hp
      have hno : '-' ∉ range := by simpa [Js.includes] using hinc
      refine ⟨hp ▸ Js.parseInt_nonneg range hno page hpi, page, by simp, le_of_eq hp⟩

theorem applyPageSelection_no_error (s : PDFRemover.State)
    (h : (PDFRemover.applyPageSelection s).validationError = none) :
    (PDFRemover.validate s.pagesToRemove (numOf s.numPages)).1 = false := by
  unfold PDFRemover.applyPageSelection at h
  simp only [] at h
  split_ifs at h with hflag
  simpa using hflag

/-- C9 as stated fails: for the text `"0"` on a 10-page document `applyPageSelection` reports
no validation error, yet the page number 0 written in the text is not within `[1, 10]`. -/
theorem page_zero_passes_validation :
    ¬ ((PDFRemover.applyPageSelection
          { numPages := some 10, pagesToRemove := "0".toList }).validationError = none →
        ∀ p ∈ writtenPages "0".toList, 1 ≤ p ∧ p ≤ ((10 : Nat) : Int)) := by
  intro h
  have h0 := h (by decide) 0 (by decide)
  omega

/-- C9 (amended): if `applyPageSelection` reports no validation error for a text on an
`n`-page document, every page number written in the text (each single page, every page of
each range) lies within `[0, n]`: no page above `n` is dropped silently (page 0 is). -/
theorem accepted_text_pages_at_most_total (s : PDFRemover.State) (n : Nat)
    (hn : s.numPages = some n)
    (hok : (PDFRemover.applyPageSelection s).validationError = none) :
    ∀ p ∈ writtenPages s.pagesToRemove, 0 ≤ p ∧ p ≤ (n : Int) := by
  intro p hp
  have hflag := applyPageSelection_no_error s hok
  rw [hn] at hflag
  have hnone : ¬ ∃ v ∈ numbersOf s.pagesToRemove, (n : Int) < v := by
    intro hex
    have := (validate_flag s.pagesToRemove n).mpr hex
    simp only [numOf] at hflag
    rw [hflag] at this
    exact Bool.noConfusion this
  obtain ⟨t, ht, hpt⟩ := List.mem_flatMap.mp hp
  obtain ⟨h0, v, hv, hpv⟩ := tokenPages_bounds t p hpt
  refine ⟨h0, ?_⟩
  by_contra hgt
  exact hnone ⟨v, List.mem_flatMap.mpr ⟨t, ht, hv⟩, by omega⟩

theorem accepted_text_pages_at_most_total_witness :
    (removerWith []).numPages = some 5 ∧
      (PDFRemover.applyPageSelection
          { removerWith [] with pagesToRemove := "0-2, 4".toList }).validationError = none ∧
      ∀ p ∈ writtenPages "0-2, 4".toList, 0 ≤ p ∧ p ≤ ((5 : Nat) : Int) :=
  ⟨rfl, by decide,
    accepted_text_pages_at_most_total
      { removerWith [] with pagesToRemove := "0-2, 4".toList } 5 rfl (by decide)⟩

/-! ### Pointer-up and the minimum selection size -/

theorem handleMouseUp_drawing (s : PDFEditor.State) (r : Rect) (hd : Drawing s r) :
    PDFEditor.handleMouseUp s =
      if r.width > 10 ∧ r.height > 10 then
        { s with isDragging := false, activeHandle := none, selectionLocked := true }
      else { s with isDragging := false, activeHandle := none } := by
  obtain ⟨hc, _, _, _, hcd⟩ := hd
  unfold PDFEditor.handleMouseUp PDFEditor.validSize
  simp only [hc, hcd, Bool.not_true, Bool.false_eq_true, if_false, Bool.and_eq_true,
    decide_eq_true_eq]

/-- C12: in every Drawing state (a new selection being dragged, not locked) `handleMouseUp`
sets `selectionLocked = true` if and only if the rectangle has `width > 10` and
`height > 10`; a rectangle with `width ≤ 10` or `height ≤ 10` is not locked by pointer-up.
The state `handleMouseDown` enters when it starts a new selection is such a Drawing state. -/
theorem handleMouseUp_locks_iff (s : PDFEditor.State) (r : Rect) (hd : Drawing s r) :
    ((PDFEditor.handleMouseUp s).selectionLocked = true ↔ r.width > 10 ∧ r.height > 10) ∧
      ((r.width ≤ 10 ∨ r.height ≤ 10) → (PDFEditor.handleMouseUp s).selectionLocked = false) ∧
      ∀ x y : ℚ, Drawing (PDFEditor.startSelection s x y)
        { x := x, y := y, width := 0, height := 0 } := by
  have hlocked : s.selectionLocked = false := hd.2.2.2.1
  rw [handleMouseUp_drawing s r hd]
  refine ⟨?_, ?_, ?_⟩
  · split_ifs with h
    · exact ⟨fun _ => h, fun _ => rfl⟩
    · constructor
      · intro hl
        rw [hlocked] at hl
        exact Bool.noConfusion hl
      · intro h2
        exact absurd h2 h
  · intro hsmall
    have hnot : ¬ (r.width > 10 ∧ r.height > 10) := by
      rintro ⟨h1, h2⟩
      rcases hsmall with h | h
      · exact absurd h1 (not_lt.mpr h)
      · exact absurd h2 (not_lt.mpr h)
    rw [if_neg hnot]
    exact hlocked
  · intro x y
    exact ⟨hd.1, rfl, rfl, rfl, rfl⟩

theorem sampleLargeDrawing_drawing :
    Drawing sampleLargeDrawing { x := 5, y := 5, width := 200, height := 150 } :=
  ⟨rfl, rfl, rfl, rfl, rfl⟩

theorem sampleSmallDrawing_drawing :
    Drawing sampleSmallDrawing { x := 5, y := 5, width := 3, height := 3 } :=
  ⟨rfl, rfl, rfl, rfl, rfl⟩

theorem handleMouseUp_locks_iff_witness :
    Drawing sampleLargeDrawing { x := 5, y := 5, width := 200, height := 150 } ∧
      ((PDFEditor.handleMouseUp sampleLargeDrawing).selectionLocked = true ↔
        (200 : ℚ) > 10 ∧ (150 : ℚ) > 10) :=
  ⟨sampleLargeDrawing_drawing,
    (handleMouseUp_locks_iff sampleLargeDrawing { x := 5, y := 5, width := 200, height := 150 }
      sampleLargeDrawing_drawing).1⟩

/-- C18 as stated fails: pointer-up on a Drawing state with a 3 × 3 rectangle leaves the
rectangle stored (`cropDimensions` is not cleared). -/
theorem small_rectangle_not_discarded :
    ¬ (Drawing sampleSmallDrawing { x := 5, y := 5, width := 3, height := 3 } →
        ((3 : ℚ) ≤ 10 ∨ (3 : ℚ) ≤ 10) →
        (PDFEditor.handleMouseUp sampleSmallDrawing).cropDimensions = none ∧
          (PDFEditor.handleMouseUp sampleSmallDrawing).selectionLocked = false) := by
  intro h
  have h1 := (h sampleSmallDrawing_drawing (Or.inl (by norm_num))).1
  rw [handleMouseUp_drawing sampleSmallDrawing _ sampleSmallDrawing_drawing] at h1
  split_ifs at h1 <;> simp [sampleSmallDrawing] at h1

/-- C18 (amended): when pointer-up ends a Drawing whose rectangle has `width ≤ 10` or
`height ≤ 10`, the selection is not locked and the drag is over (`isDragging = false`,
`activeHandle = null`); the stored rectangle is left as it was. -/
theorem small_rectangle_stays_unlocked (s : PDFEditor.State) (r : Rect) (hd : Drawing s r)
    (hsmall : r.width ≤ 10 ∨ r.height ≤ 10) :
    (PDFEditor.handleMouseUp s).selectionLocked = false ∧
      (PDFEditor.handleMouseUp s).isDragging = false ∧
      (PDFEditor.handleMouseUp s).activeHandle = none ∧
      (PDFEditor.handleMouseUp s).cropDimensions = some r := by
  have hnot : ¬ (r.width > 10 ∧ r.height > 10) := by
    rintro ⟨h1, h2⟩
    rcases hsmall with h | h
    · exact absurd h1 (not_lt.mpr h)
    · exact absurd h2 (not_lt.mpr h)
  rw [handleMouseUp_drawing s r hd, if_neg hnot]
  exact ⟨hd.2.2.2.1, rfl, rfl, hd.2.2.2.2⟩

theorem small_rectangle_stays_unlocked_witness :
    Drawing sampleSmallDrawing { x := 5, y := 5, width := 3, height := 3 } ∧
      ((3 : ℚ) ≤ 10 ∨ (3 : ℚ) ≤ 10) ∧
      (PDFEditor.handleMouseUp sampleSmallDrawing).selectionLocked = false ∧
      (PDFEditor.handleMouseUp sampleSmallDrawing).isDragging = false ∧
      (PDFEditor.handleMouseUp sampleSmallDrawing).activeHandle = none ∧
      (PDFEditor.handleMouseUp sampleSmallDrawing).cropDimensions =
        some { x := 5, y := 5, width := 3, height := 3 } :=
  ⟨sampleSmallDrawing_drawing, Or.inl (by norm_num),
    small_rectangle_stays_unlocked sampleSmallDrawing { x := 5, y := 5, width := 3, height := 3 }
      sampleSmallDrawing_drawing (Or.inl (by norm_num))⟩

/-! ### Pixels to points -/

/-- C13: `pixelsToPoints(p, scale) = p / scale * (72/96)` for every `p` and every
`scale > 0`; it is additive and homogeneous in `p`, inversely proportional to `scale`
(`pixelsToPoints(p, k * scale) = pixelsToPoints(p, scale) / k` for `k > 0`), and
`pixelsToPoints(96, 1) = 72`. -/
theorem pixelsToPoints_linear (p q c scale k : ℚ) (hs : 0 < scale) (hk : 0 < k) :
    PDFEditor.pixelsToPoints p scale = p / scale * (72 / 96) ∧
      PDFEditor.pixelsToPoints (p + q) scale =
        PDFEditor.pixelsToPoints p scale + PDFEditor.pixelsToPoints q scale ∧
      PDFEditor.pixelsToPoints (c * p) scale = c * PDFEditor.pixelsToPoints p scale ∧
      PDFEditor.pixelsToPoints p (k * scale) = PDFEditor.pixelsToPoints p scale / k ∧
      PDFEditor.pixelsToPoints 96 1 = 72 := by
  have hs0 : scale ≠ 0 := ne_of_gt hs
  have hk0 : k ≠ 0 := ne_of_gt hk
  unfold PDFEditor.pixelsToPoints
  refine ⟨rfl, ?_, ?_, ?_, ?_⟩
  · field_simp
    ring
  · field_simp
    ring
  · field_simp
    left
    ring
  · norm_num

theorem pixelsToPoints_linear_witness :
    (0 : ℚ) < 2 ∧ (0 : ℚ) < 3 ∧
      PDFEditor.pixelsToPoints 96 (3 * 2) = PDFEditor.pixelsToPoints 96 2 / 3 :=
  ⟨by norm_num, by norm_num,
    (pixelsToPoints_linear 96 48 5 2 3 (by norm_num) (by norm_num)).2.2.2.1⟩

/-! ### The vertical flip -/

/-- C15: the vertical axis is flipped: `cropY = naturalHeight - (y + height) * yRatio`, the
top edge `cropY + cropHeight` of the crop box is `naturalHeight - y * yRatio`; a selection
touching the top of the displayed page (`y = 0`) has its top edge at `naturalHeight`, and one
touching the bottom (`y + height = displayHeight`) has `cropY = 0`. -/
theorem cropBox_vertical_flip (naturalWidth naturalHeight displayWidth displayHeight : ℚ)
    (sel : Rect) (hdh : 0 < displayHeight) :
    (PDFEditor.cropBox naturalWidth naturalHeight
          { width := displayWidth, height := displayHeight } sel).y =
        naturalHeight - (sel.y + sel.height) *
          PDFEditor.yRatio naturalHeight { width := displayWidth, height := displayHeight } ∧
      (PDFEditor.cropBox naturalWidth naturalHeight
            { width := displayWidth, height := displayHeight } sel).y +
          (PDFEditor.cropBox naturalWidth naturalHeight
            { width := displayWidth, height := displayHeight } sel).height =
        naturalHeight - sel.y *
          PDFEditor.yRatio naturalHeight { width := displayWidth, height := displayHeight } ∧
      (sel.y = 0 →
        (PDFEditor.cropBox naturalWidth naturalHeight
            { width := displayWidth, height := displayHeight } sel).y +
          (PDFEditor.cropBox naturalWidth naturalHeight
            { width := displayWidth, height := displayHeight } sel).height = naturalHeight) ∧
      (sel.y + sel.height = displayHeight →
        (PDFEditor.cropBox naturalWidth naturalHeight
            { width := displayWidth, height := displayHeight } sel).y = 0) := by
  have hne : displayHeight ≠ 0 := ne_of_gt hdh
  simp only [PDFEditor.cropBox, PDFEditor.yRatio]
  refine ⟨trivial, by ring, ?_, ?_⟩
  · intro h0
    rw [h0]
    ring
  · intro hb
    rw [hb]
    field_simp

theorem cropBox_vertical_flip_witness :
    (0 : ℚ) < 1600 ∧
      ((0 : ℚ) + 400 = 400 ∧ (1200 : ℚ) + 400 = 1600) ∧
      (PDFEditor.cropBox 600 800 { width := 1200, height := 1600 }
          { x := 200, y := 1200, width := 400, height := 400 }).y = 0 :=
  ⟨by norm_num, ⟨by norm_num, by norm_num⟩,
    (cropBox_vertical_flip 600 800 1200 1600
      { x := 200, y := 1200, width := 400, height := 400 } (by norm_num)).2.2.2
      (by norm_num)⟩

/-! ### Leaving crop mode -/

/-- C20 as stated fails: `toggleCropping` invoked while crop mode is active, with a locked
rectangle stored, turns crop mode off but clears neither the rectangle nor the lock. -/
theorem toggleCropping_keeps_selection :
    ¬ (sampleLocked.isCropping = true →
        (PDFEditor.toggleCropping sampleLocked).isCropping = false ∧
          (PDFEditor.toggleCropping sampleLocked).cropDimensions = none ∧
          (PDFEditor.toggleCropping sampleLocked).selectionLocked = false) := by
  intro h
  have h1 := (h rfl).2.2
  simp [PDFEditor.toggleCropping, sampleLocked] at h1

/-- C20 (amended): after `cancelCrop` from any state `isCropping` is false, the rectangle
(`cropDimensions`) is null and `selectionLocked` is false; `toggleCropping` invoked while crop
mode is active sets `isCropping` to false and leaves the rectangle and the lock as they
were (it clears them when it enters crop mode). -/
theorem leaving_crop_mode (s : PDFEditor.State) :
    ((PDFEditor.cancelCrop s).isCropping = false ∧
        (PDFEditor.cancelCrop s).cropDimensions = none ∧
        (PDFEditor.cancelCrop s).selectionLocked = false) ∧
      (s.isCropping = true →
        (PDFEditor.toggleCropping s).isCropping = false ∧
          (PDFEditor.toggleCropping s).cropDimensions = s.cropDimensions ∧
          (PDFEditor.toggleCropping s).selectionLocked = s.selectionLocked) ∧
      (s.isCropping = false →
        (PDFEditor.toggleCropping s).isCropping = true ∧
          (PDFEditor.toggleCropping s).cropDimensions = none ∧
          (PDFEditor.toggleCropping s).selectionLocked = false) := by
  refine ⟨⟨rfl, rfl, rfl⟩, ?_, ?_⟩
  · intro h
    simp [PDFEditor.toggleCropping, h]
  · intro h
    simp [PDFEditor.toggleCropping, h]

theorem leaving_crop_mode_witness :
    sampleLocked.isCropping = true ∧
      (PDFEditor.toggleCropping sampleLocked).isCropping = false ∧
      (PDFEditor.toggleCropping sampleLocked).cropDimensions = sampleLocked.cropDimensions ∧
      (PDFEditor.toggleCropping sampleLocked).selectionLocked = sampleLocked.selectionLocked :=
  ⟨rfl, (leaving_crop_mode sampleLocked).2.1 rfl⟩

/-! ### applyCrop -/

theorem copyPages_eq_getPage (lib : PdfLib) (pdfDoc : List PdfPage) (index : Int)
    (p : PdfPage) (h : lib.copyPages pdfDoc index = some p) :
    PDFEditor.getPage pdfDoc index = some p := by
  unfold PdfLib.copyPages at h
  unfold PDFEditor.getPage
  split_ifs at h ⊢ with hneg
  split at h
  · rename_i q hq
    split_ifs at h
    rw [hq, ← Option.some.inj h]
  · exact absurd h (by simp)

theorem cropPage_spec (lib : PdfLib) (pdfDoc : List PdfPage) (pageSize : Size) (cd : Rect)
    (pageIndex : Int) (page : PdfPage)
    (h : PDFEditor.cropPage lib pdfDoc pageSize cd pageIndex = some page) :
    ∃ orig, PDFEditor.getPage pdfDoc pageIndex = some orig ∧
      page = { orig with
        mediaBox := some (PDFEditor.cropBox orig.width orig.height pageSize cd),
        cropBox := some (PDFEditor.cropBox orig.width orig.height pageSize cd) } := by
  unfold PDFEditor.cropPage at h
  split at h
  · exact absurd h (by simp)
  · rename_i copied hcopied
    have hget := copyPages_eq_getPage lib pdfDoc pageIndex copied hcopied
    rw [hget] at h
    simp only [Option.some.injEq] at h
    exact ⟨copied, hget, h.symm⟩

theorem cropPages_spec (lib : PdfLib) (pdfDoc : List PdfPage) (pageSize : Size) (cd : Rect)
    (indices : List Int) :
    ∀ pages, PDFEditor.cropPages lib pdfDoc pageSize cd indices = some pages →
      List.Forall₂
        (fun pageIndex page =>
          ∃ orig, PDFEditor.getPage pdfDoc pageIndex = some orig ∧
            page = { orig with
              mediaBox := some (PDFEditor.cropBox orig.width orig.height pageSize cd),
              cropBox := some (PDFEditor.cropBox orig.width orig.height pageSize cd) })
        indices pages := by
  induction indices with
  | nil =>
    intro pages h
    simp only [PDFEditor.cropPages, Option.some.injEq] at h
    subst h
    exact List.Forall₂.nil
  | cons i rest ih =>
    intro pages h
    unfold PDFEditor.cropPages at h
    split at h
    · exact absurd h (by simp)
    · rename_i page hpage
      split at h
      · exact absurd h (by simp)
      · rename_i tail htail
        simp only [Option.some.injEq] at h
        subst h
        exact List.Forall₂.cons (cropPage_spec lib pdfDoc pageSize cd i page hpage)
          (ih tail htail)

theorem cropBuild_started (lib : PdfLib) (s : PDFEditor.State) :
    PDFEditor.cropBuild lib { s with isProcessing := true, croppedPdfLoaded := false } =
      PDFEditor.cropBuild lib s := rfl

theorem applyCropStart_eq (s : PDFEditor.State) (cd : Rect) (file : PdfFile)
    (hcd : s.cropDimensions = some cd) (hfile : s.pdfFile = some file) :
    PDFEditor.applyCropStart s =
      some { s with isProcessing := true, croppedPdfLoaded := false } := by
  simp [PDFEditor.applyCropStart, hcd, hfile]

theorem cropBuild_spec (lib : PdfLib) (s : PDFEditor.State) (cd : Rect) (file : PdfFile)
    (pdfDoc pages : List PdfPage) (size count : Nat)
    (hcd : s.cropDimensions = some cd) (hfile : s.pdfFile = some file)
    (hdoc : file.document = some pdfDoc)
    (h : PDFEditor.cropBuild lib s = some (pages, size, count)) :
    PDFEditor.cropPages lib pdfDoc s.pageSize cd
        (PDFEditor.pagesToCrop s.cropAllPages s.currentPage pdfDoc.length) = some pages ∧
      lib.save pages = some size ∧
      count = (PDFEditor.pagesToCrop s.cropAllPages s.currentPage pdfDoc.length).length := by
  unfold PDFEditor.cropBuild at h
  rw [hcd, hfile] at h
  simp only [hdoc] at h
  split at h
  · exact absurd h (by simp)
  · rename_i built hbuilt
    split at h
    · exact absurd h (by simp)
    · rename_i sz hsz
      simp only [Option.some.injEq, Prod.mk.injEq] at h
      obtain ⟨h1, h2, h3⟩ := h
      subst h1
      exact ⟨hbuilt, h2 ▸ hsz, h3.symm⟩

/-- C16: in crop mode the pages copied into the new document are, in order, all pages
`0..pageCount-1` when `cropAllPages` is set and only page `currentPage-1` otherwise; every
copied page has its media box and its crop box set to the same computed crop box; the page
count stored with the result equals the number of pages copied. -/
theorem applyCrop_pages (lib : PdfLib) (s : PDFEditor.State) (cd : Rect) (file : PdfFile)
    (pdfDoc : List PdfPage) (hcd : s.cropDimensions = some cd)
    (hfile : s.pdfFile = some file) (hdoc : file.document = some pdfDoc) :
    (s.cropAllPages = true →
        PDFEditor.pagesToCrop s.cropAllPages s.currentPage pdfDoc.length =
          (List.range pdfDoc.length).map (fun (i : Nat) => (i : Int))) ∧
      (s.cropAllPages = false →
        PDFEditor.pagesToCrop s.cropAllPages s.currentPage pdfDoc.length =
          [s.currentPage - 1]) ∧
      ∀ (pages : List PdfPage) (size count : Nat),
        PDFEditor.cropBuild lib s = some (pages, size, count) →
        List.Forall₂
            (fun pageIndex page =>
              ∃ orig, PDFEditor.getPage pdfDoc pageIndex = some orig ∧
                page.content = orig.content ∧
                page.mediaBox = some (PDFEditor.cropBox orig.width orig.height s.pageSize cd) ∧
                page.cropBox = some (PDFEditor.cropBox orig.width orig.height s.pageSize cd))
            (PDFEditor.pagesToCrop s.cropAllPages s.currentPage pdfDoc.length) pages ∧
          ∃ r, (PDFEditor.applyCrop lib s).croppedPdfData = some r ∧ r.document = pages ∧
            r.numPages = pages.length := by
  refine ⟨?_, ?_, ?_⟩
  · intro h
    simp [PDFEditor.pagesToCrop, h]
  · intro h
    simp [PDFEditor.pagesToCrop, h]
  · intro pages size count hbuild
    obtain ⟨hpages, _, hcount⟩ := cropBuild_spec lib s cd file pdfDoc pages size count hcd hfile
      hdoc hbuild
    have hspec := cropPages_spec lib pdfDoc s.pageSize cd _ pages hpages
    refine ⟨hspec.imp ?_, ?_⟩
    · rintro i pg ⟨orig, hget, rfl⟩
      exact ⟨orig, hget, rfl, rfl, rfl⟩
    · unfold PDFEditor.applyCrop
      rw [applyCropStart_eq s cd file hcd hfile]
      simp only [PDFEditor.applyCropFinish, cropBuild_started, hbuild]
      exact ⟨_, rfl, rfl, hcount.trans hspec.length_eq⟩

theorem sampleLocked_cropped :
    (PDFEditor.applyCrop plainLib sampleLocked).croppedPdfData.map
        (fun r => (r.numPages, r.document.map (fun p => (p.content, p.mediaBox, p.cropBox)))) =
      some (5,
        [(1, some { x := 70, y := 492, width := 199, height := 200 },
              some { x := 70, y := 492, width := 199, height := 200 }),
          (2, some { x := 70, y := 492, width := 199, height := 200 },
              some { x := 70, y := 492, width := 199, height := 200 }),
          (3, some { x := 70, y := 492, width := 199, height := 200 },
              some { x := 70, y := 492, width := 199, height := 200 }),
          (4, some { x := 70, y := 492, width := 199, height := 200 },
              some { x := 70, y := 492, width := 199, height := 200 }),
          (5, some { x := 70, y := 492, width := 199, height := 200 },
              some { x := 70, y := 492, width := 199, height := 200 })]) := by
  have hbox : PDFEditor.cropBox 612 792 { width := 612, height := 792 }
      { x := 100, y := 100, width := 200, height := 200 } =
      { x := 70, y := 492, width := 199, height := 200 } := by
    norm_num [PDFEditor.cropBox, PDFEditor.xRatio, PDFEditor.yRatio]
  simp [PDFEditor.applyCrop, PDFEditor.applyCropStart, PDFEditor.applyCropFinish,
    PDFEditor.cropBuild, PDFEditor.cropPages, PDFEditor.cropPage, PDFEditor.pagesToCrop,
    PDFEditor.getPage, PdfLib.copyPages, sampleLocked, fivePageFile, fivePages, plainLib,
    List.range, List.range.loop, hbox]

theorem applyCrop_pages_witness :
    sampleLocked.cropDimensions = some { x := 100, y := 100, width := 200, height := 200 } ∧
      sampleLocked.pdfFile = some fivePageFile ∧ fivePageFile.document = some fivePages ∧
      (sampleLocked.cropAllPages = true →
        PDFEditor.pagesToCrop sampleLocked.cropAllPages sampleLocked.currentPage
            fivePages.length =
          (List.range fivePages.length).map (fun (i : Nat) => (i : Int))) ∧
      (PDFEditor.cropBuild plainLib sampleLocked).isSome = true :=
  ⟨rfl, rfl, rfl,
    (applyCrop_pages plainLib sampleLocked { x := 100, y := 100, width := 200, height := 200 }
      fivePageFile fivePages rfl rfl rfl).1,
    by decide⟩

/-- C11 (the code at the failing input): a 600 × 800 pt page shown at `scale = 2` (within the
zoom range) with a locked 100 × 100 selection at `x = 1000`, inside the displayed page of
1200 × 1600 pixels: `applyCrop` gives the page the box `(970, 500, -370, 100)`, whose width is
negative. -/
theorem cropWidth_negative_when_zoomed :
    zoomedLocked.scale = 2 ∧ (1 / 2 : ℚ) ≤ zoomedLocked.scale ∧ zoomedLocked.scale ≤ 2 ∧
      zoomedLocked.selectionLocked = true ∧
      PDFEditor.validSize zoomedLocked.cropDimensions = true ∧
      InBounds (getViewport zoomedPage zoomedLocked.scale).width
        (getViewport zoomedPage zoomedLocked.scale).height
        { x := 1000, y := 200, width := 100, height := 100 } ∧
      (PDFEditor.applyCrop plainLib zoomedLocked).croppedPdfData.map
          (fun r => r.document.map (fun p => (p.mediaBox, p.cropBox))) =
        some [(some { x := 970, y := 500, width := -370, height := 100 },
               some { x := 970, y := 500, width := -370, height := 100 })] ∧
      (PDFEditor.cropBox 600 800 zoomedLocked.pageSize
          { x := 1000, y := 200, width := 100, height := 100 }).width < 0 := by
  have hbox : PDFEditor.cropBox 600 800 { width := 600, height := 800 }
      { x := 1000, y := 200, width := 100, height := 100 } =
      { x := 970, y := 500, width := -370, height := 100 } := by
    norm_num [PDFEditor.cropBox, PDFEditor.xRatio, PDFEditor.yRatio]
  refine ⟨rfl, ?_, ?_, rfl, ?_, ?_, ?_, ?_⟩
  · norm_num [zoomedLocked, PDFEditor.onPageLoadSuccess]
  · norm_num [zoomedLocked, PDFEditor.onPageLoadSuccess]
  · norm_num [zoomedLocked, PDFEditor.onPageLoadSuccess, PDFEditor.validSize]
  · norm_num [zoomedLocked, PDFEditor.onPageLoadSuccess, getViewport, zoomedPage, InBounds]
  · simp [PDFEditor.applyCrop, PDFEditor.applyCropStart, PDFEditor.applyCropFinish,
      PDFEditor.cropBuild, PDFEditor.cropPages, PDFEditor.cropPage, PDFEditor.pagesToCrop,
      PDFEditor.getPage, PdfLib.copyPages, zoomedLocked, PDFEditor.onPageLoadSuccess,
      getViewport, zoomedPage, plainLib, List.range, List.range.loop, hbox]
  · have hsize : zoomedLocked.pageSize = { width := 600, height := 800 } := by
      norm_num [zoomedLocked, PDFEditor.onPageLoadSuccess, getViewport, zoomedPage]
    rw [hsize, hbox]
    norm_num

/-! ### Failed rebuilds -/

theorem rebuild_none_of_fails (lib : PdfLib) (s : PDFRemover.State) (h : RemoveFails lib s) :
    PDFRemover.rebuild lib s = none := by
  obtain ⟨file, hfile, hcase⟩ := h
  unfold PDFRemover.rebuild
  rw [hfile]
  rcases hcase with hload | ⟨pdfDoc, hdoc, hcopy | ⟨pages, hcopy, hsave⟩⟩
  · simp [hload]
  · simp [hdoc, hcopy]
  · simp [hdoc, hcopy, hsave]

theorem cropBuild_none_of_fails (lib : PdfLib) (s : PDFEditor.State) (h : CropFails lib s) :
    PDFEditor.cropBuild lib s = none := by
  obtain ⟨file, cd, hfile, hcd, hcase⟩ := h
  unfold PDFEditor.cropBuild
  rw [hfile, hcd]
  rcases hcase with hload | ⟨pdfDoc, hdoc, hcopy | ⟨pages, hcopy, hsave⟩⟩
  · simp [hload]
  · simp [hdoc, hcopy]
  · simp [hdoc, hcopy, hsave]

/-- C17: if loading the source document, copying a page or saving fails during `removePages`
or `applyCrop`, no partial output is exposed: the stored result (`processedFile`,
respectively `croppedPdfData`) is unchanged, no preview of a new result is switched on, and
the processing flag is false when the operation ends. -/
theorem failed_rebuild_exposes_nothing (lib : PdfLib) (s : PDFRemover.State)
    (t : PDFEditor.State) :
    (removeGuard s.pdfFile s.selectedPages s.numPages = false → RemoveFails lib s →
        (PDFRemover.removePages lib s).processedFile = s.processedFile ∧
          (PDFRemover.removePages lib s).showProcessedPreview = s.showProcessedPreview ∧
          (PDFRemover.removePages lib s).isProcessing = false ∧
          (PDFRemover.removePages lib s).alerts = s.alerts ++ [removeErrorAlert]) ∧
      (CropFails lib t →
        (PDFEditor.applyCrop lib t).croppedPdfData = t.croppedPdfData ∧
          (PDFEditor.applyCrop lib t).showCroppedPreview = t.showCroppedPreview ∧
          (PDFEditor.applyCrop lib t).cropApplied = t.cropApplied ∧
          (PDFEditor.applyCrop lib t).isProcessing = false ∧
          (PDFEditor.applyCrop lib t).alerts = t.alerts ++ [PDFEditor.cropErrorAlert]) := by
  constructor
  · intro hguard hfail
    have hre : PDFRemover.rebuild lib { s with isProcessing := true } = none :=
      rebuild_none_of_fails lib _ hfail
    simp [PDFRemover.removePages, PDFRemover.removePagesStart, hguard,
      PDFRemover.removePagesFinish, hre]
  · intro hfail
    have hre := cropBuild_none_of_fails lib t hfail
    obtain ⟨file, cd, hfile, hcd, _⟩ := hfail
    unfold PDFEditor.applyCrop
    rw [applyCropStart_eq t cd file hcd hfile]
    simp [PDFEditor.applyCropFinish, cropBuild_started, hre]

theorem failed_rebuild_exposes_nothing_witness :
    (removeGuard (some brokenFile) [2, 4] (some 5) = false ∧
      RemoveFails plainLib { removerWith [2, 4] with pdfFile := some brokenFile } ∧
      (PDFRemover.removePages plainLib
          { removerWith [2, 4] with pdfFile := some brokenFile }).isProcessing = false) ∧
    (CropFails plainLib { sampleLocked with pdfFile := some brokenFile } ∧
      (PDFEditor.applyCrop plainLib
          { sampleLocked with pdfFile := some brokenFile }).isProcessing = false) :=
  ⟨⟨by decide, ⟨brokenFile, rfl, Or.inl rfl⟩,
      ((failed_rebuild_exposes_nothing plainLib
        { removerWith [2, 4] with pdfFile := some brokenFile } sampleLocked).1 (by decide)
        ⟨brokenFile, rfl, Or.inl rfl⟩).2.2.1⟩,
    ⟨⟨brokenFile, _, rfl, rfl, Or.inl rfl⟩,
      ((failed_rebuild_exposes_nothing plainLib (removerWith [])
        { sampleLocked with pdfFile := some brokenFile }).2
        ⟨brokenFile, _, rfl, rfl, Or.inl rfl⟩).2.2.2.1⟩⟩

/-! ### After a successful crop -/

theorem applyCrop_selection (lib : PdfLib) (s : PDFEditor.State) :
    (PDFEditor.applyCrop lib s).cropDimensions = s.cropDimensions ∧
      (PDFEditor.applyCrop lib s).selectionLocked = s.selectionLocked ∧
      (PDFEditor.applyCrop lib s).isCropping = s.isCropping := by
  unfold PDFEditor.applyCrop PDFEditor.applyCropStart
  split_ifs
  · exact ⟨rfl, rfl, rfl⟩
  · simp only [PDFEditor.applyCropFinish]
    split <;> exact ⟨rfl, rfl, rfl⟩

/-- C19 as stated fails: `applyCrop` completes without error on the sample locked selection,
and afterwards the rectangle is still stored and still locked. -/
theorem crop_leaves_selection_locked :
    ¬ ((PDFEditor.cropBuild plainLib sampleLocked).isSome = true →
        (PDFEditor.applyCrop plainLib sampleLocked).cropDimensions = none ∧
          (PDFEditor.applyCrop plainLib sampleLocked).selectionLocked = false) := by
  intro h
  have h1 := (h (by decide)).2
  rw [(applyCrop_selection plainLib sampleLocked).2.1] at h1
  exact Bool.noConfusion h1

/-- C19 (amended): after `applyCrop` completes without error the result is stored, the crop
is marked applied and the cropped preview is shown, the processing flag is false; the
selection rectangle, the lock and crop mode are left as they were. -/
theorem successful_crop_state (lib : PdfLib) (s : PDFEditor.State)
    (pages : List PdfPage) (size count : Nat)
    (h : PDFEditor.cropBuild lib s = some (pages, size, count)) :
    (PDFEditor.applyCrop lib s).cropDimensions = s.cropDimensions ∧
      (PDFEditor.applyCrop lib s).selectionLocked = s.selectionLocked ∧
      (PDFEditor.applyCrop lib s).isCropping = s.isCropping ∧
      (PDFEditor.applyCrop lib s).cropApplied = true ∧
      (PDFEditor.applyCrop lib s).showCroppedPreview = true ∧
      (PDFEditor.applyCrop lib s).isProcessing = false ∧
      (PDFEditor.applyCrop lib s).croppedPdfData.map (fun r => r.document) = some pages := by
  obtain ⟨h1, h2, h3⟩ := applyCrop_selection lib s
  refine ⟨h1, h2, h3, ?_⟩
  have hstart : PDFEditor.applyCropStart s =
      some { s with isProcessing := true, croppedPdfLoaded := false } := by
    unfold PDFEditor.cropBuild at h
    split at h
    · rename_i cd file hcd hfile
      exact applyCropStart_eq s cd file hcd hfile
    · exact absurd h (by simp)
  unfold PDFEditor.applyCrop
  rw [hstart]
  simp [PDFEditor.applyCropFinish, cropBuild_started, h]

theorem sampleLocked_build :
    PDFEditor.cropBuild plainLib sampleLocked = some (croppedFive, 5, 5) := by
  have hbox : PDFEditor.cropBox 612 792 { width := 612, height := 792 }
      { x := 100, y := 100, width := 200, height := 200 } =
      { x := 70, y := 492, width := 199, height := 200 } := by
    norm_num [PDFEditor.cropBox, PDFEditor.xRatio, PDFEditor.yRatio]
  simp [PDFEditor.cropBuild, PDFEditor.cropPages, PDFEditor.cropPage, PDFEditor.pagesToCrop,
    PDFEditor.getPage, PdfLib.copyPages, sampleLocked, fivePageFile, fivePages, plainLib,
    croppedFive, List.range, List.range.loop, hbox]

theorem successful_crop_state_witness :
    PDFEditor.cropBuild plainLib sampleLocked = some (croppedFive, 5, 5) ∧
      (PDFEditor.applyCrop plainLib sampleLocked).cropDimensions = sampleLocked.cropDimensions ∧
      (PDFEditor.applyCrop plainLib sampleLocked).selectionLocked =
        sampleLocked.selectionLocked ∧
      (PDFEditor.applyCrop plainLib sampleLocked).isCropping = sampleLocked.isCropping ∧
      (PDFEditor.applyCrop plainLib sampleLocked).cropApplied = true ∧
      (PDFEditor.applyCrop plainLib sampleLocked).showCroppedPreview = true ∧
      (PDFEditor.applyCrop plainLib sampleLocked).isProcessing = false ∧
      (PDFEditor.applyCrop plainLib sampleLocked).croppedPdfData.map (fun r => r.document) =
        some croppedFive :=
  ⟨sampleLocked_build,
    successful_crop_state plainLib sampleLocked croppedFive 5 5 sampleLocked_build⟩

/-! ### Tokens passed over by parsePageRanges -/

theorem tokensOf_joinTokens (toks : List (List Char)) (h : ∀ t ∈ toks, ',' ∉ t) (p : Int) :
    (∃ t ∈ tokensOf (joinTokens toks), p ∈ tokenPages t) ↔
      ∃ t ∈ toks, p ∈ tokenPages (Js.trim t) := by
  cases toks with
  | nil =>
    have h0 : tokensOf (joinTokens []) = [[]] := rfl
    rw [h0]
    simp [tokenPages_nil]
  | cons t ts =>
    unfold tokensOf joinTokens
    rw [Js.split_intercalate ',' t ts h]
    constructor
    · rintro ⟨u, hu, hp⟩
      obtain ⟨v, hv, rfl⟩ := List.mem_map.mp hu
      exact ⟨v, hv, hp⟩
    · rintro ⟨v, hv, hp⟩
      exact ⟨Js.trim v, List.mem_map_of_mem _ hv, hp⟩

theorem ignored_no_page (n : Int) (tok : List Char) (h : ignored n tok = true) (p : Int)
    (hp : p ∈ tokenPages (Js.trim tok)) : ¬ (1 ≤ p ∧ p ≤ n) := by
  unfold ignored at h
  unfold tokenPages at hp
  split_ifs at h hp with hinc
  · rcases hb : PDFRemover.rangeBounds (Js.trim tok) with ⟨_ | a, _ | b⟩
    · rw [hb] at hp; simp at hp
    · rw [hb] at hp; simp at hp
    · rw [hb] at hp; simp at hp
    · rw [hb] at h hp
      simp only [Js.mem_forRange] at hp
      simp only [Bool.or_eq_true, decide_eq_true_eq] at h
      omega
  · rcases hpi : Js.parseInt (Js.trim tok) with _ | k
    · rw [hpi] at hp; simp at hp
    · rw [hpi] at h hp
      simp only [List.mem_singleton] at hp
      simp only [Bool.or_eq_true, decide_eq_true_eq] at h
      omega

theorem eq_of_wellFormed_of_mem (n : Int) (l₁ l₂ : List Int) (h₁ : WellFormed n l₁)
    (h₂ : WellFormed n l₂) (h : ∀ p, p ∈ l₁ ↔ p ∈ l₂) : l₁ = l₂ :=
  List.eq_of_perm_of_sorted
    ((List.perm_ext_iff_of_nodup h₁.1.nodup h₂.1.nodup).mpr h) h₁.1 h₂.1

theorem parsePageRanges_drop_token (n : Int) (pre post : List (List Char)) (tok : List Char)
    (hcomma : ∀ t ∈ pre ++ tok :: post, ',' ∉ t) (hign : ignored n tok = true) :
    PDFRemover.parsePageRanges (joinTokens (pre ++ tok :: post)) n =
      PDFRemover.parsePageRanges (joinTokens (pre ++ post)) n := by
  have hcomma2 : ∀ t ∈ pre ++ post, ',' ∉ t := by
    intro t ht
    apply hcomma t
    rcases List.mem_append.mp ht with h | h
    · exact List.mem_append_left _ h
    · exact List.mem_append_right _ (List.mem_cons_of_mem _ h)
  apply eq_of_wellFormed_of_mem n _ _ (parsePageRanges_wellFormed _ n)
    (parsePageRanges_wellFormed _ n)
  intro p
  rw [mem_parsePageRanges, mem_parsePageRanges, tokensOf_joinTokens _ hcomma,
    tokensOf_joinTokens _ hcomma2]
  constructor
  · rintro ⟨⟨t, ht, hp⟩, hr⟩
    refine ⟨?_, hr⟩
    rcases List.mem_append.mp ht with h | h
    · exact ⟨t, List.mem_append_left _ h, hp⟩
    · rcases List.mem_cons.mp h with rfl | h
      · exact absurd hr (ignored_no_page n t hign p hp)
      · exact ⟨t, List.mem_append_right _ h, hp⟩
  · rintro ⟨⟨t, ht, hp⟩, hr⟩
    refine ⟨?_, hr⟩
    rcases List.mem_append.mp ht with h | h
    · exact ⟨t, List.mem_append_left _ h, hp⟩
    · exact ⟨t, List.mem_append_right _ (List.mem_cons_of_mem _ h), hp⟩

/-- C14 as stated fails: the token `3abc` is not a decimal integer and not two decimal
integers joined by `-`, yet `parsePageRanges("3abc", 10)` is `[3]`, so that removing the
token changes the result. -/
theorem leading_number_is_parsed :
    ¬ (NonNumeric "3abc".toList →
        PDFRemover.parsePageRanges (joinTokens ([] ++ "3abc".toList :: [])) 10 =
          PDFRemover.parsePageRanges (joinTokens ([] ++ [])) 10) := by
  intro h
  have hnon : NonNumeric "3abc".toList := by
    refine ⟨by decide, ?_⟩
    rintro ⟨a, b, _, _, hab⟩
    have hmem : '-' ∈ "3abc".toList := by
      rw [hab]
      exact List.mem_append_right _ (List.mem_cons_self _ _)
    revert hmem
    decide
  have h2 := h hnon
  revert h2
  decide

/-- C14 (amended): a token in which `parseInt` finds no number (for a token with `-`: in one
of its first two pieces), and a token whose value or whose whole range lies outside
`[1, pageCount]`, contributes no page to `parsePageRanges` and raises no error: removing it
from the text leaves the result unchanged; `parsePageRanges("11", 10)` is empty. -/
theorem ignored_token_is_dropped (pageCount : Int) (pre post : List (List Char))
    (tok : List Char) (hcomma : ∀ t ∈ pre ++ tok :: post, ',' ∉ t)
    (hign : ignored pageCount tok = true) :
    (∀ p ∈ tokenPages (Js.trim tok), ¬ (1 ≤ p ∧ p ≤ pageCount)) ∧
      PDFRemover.parsePageRanges (joinTokens (pre ++ tok :: post)) pageCount =
        PDFRemover.parsePageRanges (joinTokens (pre ++ post)) pageCount ∧
      PDFRemover.parsePageRanges "11".toList 10 = [] :=
  ⟨ignored_no_page pageCount tok hign,
    parsePageRanges_drop_token pageCount pre post tok hcomma hign, by decide⟩

theorem ignored_token_is_dropped_witness :
    (∀ t ∈ ["3".toList] ++ " x7 ".toList :: ["11".toList, "7-9".toList], ',' ∉ t) ∧
      ignored 10 " x7 ".toList = true ∧
      PDFRemover.parsePageRanges
          (joinTokens (["3".toList] ++ " x7 ".toList :: ["11".toList, "7-9".toList])) 10 =
        PDFRemover.parsePageRanges
          (joinTokens (["3".toList] ++ ["11".toList, "7-9".toList])) 10 :=
  ⟨by decide, by decide,
    (ignored_token_is_dropped 10 ["3".toList] ["11".toList, "7-9".toList] " x7 ".toList
      (by decide) (by decide)).2.1⟩

/-! ### Drawing, resizing and moving -/

theorem handleMouseMove_draw_eq (s : PDFEditor.State) (e : MouseEvent) (q : Point)
    (hc : s.isCropping = true) (hd : s.isDragging = true) (hf : s.pdfFile ≠ none)
    (hh : s.activeHandle = none) (hq : s.cropStart = some q) :
    PDFEditor.handleMouseMove s e =
      some { s with cropEnd := some { x := PDFEditor.pointerX e, y := PDFEditor.pointerY e },
                    cropDimensions := some (PDFEditor.drawn q e) } := by
  have hf2 : s.pdfFile.isNone = false := by
    cases hp : s.pdfFile with
    | none => exact absurd hp hf
    | some f => rfl
  unfold PDFEditor.handleMouseMove
  simp only [hc, hd, hf2, hh, hq, Bool.not_true, Bool.or_self, Bool.false_eq_true, if_false]

/-- C21: while a new selection is being drawn, `handleMouseMove` stores the axis-aligned
bounding box of the down-point and of the pointer position clamped to the page container:
`x` and `y` are the minima of the two abscissae and ordinates, `width` and `height` the
absolute differences; the down-point is the clamped pointer position `handleMouseDown`
stored. -/
theorem drawing_is_bounding_box (s : PDFEditor.State) (down e : MouseEvent)
    (hc : s.isCropping = true) (hf : s.pdfFile ≠ none) :
    (PDFEditor.startSelection s (PDFEditor.pointerX down) (PDFEditor.pointerY down)).cropStart =
        some { x := PDFEditor.pointerX down, y := PDFEditor.pointerY down } ∧
      (∃ s', PDFEditor.handleMouseMove
            (PDFEditor.startSelection s (PDFEditor.pointerX down) (PDFEditor.pointerY down)) e =
          some s' ∧
        s'.cropDimensions =
          some { x := min (PDFEditor.pointerX down) (PDFEditor.pointerX e),
                 y := min (PDFEditor.pointerY down) (PDFEditor.pointerY e),
                 width := |PDFEditor.pointerX e - PDFEditor.pointerX down|,
                 height := |PDFEditor.pointerY e - PDFEditor.pointerY down| } ∧
        s'.cropStart = some { x := PDFEditor.pointerX down, y := PDFEditor.pointerY down }) ∧
      PDFEditor.pointerX e = max 0 (min (e.clientX - e.rect.left) e.rect.width) ∧
      PDFEditor.pointerY e = max 0 (min (e.clientY - e.rect.top) e.rect.height) ∧
      min (PDFEditor.pointerX down) (PDFEditor.pointerX e) +
          |PDFEditor.pointerX e - PDFEditor.pointerX down| =
        max (PDFEditor.pointerX down) (PDFEditor.pointerX e) ∧
      min (PDFEditor.pointerY down) (PDFEditor.pointerY e) +
          |PDFEditor.pointerY e - PDFEditor.pointerY down| =
        max (PDFEditor.pointerY down) (PDFEditor.pointerY e) := by
  have hbox : ∀ a b : ℚ, min a b + |b - a| = max a b := by
    intro a b
    rcases le_total a b with hab | hab
    · rw [min_eq_left hab, max_eq_right hab, abs_of_nonneg (by linarith)]
      ring
    · rw [min_eq_right hab, max_eq_left hab, abs_of_nonpos (by linarith)]
      ring
  refine ⟨rfl, ?_, rfl, rfl, hbox _ _, hbox _ _⟩
  exact ⟨_, handleMouseMove_draw_eq
    (PDFEditor.startSelection s (PDFEditor.pointerX down) (PDFEditor.pointerY down)) e
    { x := PDFEditor.pointerX down, y := PDFEditor.pointerY down } hc rfl hf rfl rfl, rfl, rfl⟩

theorem drawing_is_bounding_box_witness :
    sampleLargeDrawing.isCropping = true ∧ sampleLargeDrawing.pdfFile ≠ none ∧
      (PDFEditor.startSelection sampleLargeDrawing (PDFEditor.pointerX sampleEvent)
          (PDFEditor.pointerY sampleEvent)).cropStart =
        some { x := PDFEditor.pointerX sampleEvent, y := PDFEditor.pointerY sampleEvent } :=
  ⟨rfl, by simp [sampleLargeDrawing],
    (drawing_is_bounding_box sampleLargeDrawing sampleEvent crossingEvent rfl
      (by simp [sampleLargeDrawing])).1⟩

theorem constrain_flip_x (rect : DOMRect) (r : Rect) (h0 : 0 ≤ r.x) (h1 : r.x ≤ rect.width)
    (h2 : 0 ≤ r.x + r.width) (h3 : r.x + r.width ≤ rect.width) :
    HasEdgesX (PDFEditor.constrain rect (PDFEditor.flipNegative r)) r.x (r.x + r.width) := by
  unfold HasEdgesX PDFEditor.constrain PDFEditor.flipNegative
  simp only []
  by_cases hw : r.width < 0
  · simp only [hw, if_true]
    rw [abs_of_neg hw, min_eq_left (by linarith), max_eq_right (by linarith),
      min_eq_right (by linarith), max_eq_left (by linarith)]
    exact ⟨rfl, by ring⟩
  · simp only [hw, if_false]
    have hw0 : 0 ≤ r.width := not_lt.mp hw
    rw [min_eq_left (by linarith), max_eq_right h0, min_eq_left (by linarith),
      max_eq_right (by linarith)]
    exact ⟨rfl, rfl⟩

theorem constrain_flip_y (rect : DOMRect) (r : Rect) (h0 : 0 ≤ r.y) (h1 : r.y ≤ rect.height)
    (h2 : 0 ≤ r.y + r.height) (h3 : r.y + r.height ≤ rect.height) :
    HasEdgesY (PDFEditor.constrain rect (PDFEditor.flipNegative r)) r.y (r.y + r.height) := by
  unfold HasEdgesY PDFEditor.constrain PDFEditor.flipNegative
  simp only []
  by_cases hw : r.height < 0
  · simp only [hw, if_true]
    rw [abs_of_neg hw, min_eq_left (by linarith), max_eq_right (by linarith),
      min_eq_right (by linarith), max_eq_left (by linarith)]
    exact ⟨rfl, by ring⟩
  · simp only [hw, if_false]
    have hw0 : 0 ≤ r.height := not_lt.mp hw
    rw [min_eq_left (by linarith), max_eq_right h0, min_eq_left (by linarith),
      max_eq_right (by linarith)]
    exact ⟨rfl, rfl⟩

theorem hasEdgesX_unchanged (r cd : Rect) (hw : 0 ≤ cd.width)
    (h : HasEdgesX r cd.x (cd.x + cd.width)) : r.x = cd.x ∧ r.width = cd.width := by
  obtain ⟨h1, h2⟩ := h
  rw [min_eq_left (by linarith)] at h1
  rw [max_eq_right (by linarith)] at h2
  exact ⟨h1, by linarith⟩

theorem hasEdgesY_unchanged (r cd : Rect) (hw : 0 ≤ cd.height)
    (h : HasEdgesY r cd.y (cd.y + cd.height)) : r.y = cd.y ∧ r.height = cd.height := by
  obtain ⟨h1, h2⟩ := h
  rw [min_eq_left (by linarith)] at h1
  rw [max_eq_right (by linarith)] at h2
  exact ⟨h1, by linarith⟩

theorem adjusted_anchorsHeld (h : Handle) (cd : Rect) (cropStart : Option Point)
    (e : MouseEvent) (hW : 0 ≤ e.rect.width) (hH : 0 ≤ e.rect.height)
    (hcd : InBounds e.rect.width e.rect.height cd) :
    AnchorsHeld h cd (PDFEditor.adjusted h cd cropStart e) (PDFEditor.pointerX e)
      (PDFEditor.pointerY e) := by
  obtain ⟨c1, c2, c3, c4, c5, c6⟩ := hcd
  obtain ⟨hx0, hx1⟩ := pointerX_bounds e hW
  obtain ⟨hy0, hy1⟩ := pointerY_bounds e hH
  have keyX : ∀ r : Rect, 0 ≤ r.x → r.x ≤ e.rect.width → 0 ≤ r.x + r.width →
      r.x + r.width ≤ e.rect.width →
      HasEdgesX (PDFEditor.constrain e.rect (PDFEditor.flipNegative r)) r.x (r.x + r.width) :=
    fun r => constrain_flip_x e.rect r
  have keyY : ∀ r : Rect, 0 ≤ r.y → r.y ≤ e.rect.height → 0 ≤ r.y + r.height →
      r.y + r.height ≤ e.rect.height →
      HasEdgesY (PDFEditor.constrain e.rect (PDFEditor.flipNegative r)) r.y (r.y + r.height) :=
    fun r => constrain_flip_y e.rect r
  cases h
  case topLeft =>
    have hX := keyX (PDFEditor.resizeBy Handle.topLeft cd cropStart (PDFEditor.pointerX e)
      (PDFEditor.pointerY e)) hx0 hx1 (by simp only [PDFEditor.resizeBy]; linarith)
      (by simp only [PDFEditor.resizeBy]; linarith)
    have hY := keyY (PDFEditor.resizeBy Handle.topLeft cd cropStart (PDFEditor.pointerX e)
      (PDFEditor.pointerY e)) hy0 hy1 (by simp only [PDFEditor.resizeBy]; linarith)
      (by simp only [PDFEditor.resizeBy]; linarith)
    simp only [PDFEditor.resizeBy] at hX hY
    rw [show PDFEditor.pointerX e + (cd.width + (cd.x - PDFEditor.pointerX e)) =
      cd.x + cd.width by ring] at hX
    rw [show PDFEditor.pointerY e + (cd.height + (cd.y - PDFEditor.pointerY e)) =
      cd.y + cd.height by ring] at hY
    exact ⟨hX, hY⟩
  case topRight =>
    have hX := keyX (PDFEditor.resizeBy Handle.topRight cd cropStart (PDFEditor.pointerX e)
      (PDFEditor.pointerY e)) c1 (by simp only [PDFEditor.resizeBy]; linarith)
      (by simp only [PDFEditor.resizeBy]; linarith)
      (by simp only [PDFEditor.resizeBy]; linarith)
    have hY := keyY (PDFEditor.resizeBy Handle.topRight cd cropStart (PDFEditor.pointerX e)
      (PDFEditor.pointerY e)) hy0 hy1 (by simp only [PDFEditor.resizeBy]; linarith)
      (by simp only [PDFEditor.resizeBy]; linarith)
    simp only [PDFEditor.resizeBy] at hX hY
    rw [show cd.x + (PDFEditor.pointerX e - cd.x) = PDFEditor.pointerX e by ring] at hX
    rw [show PDFEditor.pointerY e + (cd.height + (cd.y - PDFEditor.pointerY e)) =
      cd.y + cd.height by ring] at hY
    exact ⟨hX, hY⟩
  case bottomLeft =>
    have hX := keyX (PDFEditor.resizeBy Handle.bottomLeft cd cropStart (PDFEditor.pointerX e)
      (PDFEditor.pointerY e)) hx0 hx1 (by simp only [PDFEditor.resizeBy]; linarith)
      (by simp only [PDFEditor.resizeBy]; linarith)
    have hY := keyY (PDFEditor.resizeBy Handle.bottomLeft cd cropStart (PDFEditor.pointerX e)
      (PDFEditor.pointerY e)) c2 (by simp only [PDFEditor.resizeBy]; linarith)
      (by simp only [PDFEditor.resizeBy]; linarith)
      (by simp only [PDFEditor.resizeBy]; linarith)
    simp only [PDFEditor.resizeBy] at hX hY
    rw [show PDFEditor.pointerX e + (cd.width + (cd.x - PDFEditor.pointerX e)) =
      cd.x + cd.width by ring] at hX
    rw [show cd.y + (PDFEditor.pointerY e - cd.y) = PDFEditor.pointerY e by ring] at hY
    exact ⟨hX, hY⟩
  case bottomRight =>
    have hX := keyX (PDFEditor.resizeBy Handle.bottomRight cd cropStart (PDFEditor.pointerX e)
      (PDFEditor.pointerY e)) c1 (by simp only [PDFEditor.resizeBy]; linarith)
      (by simp only [PDFEditor.resizeBy]; linarith)
      (by simp only [PDFEditor.resizeBy]; linarith)
    have hY := keyY (PDFEditor.resizeBy Handle.bottomRight cd cropStart (PDFEditor.pointerX e)
      (PDFEditor.pointerY e)) c2 (by simp only [PDFEditor.resizeBy]; linarith)
      (by simp only [PDFEditor.resizeBy]; linarith)
      (by simp only [PDFEditor.resizeBy]; linarith)
    simp only [PDFEditor.resizeBy] at hX hY
    rw [show cd.x + (PDFEditor.pointerX e - cd.x) = PDFEditor.pointerX e by ring] at hX
    rw [show cd.y + (PDFEditor.pointerY e - cd.y) = PDFEditor.pointerY e by ring] at hY
    exact ⟨hX, hY⟩
  case top =>
    have hX := keyX (PDFEditor.resizeBy Handle.top cd cropStart (PDFEditor.pointerX e)
      (PDFEditor.pointerY e)) c1 (by simp only [PDFEditor.resizeBy]; linarith)
      (by simp only [PDFEditor.resizeBy]; linarith)
      (by simp only [PDFEditor.resizeBy]; linarith)
    have hY := keyY (PDFEditor.resizeBy Handle.top cd cropStart (PDFEditor.pointerX e)
      (PDFEditor.pointerY e)) hy0 hy1 (by simp only [PDFEditor.resizeBy]; linarith)
      (by simp only [PDFEditor.resizeBy]; linarith)
    simp only [PDFEditor.resizeBy] at hX hY
    rw [show PDFEditor.pointerY e + (cd.height + (cd.y - PDFEditor.pointerY e)) =
      cd.y + cd.height by ring] at hY
    exact ⟨hasEdgesX_unchanged _ cd c3 hX, hY⟩
  case right =>
    have hX := keyX (PDFEditor.resizeBy Handle.right cd cropStart (PDFEditor.pointerX e)
      (PDFEditor.pointerY e)) c1 (by simp only [PDFEditor.resizeBy]; linarith)
      (by simp only [PDFEditor.resizeBy]; linarith)
      (by simp only [PDFEditor.resizeBy]; linarith)
    have hY := keyY (PDFEditor.resizeBy Handle.right cd cropStart (PDFEditor.pointerX e)
      (PDFEditor.pointerY e)) c2 (by simp only [PDFEditor.resizeBy]; linarith)
      (by simp only [PDFEditor.resizeBy]; linarith)
      (by simp only [PDFEditor.resizeBy]; linarith)
    simp only [PDFEditor.resizeBy] at hX hY
    rw [show cd.x + (PDFEditor.pointerX e - cd.x) = PDFEditor.pointerX e by ring] at hX
    exact ⟨hX, hasEdgesY_unchanged _ cd c4 hY⟩
  case bottom =>
    have hX := keyX (PDFEditor.resizeBy Handle.bottom cd cropStart (PDFEditor.pointerX e)
      (PDFEditor.pointerY e)) c1 (by simp only [PDFEditor.resizeBy]; linarith)
      (by simp only [PDFEditor.resizeBy]; linarith)
      (by simp only [PDFEditor.resizeBy]; linarith)
    have hY := keyY (PDFEditor.resizeBy Handle.bottom cd cropStart (PDFEditor.pointerX e)
      (PDFEditor.pointerY e)) c2 (by simp only [PDFEditor.resizeBy]; linarith)
      (by simp only [PDFEditor.resizeBy]; linarith)
      (by simp only [PDFEditor.resizeBy]; linarith)
    simp only [PDFEditor.resizeBy] at hX hY
    rw [show cd.y + (PDFEditor.pointerY e - cd.y) = PDFEditor.pointerY e by ring] at hY
    exact ⟨hasEdgesX_unchanged _ cd c3 hX, hY⟩
  case left =>
    have hX := keyX (PDFEditor.resizeBy Handle.left cd cropStart (PDFEditor.pointerX e)
      (PDFEditor.pointerY e)) hx0 hx1 (by simp only [PDFEditor.resizeBy]; linarith)
      (by simp only [PDFEditor.resizeBy]; linarith)
    have hY := keyY (PDFEditor.resizeBy Handle.left cd cropStart (PDFEditor.pointerX e)
      (PDFEditor.pointerY e)) c2 (by simp only [PDFEditor.resizeBy]; linarith)
      (by simp only [PDFEditor.resizeBy]; linarith)
      (by simp only [PDFEditor.resizeBy]; linarith)
    simp only [PDFEditor.resizeBy] at hX hY
    rw [show PDFEditor.pointerX e + (cd.width + (cd.x - PDFEditor.pointerX e)) =
      cd.x + cd.width by ring] at hX
    exact ⟨hX, hasEdgesY_unchanged _ cd c4 hY⟩
  case move => trivial

/-- C22: each resize handle holds its opposite anchor fixed: for each of the eight handles,
every in-bounds locked rectangle and every pointer position (clamped to the container),
after one `handleMouseMove` step the edges the handle does not touch are edges of the new
rectangle at the same coordinates and the edges it touches are at the pointer, also when
the handle crosses over the opposite edge and the origin is flipped. -/
theorem resize_holds_anchor (s : PDFEditor.State) (e : MouseEvent) (h : Handle) (cd : Rect)
    (hW : 0 ≤ e.rect.width) (hH : 0 ≤ e.rect.height)
    (hc : s.isCropping = true) (hd : s.isDragging = true) (hf : s.pdfFile ≠ none)
    (hh : s.activeHandle = some h) (hcd : s.cropDimensions = some cd)
    (hin : InBounds e.rect.width e.rect.height cd) :
    ∃ s' r, PDFEditor.handleMouseMove s e = some s' ∧ s'.cropDimensions = some r ∧
      AnchorsHeld h cd r (PDFEditor.pointerX e) (PDFEditor.pointerY e) ∧
      (0 ≤ e.clientX - e.rect.left → e.clientX - e.rect.left ≤ e.rect.width →
        PDFEditor.pointerX e = e.clientX - e.rect.left) ∧
      (0 ≤ e.clientY - e.rect.top → e.clientY - e.rect.top ≤ e.rect.height →
        PDFEditor.pointerY e = e.clientY - e.rect.top) := by
  obtain ⟨s', h1, h2⟩ := handleMouseMove_handle s e h cd hc hd hf hh hcd
  refine ⟨s', _, h1, h2, adjusted_anchorsHeld h cd s.cropStart e hW hH hin, ?_, ?_⟩
  · intro a b
    unfold PDFEditor.pointerX
    rw [min_eq_left b, max_eq_right a]
  · intro a b
    unfold PDFEditor.pointerY
    rw [min_eq_left b, max_eq_right a]

theorem sampleCd_inBounds :
    InBounds sampleEvent.rect.width sampleEvent.rect.height
      { x := 100, y := 100, width := 200, height := 200 } := by
  norm_num [InBounds, sampleEvent]

theorem resize_holds_anchor_witness :
    (0 ≤ sampleEvent.rect.width ∧ 0 ≤ sampleEvent.rect.height ∧
      sampleDrag.isCropping = true ∧ sampleDrag.isDragging = true ∧
      sampleDrag.pdfFile ≠ none ∧ sampleDrag.activeHandle = some Handle.topLeft ∧
      sampleDrag.cropDimensions = some { x := 100, y := 100, width := 200, height := 200 } ∧
      InBounds sampleEvent.rect.width sampleEvent.rect.height
        { x := 100, y := 100, width := 200, height := 200 }) ∧
    ∃ s' r, PDFEditor.handleMouseMove sampleDrag sampleEvent = some s' ∧
      s'.cropDimensions = some r ∧
      AnchorsHeld Handle.topLeft { x := 100, y := 100, width := 200, height := 200 } r
        (PDFEditor.pointerX sampleEvent) (PDFEditor.pointerY sampleEvent) ∧
      (0 ≤ sampleEvent.clientX - sampleEvent.rect.left →
        sampleEvent.clientX - sampleEvent.rect.left ≤ sampleEvent.rect.width →
        PDFEditor.pointerX sampleEvent = sampleEvent.clientX - sampleEvent.rect.left) ∧
      (0 ≤ sampleEvent.clientY - sampleEvent.rect.top →
        sampleEvent.clientY - sampleEvent.rect.top ≤ sampleEvent.rect.height →
        PDFEditor.pointerY sampleEvent = sampleEvent.clientY - sampleEvent.rect.top) :=
  ⟨⟨by norm_num [sampleEvent], by norm_num [sampleEvent], rfl, rfl, by simp [sampleDrag],
      rfl, rfl, sampleCd_inBounds⟩,
    resize_holds_anchor sampleDrag sampleEvent Handle.topLeft
      { x := 100, y := 100, width := 200, height := 200 } (by norm_num [sampleEvent])
      (by norm_num [sampleEvent]) rfl rfl (by simp [sampleDrag]) rfl rfl sampleCd_inBounds⟩

theorem crossing_pointer :
    PDFEditor.pointerX crossingEvent = 40 ∧ PDFEditor.pointerY crossingEvent = 200 := by
  constructor <;> norm_num [PDFEditor.pointerX, PDFEditor.pointerY, crossingEvent]

theorem crossing_adjusted :
    PDFEditor.adjusted Handle.right { x := 100, y := 100, width := 200, height := 200 }
      sampleRightDrag.cropStart crossingEvent =
      { x := 40, y := 100, width := 60, height := 200 } := by
  norm_num [PDFEditor.adjusted, PDFEditor.resizeBy, PDFEditor.flipNegative, PDFEditor.constrain,
    PDFEditor.pointerX, PDFEditor.pointerY, crossingEvent]

/-- C23 as stated fails: with the `right` handle active on the rectangle `(100, 100, 200,
200)` and the pointer at abscissa 40, left of the rectangle, `handleMouseMove` stores
`(40, 100, 60, 200)`: `x` has changed. -/
theorem right_handle_can_move_x :
    ¬ (∀ s' r, PDFEditor.handleMouseMove sampleRightDrag crossingEvent = some s' →
        s'.cropDimensions = some r → r.x = 100 ∧ r.y = 100 ∧ r.height = 200) := by
  intro hall
  obtain ⟨s', h1, h2⟩ := handleMouseMove_handle sampleRightDrag crossingEvent Handle.right
    { x := 100, y := 100, width := 200, height := 200 } rfl rfl
    (by simp [sampleRightDrag, sampleDrag]) rfl rfl
  rw [crossing_adjusted] at h2
  have hx := (hall s' _ h1 h2).1
  norm_num at hx

/-- C23 (amended): dragging the `right` handle of an in-bounds locked rectangle leaves `y`
and `height` unchanged at every pointer position, and leaves `x` unchanged (only `width`
changes, to the distance from the left edge to the pointer) as long as the pointer is not
left of the left edge; when the pointer crosses over the left edge the origin flips: `x`
becomes the pointer abscissa and the old left edge becomes the right edge. -/
theorem right_handle_frame (s : PDFEditor.State) (e : MouseEvent) (cd : Rect)
    (hW : 0 ≤ e.rect.width) (hH : 0 ≤ e.rect.height)
    (hc : s.isCropping = true) (hd : s.isDragging = true) (hf : s.pdfFile ≠ none)
    (hh : s.activeHandle = some Handle.right) (hcd : s.cropDimensions = some cd)
    (hin : InBounds e.rect.width e.rect.height cd) :
    ∃ s' r, PDFEditor.handleMouseMove s e = some s' ∧ s'.cropDimensions = some r ∧
      r.y = cd.y ∧ r.height = cd.height ∧
      (cd.x ≤ PDFEditor.pointerX e → r.x = cd.x ∧ r.width = PDFEditor.pointerX e - cd.x) ∧
      (PDFEditor.pointerX e < cd.x →
        r.x = PDFEditor.pointerX e ∧ r.x + r.width = cd.x) := by
  obtain ⟨s', h1, h2⟩ := handleMouseMove_handle s e Handle.right cd hc hd hf hh hcd
  have hanchor := adjusted_anchorsHeld Handle.right cd s.cropStart e hW hH hin
  obtain ⟨⟨hx1, hx2⟩, hy1, hy2⟩ := hanchor
  refine ⟨s', _, h1, h2, hy1, hy2, ?_, ?_⟩
  · intro hle
    rw [min_eq_left hle] at hx1
    rw [max_eq_right hle] at hx2
    exact ⟨hx1, by linarith⟩
  · intro hlt
    rw [min_eq_right (le_of_lt hlt)] at hx1
    rw [max_eq_left (le_of_lt hlt)] at hx2
    exact ⟨hx1, hx2⟩

theorem right_handle_frame_witness :
    (0 ≤ crossingEvent.rect.width ∧ 0 ≤ crossingEvent.rect.height ∧
      sampleRightDrag.isCropping = true ∧ sampleRightDrag.isDragging = true ∧
      sampleRightDrag.pdfFile ≠ none ∧ sampleRightDrag.activeHandle = some Handle.right ∧
      sampleRightDrag.cropDimensions =
        some { x := 100, y := 100, width := 200, height := 200 } ∧
      InBounds crossingEvent.rect.width crossingEvent.rect.height
        { x := 100, y := 100, width := 200, height := 200 }) ∧
    ∃ s' r, PDFEditor.handleMouseMove sampleRightDrag crossingEvent = some s' ∧
      s'.cropDimensions = some r ∧ r.y = 100 ∧ r.height = 200 ∧
      ((100 : ℚ) ≤ PDFEditor.pointerX crossingEvent →
        r.x = 100 ∧ r.width = PDFEditor.pointerX crossingEvent - 100) ∧
      (PDFEditor.pointerX crossingEvent < 100 →
        r.x = PDFEditor.pointerX crossingEvent ∧ r.x + r.width = 100) :=
  ⟨⟨by norm_num [crossingEvent], by norm_num [crossingEvent], rfl, rfl,
      by simp [sampleRightDrag, sampleDrag], rfl, rfl,
      by norm_num [InBounds, crossingEvent]⟩,
    right_handle_frame sampleRightDrag crossingEvent
      { x := 100, y := 100, width := 200, height := 200 } (by norm_num [crossingEvent])
      (by norm_num [crossingEvent]) rfl rfl (by simp [sampleRightDrag, sampleDrag]) rfl rfl
      (by norm_num [InBounds, crossingEvent])⟩

theorem adjusted_move (cd : Rect) (q : Point) (e : MouseEvent) (hw : 0 ≤ cd.width)
    (hh : 0 ≤ cd.height) :
    PDFEditor.adjusted Handle.move cd (some q) e =
      { x := max 0 (min (cd.x + (PDFEditor.pointerX e - q.x)) (e.rect.width - cd.width)),
        y := max 0 (min (cd.y + (PDFEditor.pointerY e - q.y)) (e.rect.height - cd.height)),
        width := cd.width, height := cd.height } := by
  unfold PDFEditor.adjusted PDFEditor.constrain PDFEditor.flipNegative PDFEditor.resizeBy
  simp only [not_lt.mpr hw, not_lt.mpr hh, if_false]

theorem handleMouseMove_move_eq (s : PDFEditor.State) (e : MouseEvent) (cd : Rect) (q : Point)
    (hc : s.isCropping = true) (hd : s.isDragging = true) (hf : s.pdfFile ≠ none)
    (hh : s.activeHandle = some Handle.move) (hcd : s.cropDimensions = some cd)
    (hq : s.cropStart = some q) :
    PDFEditor.handleMouseMove s e =
      some { s with cropStart := some { x := PDFEditor.pointerX e, y := PDFEditor.pointerY e },
                    cropDimensions := some (PDFEditor.adjusted Handle.move cd (some q) e) } := by
  have hf2 : s.pdfFile.isNone = false := by
    cases hp : s.pdfFile with
    | none => exact absurd hp hf
    | some f => rfl
  unfold PDFEditor.handleMouseMove
  simp [hc, hd, hf2, hh, hcd, hq]

theorem handleMouseDown_move (t : PDFEditor.State) (down : MouseEvent) (cd : Rect)
    (hc : t.isCropping = true) (hf : t.pdfFile ≠ none) (hl : t.selectionLocked = true)
    (hcd : t.cropDimensions = some cd)
    (hmiss : (PDFEditor.handleRegions cd).find?
      (fun hr => PDFEditor.inside hr.2 (PDFEditor.pointerX down) (PDFEditor.pointerY down)) =
        none)
    (hins : PDFEditor.inside cd (PDFEditor.pointerX down) (PDFEditor.pointerY down) = true) :
    PDFEditor.handleMouseDown t down =
      { t with activeHandle := some Handle.move, isDragging := true,
               cropStart := some { x := PDFEditor.pointerX down,
                                   y := PDFEditor.pointerY down } } := by
  have hf2 : t.pdfFile.isNone = false := by
    cases hp : t.pdfFile with
    | none => exact absurd hp hf
    | some f => rfl
  unfold PDFEditor.handleMouseDown
  simp only [hc, hf2, hl, hcd, hmiss, hins, Bool.not_true, Bool.or_self, Bool.false_eq_true,
    if_false, if_true]

/-- C30: moving a locked selection preserves its size: for an in-bounds rectangle in a
container of size `W × H`, with `activeHandle = 'move'`, at every pointer position
`handleMouseMove` leaves `width` and `height` unchanged and sets `(x, y)` to the previous
origin plus the pointer displacement since the previous pointer event, clamped to
`[0, W - width] × [0, H - height]`; the previous pointer position is the one stored by
`handleMouseDown` and then by each move. -/
theorem move_preserves_size (s : PDFEditor.State) (e : MouseEvent) (cd : Rect) (q : Point)
    (hc : s.isCropping = true) (hd : s.isDragging = true) (hf : s.pdfFile ≠ none)
    (hh : s.activeHandle = some Handle.move) (hcd : s.cropDimensions = some cd)
    (hq : s.cropStart = some q) (hin : InBounds e.rect.width e.rect.height cd) :
    (∃ s' r, PDFEditor.handleMouseMove s e = some s' ∧ s'.cropDimensions = some r ∧
        r.width = cd.width ∧ r.height = cd.height ∧
        r.x = max 0 (min (cd.x + (PDFEditor.pointerX e - q.x)) (e.rect.width - cd.width)) ∧
        r.y = max 0 (min (cd.y + (PDFEditor.pointerY e - q.y)) (e.rect.height - cd.height)) ∧
        (0 ≤ r.x ∧ r.x ≤ e.rect.width - cd.width) ∧
        (0 ≤ r.y ∧ r.y ≤ e.rect.height - cd.height) ∧
        s'.cropStart = some { x := PDFEditor.pointerX e, y := PDFEditor.pointerY e }) ∧
      ∀ (t : PDFEditor.State) (down : MouseEvent) (cd' : Rect),
        t.isCropping = true → t.pdfFile ≠ none → t.selectionLocked = true →
        t.cropDimensions = some cd' →
        (PDFEditor.handleRegions cd').find?
            (fun hr => PDFEditor.inside hr.2 (PDFEditor.pointerX down)
              (PDFEditor.pointerY down)) = none →
        PDFEditor.inside cd' (PDFEditor.pointerX down) (PDFEditor.pointerY down) = true →
        (PDFEditor.handleMouseDown t down).activeHandle = some Handle.move ∧
          (PDFEditor.handleMouseDown t down).cropStart =
            some { x := PDFEditor.pointerX down, y := PDFEditor.pointerY down } := by
  obtain ⟨c1, c2, c3, c4, c5, c6⟩ := hin
  constructor
  · refine ⟨_, _, handleMouseMove_move_eq s e cd q hc hd hf hh hcd hq, rfl, ?_⟩
    rw [adjusted_move cd q e c3 c4]
    refine ⟨rfl, rfl, rfl, rfl, ⟨le_max_left _ _, ?_⟩, ⟨le_max_left _ _, ?_⟩, rfl⟩
    · exact max_le (by linarith) (min_le_right _ _)
    · exact max_le (by linarith) (min_le_right _ _)
  · intro t down cd' h1 h2 h3 h4 h5 h6
    rw [handleMouseDown_move t down cd' h1 h2 h3 h4 h5 h6]
    exact ⟨rfl, rfl⟩

theorem move_preserves_size_witness :
    (sampleMove.isCropping = true ∧ sampleMove.isDragging = true ∧
      sampleMove.pdfFile ≠ none ∧ sampleMove.activeHandle = some Handle.move ∧
      sampleMove.cropDimensions = some { x := 100, y := 100, width := 200, height := 200 } ∧
      sampleMove.cropStart = some { x := 150, y := 150 } ∧
      InBounds sampleEvent.rect.width sampleEvent.rect.height
        { x := 100, y := 100, width := 200, height := 200 }) ∧
    ∃ s' r, PDFEditor.handleMouseMove sampleMove sampleEvent = some s' ∧
      s'.cropDimensions = some r ∧ r.width = 200 ∧ r.height = 200 ∧
      r.x = max 0 (min (100 + (PDFEditor.pointerX sampleEvent - 150))
        (sampleEvent.rect.width - 200)) ∧
      r.y = max 0 (min (100 + (PDFEditor.pointerY sampleEvent - 150))
        (sampleEvent.rect.height - 200)) ∧
      (0 ≤ r.x ∧ r.x ≤ sampleEvent.rect.width - 200) ∧
      (0 ≤ r.y ∧ r.y ≤ sampleEvent.rect.height - 200) ∧
      s'.cropStart =
        some { x := PDFEditor.pointerX sampleEvent, y := PDFEditor.pointerY sampleEvent } :=
  ⟨⟨rfl, rfl, by simp [sampleMove, sampleDrag], rfl, rfl, rfl, sampleCd_inBounds⟩,
    (move_preserves_size sampleMove sampleEvent
      { x := 100, y := 100, width := 200, height := 200 } { x := 150, y := 150 } rfl rfl
      (by simp [sampleMove, sampleDrag]) rfl rfl rfl sampleCd_inBounds).1⟩

/-! ### The minimum size of a locked selection -/

theorem reachable_afterMove (s : PDFEditor.State) (e : MouseEvent)
    (hs : PDFEditor.Reachable s) : PDFEditor.Reachable (afterMove s e) := by
  unfold afterMove
  cases hstep : PDFEditor.handleMouseMove s e with
  | none => exact hs
  | some s' => exact PDFEditor.Reachable.mouseMove s s' e hs hstep

theorem pointerAt_xy (x y : ℚ) (hx0 : 0 ≤ x) (hx1 : x ≤ 600) (hy0 : 0 ≤ y) (hy1 : y ≤ 800) :
    PDFEditor.pointerX (pointerAt x y) = x ∧ PDFEditor.pointerY (pointerAt x y) = y := by
  unfold PDFEditor.pointerX PDFEditor.pointerY pointerAt
  simp only [sub_zero]
  rw [min_eq_left hx1, max_eq_right hx0, min_eq_left hy1, max_eq_right hy0]
  exact ⟨rfl, rfl⟩

theorem drawnAndLocked_eq :
    drawnAndLocked =
      { pdfFile := some fivePageFile, isCropping := true, selectionLocked := true,
        cropStart := some { x := 100, y := 100 }, cropEnd := some { x := 300, y := 300 },
        cropDimensions := some { x := 100, y := 100, width := 200, height := 200 } } := by
  obtain ⟨hx1, hy1⟩ := pointerAt_xy 100 100 (by norm_num) (by norm_num) (by norm_num)
    (by norm_num)
  obtain ⟨hx2, hy2⟩ := pointerAt_xy 300 300 (by norm_num) (by norm_num) (by norm_num)
    (by norm_num)
  unfold drawnAndLocked afterMove
  simp [PDFEditor.toggleCropping, PDFEditor.handleMouseDown, PDFEditor.startSelection,
    PDFEditor.handleMouseMove, PDFEditor.drawn, PDFEditor.handleMouseUp, PDFEditor.validSize,
    hx1, hy1, hx2, hy2]
  norm_num

theorem rightHandle_pressed :
    PDFEditor.handleMouseDown drawnAndLocked (pointerAt 300 200) =
      { pdfFile := some fivePageFile, isCropping := true, selectionLocked := true,
        isDragging := true, activeHandle := some Handle.right,
        cropStart := some { x := 100, y := 100 }, cropEnd := some { x := 300, y := 300 },
        cropDimensions := some { x := 100, y := 100, width := 200, height := 200 } } := by
  obtain ⟨hx, hy⟩ := pointerAt_xy 300 200 (by norm_num) (by norm_num) (by norm_num)
    (by norm_num)
  rw [drawnAndLocked_eq]
  unfold PDFEditor.handleMouseDown
  simp only [hx, hy]
  norm_num [PDFEditor.handleRegions, PDFEditor.inside, List.find?]

theorem shrunkAndReleased_eq :
    shrunkAndReleased =
      { pdfFile := some fivePageFile, isCropping := true, selectionLocked := true,
        cropStart := some { x := 100, y := 100 }, cropEnd := some { x := 300, y := 300 },
        cropDimensions := some { x := 100, y := 100, width := 5, height := 200 } } := by
  have hadj : PDFEditor.adjusted Handle.right
      { x := 100, y := 100, width := 200, height := 200 } (some { x := 100, y := 100 })
      (pointerAt 105 200) = { x := 100, y := 100, width := 5, height := 200 } := by
    norm_num [PDFEditor.adjusted, PDFEditor.resizeBy, PDFEditor.flipNegative,
      PDFEditor.constrain, PDFEditor.pointerX, PDFEditor.pointerY, pointerAt]
  unfold shrunkAndReleased afterMove
  rw [rightHandle_pressed]
  simp [PDFEditor.handleMouseMove, hadj, PDFEditor.handleMouseUp, PDFEditor.validSize]

theorem drawnAndLocked_reachable : PDFEditor.Reachable drawnAndLocked :=
  PDFEditor.Reachable.mouseUp _
    (reachable_afterMove _ _
      (PDFEditor.Reachable.mouseDown _ _
        (PDFEditor.Reachable.toggle _ (PDFEditor.Reachable.init (some fivePageFile)))))

/-- The sample session reaches a locked selection of width 5: a selection is drawn and locked
(200 × 200), its `right` handle is dragged to 5 pixels from the left edge and the pointer is
released; the state reached has `selectionLocked = true` with a rectangle of width 5, which is
not above the minimum of 10. -/
theorem locked_selection_below_minimum :
    PDFEditor.Reachable shrunkAndReleased ∧
      shrunkAndReleased.selectionLocked = true ∧
      shrunkAndReleased.cropDimensions =
        some { x := 100, y := 100, width := 5, height := 200 } ∧
      PDFEditor.validSize shrunkAndReleased.cropDimensions = false ∧
      ¬ ((5 : ℚ) > 10) := by
  refine ⟨?_, ?_, ?_, ?_, by norm_num⟩
  · exact PDFEditor.Reachable.mouseUp _
      (reachable_afterMove _ _ (PDFEditor.Reachable.mouseDown _ _ drawnAndLocked_reachable))
  · rw [shrunkAndReleased_eq]
  · rw [shrunkAndReleased_eq]
  · rw [shrunkAndReleased_eq]
    norm_num [PDFEditor.validSize]

/-- C24 as stated fails: the state reached by drawing and locking a 200 × 200 selection,
dragging its `right` handle to 5 pixels from the left edge and releasing the pointer is
locked with a rectangle of width 5. -/
theorem locked_selection_can_shrink :
    ¬ (∀ s : PDFEditor.State, PDFEditor.Reachable s → s.selectionLocked = true →
        ∃ cd, s.cropDimensions = some cd ∧ cd.width > 10 ∧ cd.height > 10) := by
  intro hall
  obtain ⟨hreach, hlocked, hcd, _, hsmall⟩ := locked_selection_below_minimum
  obtain ⟨cd, h1, h2, _⟩ := hall shrunkAndReleased hreach hlocked
  rw [hcd] at h1
  have hw : cd.width = 5 := by rw [← Option.some.inj h1]
  rw [hw] at h2
  exact hsmall h2

theorem handleMouseDown_locked (s : PDFEditor.State) (e : MouseEvent)
    (hinv : s.selectionLocked = true → ∃ cd, s.cropDimensions = some cd)
    (hl : (PDFEditor.handleMouseDown s e).selectionLocked = true) :
    ∃ cd, (PDFEditor.handleMouseDown s e).cropDimensions = some cd := by
  unfold PDFEditor.handleMouseDown at hl ⊢
  by_cases hgate : (!s.isCropping || s.pdfFile.isNone) = true
  · rw [if_pos hgate] at hl ⊢
    exact hinv hl
  · rw [if_neg hgate] at hl ⊢
    cases hcd : s.cropDimensions with
    | none =>
      rw [hcd] at hl
      exact absurd hl (by simp [PDFEditor.startSelection])
    | some cd =>
      cases hlock : s.selectionLocked with
      | false =>
        rw [hcd, hlock] at hl
        exact absurd hl (by simp [PDFEditor.startSelection])
      | true =>
        rw [hcd, hlock] at hl
        simp only [] at hl ⊢
        cases hfind : (PDFEditor.handleRegions cd).find?
            (fun hr => PDFEditor.inside hr.2 (PDFEditor.pointerX e) (PDFEditor.pointerY e)) with
        | some hr => exact ⟨cd, by simp [hfind, hcd]⟩
        | none =>
          rw [hfind] at hl
          simp only [] at hl ⊢
          by_cases hin : PDFEditor.inside cd (PDFEditor.pointerX e) (PDFEditor.pointerY e) = true
          · exact ⟨cd, by simp [hfind, hin, hcd]⟩
          · rw [if_neg hin] at hl
            exact absurd hl (by simp [PDFEditor.startSelection])

theorem handleMouseMove_locked (s s' : PDFEditor.State) (e : MouseEvent)
    (hinv : s.selectionLocked = true → ∃ cd, s.cropDimensions = some cd)
    (hstep : PDFEditor.handleMouseMove s e = some s') (hl : s'.selectionLocked = true) :
    ∃ cd, s'.cropDimensions = some cd := by
  unfold PDFEditor.handleMouseMove at hstep
  split_ifs at hstep with hgate
  · rw [← Option.some.inj hstep] at hl ⊢
    exact hinv hl
  · split at hstep
    · split at hstep
      · exact absurd hstep (by simp)
      · rw [← Option.some.inj hstep]
        exact ⟨_, rfl⟩
    · split at hstep
      · exact absurd hstep (by simp)
      · rw [← Option.some.inj hstep]
        exact ⟨_, rfl⟩

theorem handleMouseUp_locked (s : PDFEditor.State)
    (hinv : s.selectionLocked = true → ∃ cd, s.cropDimensions = some cd)
    (hl : (PDFEditor.handleMouseUp s).selectionLocked = true) :
    ∃ cd, (PDFEditor.handleMouseUp s).cropDimensions = some cd := by
  unfold PDFEditor.handleMouseUp at hl ⊢
  split_ifs at hl ⊢ with hgate hvalid
  · exact hinv hl
  · cases hcd : s.cropDimensions with
    | none =>
      rw [hcd] at hvalid
      exact absurd hvalid (by simp [PDFEditor.validSize])
    | some cd => exact ⟨cd, rfl⟩
  · exact hinv hl

theorem reachable_locked_has_rectangle (s : PDFEditor.State) (hs : PDFEditor.Reachable s) :
    s.selectionLocked = true → ∃ cd, s.cropDimensions = some cd := by
  induction hs with
  | init file =>
    intro h
    exact absurd h (by simp)
  | mouseDown s e _ ih => exact handleMouseDown_locked s e ih
  | mouseMove s s' e _ hstep ih => exact handleMouseMove_locked s s' e ih hstep
  | mouseUp s _ ih => exact handleMouseUp_locked s ih
  | toggle s _ ih =>
    intro h
    unfold PDFEditor.toggleCropping at h ⊢
    by_cases hc : (!s.isCropping) = true
    · rw [if_pos hc] at h
      exact absurd h (by simp)
    · rw [if_neg hc] at h ⊢
      exact ih h
  | cancel s _ _ =>
    intro h
    exact absurd h (by simp [PDFEditor.cancelCrop])
  | adjust s _ _ =>
    intro h
    exact absurd h (by simp [PDFEditor.adjustCrop])
  | reset s _ _ =>
    intro h
    exact absurd h (by simp [PDFEditor.resetSelection])

theorem handleMouseUp_sets_lock (s : PDFEditor.State) (hunlocked : s.selectionLocked = false)
    (hl : (PDFEditor.handleMouseUp s).selectionLocked = true) :
    ∃ cd, s.cropDimensions = some cd ∧ (PDFEditor.handleMouseUp s).cropDimensions = some cd ∧
      cd.width > 10 ∧ cd.height > 10 := by
  unfold PDFEditor.handleMouseUp at hl ⊢
  split_ifs at hl ⊢ with hgate hvalid
  · rw [hunlocked] at hl
    exact Bool.noConfusion hl
  · cases hcd : s.cropDimensions with
    | none =>
      rw [hcd] at hvalid
      exact absurd hvalid (by simp [PDFEditor.validSize])
    | some cd =>
      rw [hcd] at hvalid
      simp only [PDFEditor.validSize, Bool.and_eq_true, decide_eq_true_eq] at hvalid
      exact ⟨cd, rfl, rfl, hvalid.1, hvalid.2⟩
  · rw [hunlocked] at hl
    exact Bool.noConfusion hl

/-- C24 (amended): in every state reachable from the initial state by `handleMouseDown`,
`handleMouseMove`, `handleMouseUp`, `toggleCropping`, `cancelCrop`, `adjustCrop` and Reset
Selection, `selectionLocked = true` implies that `cropDimensions` is non-null; and whenever
`handleMouseUp` locks a selection that was not locked, its rectangle has `width > 10` and
`height > 10`. (A locked rectangle resized with a handle keeps its lock at any size.) -/
theorem locked_selection_policy (s : PDFEditor.State) (hs : PDFEditor.Reachable s) :
    (s.selectionLocked = true → ∃ cd, s.cropDimensions = some cd) ∧
      (s.selectionLocked = false → (PDFEditor.handleMouseUp s).selectionLocked = true →
        ∃ cd, s.cropDimensions = some cd ∧
          (PDFEditor.handleMouseUp s).cropDimensions = some cd ∧
          cd.width > 10 ∧ cd.height > 10) :=
  ⟨reachable_locked_has_rectangle s hs, handleMouseUp_sets_lock s⟩

theorem drawnUnreleased_reachable : PDFEditor.Reachable drawnUnreleased :=
  reachable_afterMove _ _
    (PDFEditor.Reachable.mouseDown _ _
      (PDFEditor.Reachable.toggle _ (PDFEditor.Reachable.init (some fivePageFile))))

theorem drawnUnreleased_facts :
    drawnUnreleased.selectionLocked = false ∧
      (PDFEditor.handleMouseUp drawnUnreleased).selectionLocked = true := by
  have h : PDFEditor.handleMouseUp drawnUnreleased = drawnAndLocked := rfl
  constructor
  · obtain ⟨hx1, hy1⟩ := pointerAt_xy 100 100 (by norm_num) (by norm_num) (by norm_num)
      (by norm_num)
    unfold drawnUnreleased afterMove
    simp [PDFEditor.toggleCropping, PDFEditor.handleMouseDown, PDFEditor.startSelection,
      PDFEditor.handleMouseMove]
  · rw [h, drawnAndLocked_eq]

theorem locked_selection_policy_witness :
    PDFEditor.Reachable drawnUnreleased ∧ drawnUnreleased.selectionLocked = false ∧
      (PDFEditor.handleMouseUp drawnUnreleased).selectionLocked = true ∧
      ∃ cd, drawnUnreleased.cropDimensions = some cd ∧
        (PDFEditor.handleMouseUp drawnUnreleased).cropDimensions = some cd ∧
        cd.width > 10 ∧ cd.height > 10 :=
  ⟨drawnUnreleased_reachable, drawnUnreleased_facts.1, drawnUnreleased_facts.2,
    (locked_selection_policy drawnUnreleased drawnUnreleased_reachable).2
      drawnUnreleased_facts.1 drawnUnreleased_facts.2⟩

/-! ### The padding of the crop box -/

/-- C25: for an in-bounds selection whose left edge in points is at least 30
(`x * xRatio ≥ 30`), the crop box `applyCrop` computes starts exactly 30 points left of the
selection's left edge and ends exactly 31 points left of its right edge:
`cropX = x * xRatio - 30`, `cropWidth = width * xRatio - 1` and
`cropX + cropWidth = (x + width) * xRatio - 31`. -/
theorem cropBox_shifted_and_narrowed (naturalWidth naturalHeight displayWidth displayHeight : ℚ)
    (sel : Rect) (hnw : 0 < naturalWidth) (hdw : 0 < displayWidth)
    (hsel : InBounds displayWidth displayHeight sel)
    (hleft : 30 ≤ sel.x *
      PDFEditor.xRatio naturalWidth { width := displayWidth, height := displayHeight }) :
    (PDFEditor.cropBox naturalWidth naturalHeight
          { width := displayWidth, height := displayHeight } sel).x =
        sel.x * PDFEditor.xRatio naturalWidth
          { width := displayWidth, height := displayHeight } - 30 ∧
      (PDFEditor.cropBox naturalWidth naturalHeight
          { width := displayWidth, height := displayHeight } sel).width =
        sel.width * PDFEditor.xRatio naturalWidth
          { width := displayWidth, height := displayHeight } - 1 ∧
      (PDFEditor.cropBox naturalWidth naturalHeight
            { width := displayWidth, height := displayHeight } sel).x +
          (PDFEditor.cropBox naturalWidth naturalHeight
            { width := displayWidth, height := displayHeight } sel).width =
        (sel.x + sel.width) * PDFEditor.xRatio naturalWidth
          { width := displayWidth, height := displayHeight } - 31 := by
  obtain ⟨hx, _, hw, _, hxw, _⟩ := hsel
  simp only [PDFEditor.cropBox, PDFEditor.xRatio] at hleft ⊢
  have hratio : 0 ≤ naturalWidth / displayWidth := le_of_lt (div_pos hnw hdw)
  have hfull : displayWidth * (naturalWidth / displayWidth) = naturalWidth := by
    field_simp
  have hright : (sel.x + sel.width) * (naturalWidth / displayWidth) ≤ naturalWidth := by
    have := mul_le_mul_of_nonneg_right hxw hratio
    linarith
  have hcx : max 0 (sel.x * (naturalWidth / displayWidth) - 30) =
      sel.x * (naturalWidth / displayWidth) - 30 := max_eq_right (by linarith)
  rw [hcx]
  have hcw : min (naturalWidth - (sel.x * (naturalWidth / displayWidth) - 30))
      (sel.width * (naturalWidth / displayWidth) - 1) =
      sel.width * (naturalWidth / displayWidth) - 1 := by
    apply min_eq_right
    nlinarith
  rw [hcw]
  exact ⟨rfl, rfl, by ring⟩

theorem cropBox_shifted_and_narrowed_witness :
    ((0 : ℚ) < 600 ∧ (0 : ℚ) < 1200 ∧
      InBounds 1200 1600 { x := 200, y := 200, width := 400, height := 400 } ∧
      (30 : ℚ) ≤ 200 * PDFEditor.xRatio 600 { width := 1200, height := 1600 }) ∧
    (PDFEditor.cropBox 600 800 { width := 1200, height := 1600 }
        { x := 200, y := 200, width := 400, height := 400 }).x =
      200 * PDFEditor.xRatio 600 { width := 1200, height := 1600 } - 30 :=
  ⟨⟨by norm_num, by norm_num, by norm_num [InBounds], by norm_num [PDFEditor.xRatio]⟩,
    (cropBox_shifted_and_narrowed 600 800 1200 1600
      { x := 200, y := 200, width := 400, height := 400 } (by norm_num) (by norm_num)
      (by norm_num [InBounds]) (by norm_num [PDFEditor.xRatio])).1⟩

/-! ### The size reported and the size applied -/

/-- C26 as stated fails: at `scale = 1`, for a 612 × 792 pt page and a 200 × 200 selection,
the width reported is `pixelsToPoints(200, 1) = 150` while the `exactWidth` applied is
200. -/
theorem reported_size_differs :
    ¬ (PDFEditor.pixelsToPoints 200 sampleLocked.scale =
          200 * PDFEditor.xRatio 612 sampleLocked.pageSize ∧
        PDFEditor.pixelsToPoints 200 sampleLocked.scale =
          (PDFEditor.cropBox 612 792 sampleLocked.pageSize
            { x := 100, y := 100, width := 200, height := 200 }).height) := by
  rintro ⟨h, _⟩
  norm_num [PDFEditor.pixelsToPoints, PDFEditor.xRatio, sampleLocked] at h

/-- C26 (amended): the crop size reported is proportional to the crop size applied: for
every selection and every `displayScale > 0`, `pixelsToPoints(width, scale) * (scale *
xRatio) = (72/96) * exactWidth` and `pixelsToPoints(height, scale) * (scale * yRatio) =
(72/96) * cropHeight`; when the ratios are taken against the size displayed at that scale
(`xRatio = yRatio = 1/scale`) the reported width and height are 72/96 of the `exactWidth`
and `cropHeight` applied. -/
theorem reported_size_proportional (naturalWidth naturalHeight scale : ℚ) (pageSize : Size)
    (sel : Rect) (hs : 0 < scale) (hnw : 0 < naturalWidth) (hnh : 0 < naturalHeight) :
    PDFEditor.pixelsToPoints sel.width scale *
          (scale * PDFEditor.xRatio naturalWidth pageSize) =
        72 / 96 * (sel.width * PDFEditor.xRatio naturalWidth pageSize) ∧
      PDFEditor.pixelsToPoints sel.height scale *
          (scale * PDFEditor.yRatio naturalHeight pageSize) =
        72 / 96 * (PDFEditor.cropBox naturalWidth naturalHeight pageSize sel).height ∧
      (pageSize = { width := naturalWidth * scale, height := naturalHeight * scale } →
        PDFEditor.pixelsToPoints sel.width scale =
            72 / 96 * (sel.width * PDFEditor.xRatio naturalWidth pageSize) ∧
          PDFEditor.pixelsToPoints sel.height scale =
            72 / 96 * (PDFEditor.cropBox naturalWidth naturalHeight pageSize sel).height) := by
  have hs0 : scale ≠ 0 := ne_of_gt hs
  have hw0 : naturalWidth ≠ 0 := ne_of_gt hnw
  have hh0 : naturalHeight ≠ 0 := ne_of_gt hnh
  have key : ∀ w X : ℚ, w / scale * (72 / 96) * (scale * X) = 72 / 96 * (w * X) := by
    intro w X
    field_simp
    ring
  refine ⟨?_, ?_, ?_⟩
  · simp only [PDFEditor.pixelsToPoints]
    exact key _ _
  · simp only [PDFEditor.pixelsToPoints, PDFEditor.cropBox]
    exact key _ _
  · intro hsize
    rw [hsize]
    simp only [PDFEditor.pixelsToPoints, PDFEditor.xRatio, PDFEditor.yRatio, PDFEditor.cropBox]
    constructor
    · field_simp
      ring
    · field_simp
      ring

theorem reported_size_proportional_witness :
    ((0 : ℚ) < 2 ∧ (0 : ℚ) < 600 ∧ (0 : ℚ) < 800) ∧
      PDFEditor.pixelsToPoints 400 2 * (2 * PDFEditor.xRatio 600 { width := 1200, height := 1600 }) =
        72 / 96 * (400 * PDFEditor.xRatio 600 { width := 1200, height := 1600 }) :=
  ⟨⟨by norm_num, by norm_num, by norm_num⟩,
    (reported_size_proportional 600 800 2 { width := 1200, height := 1600 }
      { x := 200, y := 200, width := 400, height := 400 } (by norm_num) (by norm_num)
      (by norm_num)).1⟩

/-! ### Algebra of parsePageRanges and togglePageSelection -/

theorem Js.split_ne_nil (sep : Char) (s : List Char) : Js.split sep s ≠ [] := by
  cases s with
  | nil => simp [Js.split]
  | cons c cs =>
    unfold Js.split
    split_ifs <;> simp

theorem Js.split_append (sep : Char) (a b : List Char) :
    Js.split sep (a ++ sep :: b) = Js.split sep a ++ Js.split sep b := by
  induction a with
  | nil => simp [Js.split]
  | cons c cs ih =>
    rw [List.cons_append]
    by_cases hc : c = sep
    · simp only [Js.split, hc, if_true, ih, List.cons_append]
    · simp only [Js.split, hc, if_false, ih]
      rcases hsp : Js.split sep cs with _ | ⟨first, others⟩
      · exact absurd hsp (Js.split_ne_nil sep cs)
      · simp

theorem tokensOf_append (a b : List Char) :
    tokensOf (a ++ ',' :: b) = tokensOf a ++ tokensOf b := by
  unfold tokensOf
  rw [Js.split_append, List.map_append]

theorem eq_of_sorted_of_mem (l₁ l₂ : List Int) (h₁ : l₁.Sorted (· < ·))
    (h₂ : l₂.Sorted (· < ·)) (h : ∀ p, p ∈ l₁ ↔ p ∈ l₂) : l₁ = l₂ :=
  List.eq_of_perm_of_sorted ((List.perm_ext_iff_of_nodup h₁.nodup h₂.nodup).mpr h) h₁ h₂

theorem mem_parsePageRanges_append (a b : List Char) (n p : Int) :
    p ∈ PDFRemover.parsePageRanges (a ++ ',' :: b) n ↔
      p ∈ PDFRemover.parsePageRanges a n ∨ p ∈ PDFRemover.parsePageRanges b n := by
  simp only [mem_parsePageRanges, tokensOf_append, List.mem_append]
  constructor
  · rintro ⟨⟨t, ht | ht, hp⟩, hr⟩
    · exact Or.inl ⟨⟨t, ht, hp⟩, hr⟩
    · exact Or.inr ⟨⟨t, ht, hp⟩, hr⟩
  · rintro (⟨⟨t, ht, hp⟩, hr⟩ | ⟨⟨t, ht, hp⟩, hr⟩)
    · exact ⟨⟨t, Or.inl ht, hp⟩, hr⟩
    · exact ⟨⟨t, Or.inr ht, hp⟩, hr⟩

/-- C27: `parsePageRanges` distributes over comma-concatenation: for all texts `a`, `b` and
every page count, `parsePageRanges(a + "," + b)` is the sorted, duplicate-free union of
`parsePageRanges(a)` and `parsePageRanges(b)`; so the result does not depend on the order of
the two parts, and repeating a text changes nothing. -/
theorem parsePageRanges_union (a b : List Char) (pageCount : Int) :
    (PDFRemover.parsePageRanges (a ++ ',' :: b) pageCount).Sorted (· < ·) ∧
      (∀ p, p ∈ PDFRemover.parsePageRanges (a ++ ',' :: b) pageCount ↔
        p ∈ PDFRemover.parsePageRanges a pageCount ∨
          p ∈ PDFRemover.parsePageRanges b pageCount) ∧
      PDFRemover.parsePageRanges (a ++ ',' :: b) pageCount =
        Js.sortNumeric
          ((PDFRemover.parsePageRanges a pageCount ++
            PDFRemover.parsePageRanges b pageCount).dedup) ∧
      PDFRemover.parsePageRanges (a ++ ',' :: b) pageCount =
        PDFRemover.parsePageRanges (b ++ ',' :: a) pageCount ∧
      PDFRemover.parsePageRanges (a ++ ',' :: a) pageCount =
        PDFRemover.parsePageRanges a pageCount := by
  have hs : ∀ t, (PDFRemover.parsePageRanges t pageCount).Sorted (· < ·) :=
    fun t => (parsePageRanges_wellFormed t pageCount).1
  refine ⟨hs _, mem_parsePageRanges_append a b pageCount, ?_, ?_, ?_⟩
  · apply eq_of_sorted_of_mem _ _ (hs _) (Js.strict_sortNumeric _ (List.nodup_dedup _))
    intro p
    rw [mem_parsePageRanges_append, Js.mem_sortNumeric, List.mem_dedup, List.mem_append]
  · apply eq_of_sorted_of_mem _ _ (hs _) (hs _)
    intro p
    rw [mem_parsePageRanges_append, mem_parsePageRanges_append, or_comm]
  · apply eq_of_sorted_of_mem _ _ (hs _) (hs _)
    intro p
    rw [mem_parsePageRanges_append, or_self]

theorem parse_bound_irrelevant (text : List Char) (n m : Int) (hm : n ≤ m)
    (hflag : (PDFRemover.validate text n).1 = false) :
    PDFRemover.parsePageRanges text n = PDFRemover.parsePageRanges text m := by
  have hnone : ¬ ∃ v ∈ numbersOf text, n < v := by
    intro hex
    have := (validate_flag text n).mpr hex
    rw [hflag] at this
    exact Bool.noConfusion this
  apply eq_of_sorted_of_mem _ _ (parsePageRanges_wellFormed text n).1
    (parsePageRanges_wellFormed text m).1
  intro p
  rw [mem_parsePageRanges, mem_parsePageRanges]
  constructor
  · rintro ⟨ht, h1, h2⟩
    exact ⟨ht, h1, le_trans h2 hm⟩
  · rintro ⟨⟨t, ht, hp⟩, h1, _⟩
    refine ⟨⟨t, ht, hp⟩, h1, ?_⟩
    obtain ⟨_, v, hv, hpv⟩ := tokenPages_bounds t p hp
    by_contra hgt
    exact hnone ⟨v, List.mem_flatMap.mpr ⟨t, ht, hv⟩, by omega⟩

/-- C28: when `applyPageSelection` accepts a text for an `n`-page document (no validation
error), the committed selection equals `parsePageRanges(text, m)` for every `m ≥ n`: nothing
was cut off at the upper bound. -/
theorem accepted_selection_not_truncated (s : PDFRemover.State) (n : Nat)
    (hn : s.numPages = some n)
    (hok : (PDFRemover.applyPageSelection s).validationError = none) (m : Int)
    (hm : (n : Int) ≤ m) :
    (PDFRemover.applyPageSelection s).selectedPages =
      PDFRemover.parsePageRanges s.pagesToRemove m := by
  have hflag := applyPageSelection_no_error s hok
  have hsel : (PDFRemover.applyPageSelection s).selectedPages =
      PDFRemover.parsePageRanges s.pagesToRemove (numOf s.numPages) := by
    unfold PDFRemover.applyPageSelection
    simp only [hflag, Bool.false_eq_true, if_false]
  rw [hsel]
  rw [hn] at hflag ⊢
  exact parse_bound_irrelevant s.pagesToRemove n m hm hflag

theorem accepted_selection_not_truncated_witness :
    ((removerWith []).numPages = some 5 ∧
      (PDFRemover.applyPageSelection
          { removerWith [] with pagesToRemove := "0-2, 4".toList }).validationError = none ∧
      ((5 : Nat) : Int) ≤ 40) ∧
    (PDFRemover.applyPageSelection
        { removerWith [] with pagesToRemove := "0-2, 4".toList }).selectedPages =
      PDFRemover.parsePageRanges "0-2, 4".toList 40 :=
  ⟨⟨rfl, by decide, by decide⟩,
    accepted_selection_not_truncated
      { removerWith [] with pagesToRemove := "0-2, 4".toList } 5 rfl (by decide) 40
      (by decide)⟩

/-- C29: for a strictly increasing selection list `S` and a page `p`, `togglePageSelection`
(in `PDFRemover` and in `PDFEditor`) yields a strictly increasing list that has exactly the
pages of `S` with the membership of `p` flipped; toggling the same page twice restores
`S`. -/
theorem toggle_flips_membership (S : List Int) (p : Int) (hS : S.Sorted (· < ·)) :
    (toggleList S p).Sorted (· < ·) ∧
      (∀ q, q ∈ toggleList S p ↔ (q ∈ S ∧ q ≠ p) ∨ (q = p ∧ p ∉ S)) ∧
      (p ∈ S → p ∉ toggleList S p) ∧ (p ∉ S → p ∈ toggleList S p) ∧
      toggleList (toggleList S p) p = S ∧
      (∀ s : PDFRemover.State,
        (PDFRemover.togglePageSelection s p).selectedPages = toggleList s.selectedPages p) ∧
      (∀ s : PDFEditor.State,
        (PDFEditor.togglePageSelection s p).selectedPages = toggleList s.selectedPages p) := by
  have h1 := sorted_toggleList S p hS
  refine ⟨h1, mem_toggleList S p, ?_, ?_, ?_, fun _ => rfl, fun _ => rfl⟩
  · intro hin hmem
    rcases (mem_toggleList S p p).mp hmem with ⟨_, hne⟩ | ⟨_, hnot⟩
    · exact hne rfl
    · exact hnot hin
  · intro hnot
    exact (mem_toggleList S p p).mpr (Or.inr ⟨rfl, hnot⟩)
  · apply eq_of_sorted_of_mem _ _ (sorted_toggleList _ p h1) hS
    intro q
    rw [mem_toggleList, mem_toggleList, mem_toggleList]
    by_cases hq : q = p
    · subst hq
      by_cases hin : q ∈ S <;> simp [hin]
    · simp [hq]

theorem toggle_flips_membership_witness :
    ([1, 3, 5] : List Int).Sorted (· < ·) ∧
      toggleList (toggleList [1, 3, 5] 4) 4 = [1, 3, 5] ∧ toggleList [1, 3, 5] 4 = [1, 3, 4, 5] :=
  ⟨by decide,
    (toggle_flips_membership [1, 3, 5] 4 (by decide)).2.2.2.2.1, by decide⟩
